import Mathlib

/-!
The program i1d3util: protocol engine of the i1d3 colorimeter utility

A shallow embedding of `i1d3util.cpp`.  Buffers of `unsigned char` are lists of
natural numbers, `unsigned int` arithmetic is arithmetic modulo `2^32`, and the
HID device is a deterministic state machine that is fed the frames written to it.
-/

namespace I1d3

/-! ## Machine arithmetic and buffers -/

/-- A buffer of `n` bytes: a list of length `n` whose entries are below 256. -/
def IsBytes (n : Nat) (l : List Nat) : Prop := l.length = n ∧ ∀ b ∈ l, b < 256

instance (n : Nat) (l : List Nat) : Decidable (IsBytes n l) := by
  unfold IsBytes; infer_instance

/-- The modulus of `unsigned int`. -/
def U32 : Nat := 4294967296

/-- Unary minus on `unsigned int`. -/
def neg32 (k : Nat) : Nat := (U32 - k % U32) % U32

/-- Addition on `unsigned int`. -/
def add32 (a b : Nat) : Nat := (a + b) % U32

/-- Subtraction on `unsigned int`. -/
def sub32 (a b : Nat) : Nat := (a % U32 + (U32 - b % U32)) % U32

/-- Multiplication on `unsigned int`. -/
def mul32 (a b : Nat) : Nat := (a * b) % U32

/-- Conversion to `unsigned char`. -/
def u8 (x : Nat) : Nat := x % 256

/-- Conversion to `unsigned short`. -/
def u16 (x : Nat) : Nat := x % 65536

/-- The read `b[i]` of a buffer. -/
def rd (b : List Nat) (i : Nat) : Nat := b.getD i 0

/-- The loop `for (i = 0; i < n; i++) dst[doff + i] = src[soff + i]`, that is
`memcpy(dst + doff, src + soff, n)`. -/
def memcpy (dst : List Nat) (doff : Nat) (src : List Nat) (soff n : Nat) : List Nat :=
  (List.range n).foldl (fun d i => d.set (doff + i) (rd src (soff + i))) dst

/-! ## The unlock response (`i1d3CreateUnLockResponse`) -/

/-- The array `sc` of `i1d3CreateUnLockResponse`: `sc[i] = c[3] ^ c[35 + i]`. -/
def subChallenge (c : List Nat) : List Nat :=
  (List.range 8).map (fun i => u8 (rd c 3 ^^^ rd c (35 + i)))

/-- The array `sr` of `i1d3CreateUnLockResponse`: the 16 byte core response. -/
def unlockCore (k0 k1 : Nat) (c : List Nat) : List Nat :=
  let sc := subChallenge c
  let ci0 := ((rd sc 3 <<< 24) + (rd sc 0 <<< 16) + (rd sc 4 <<< 8) + rd sc 6) % U32
  let ci1 := ((rd sc 1 <<< 24) + (rd sc 7 <<< 16) + (rd sc 2 <<< 8) + rd sc 5) % U32
  let co0 := sub32 (neg32 k0) ci1
  let co1 := sub32 (neg32 k1) ci0
  let co2 := mul32 ci1 (neg32 k0)
  let co3 := mul32 ci0 (neg32 k1)
  let sum0 := (List.range 8).foldl (fun s i => add32 s (rd sc i)) 0
  let sum1 := add32 sum0
    (add32 (add32 (add32 (0xff &&& neg32 k0) (0xff &&& (neg32 k0 >>> 8)))
      (0xff &&& (neg32 k0 >>> 16))) (0xff &&& (neg32 k0 >>> 24)))
  let sum := add32 sum1
    (add32 (add32 (add32 (0xff &&& neg32 k1) (0xff &&& (neg32 k1 >>> 8)))
      (0xff &&& (neg32 k1 >>> 16))) (0xff &&& (neg32 k1 >>> 24)))
  let s0 := u8 (sum &&& 0xff)
  let s1 := u8 ((sum >>> 8) &&& 0xff)
  [ u8 (add32 ((co0 >>> 16) &&& 0xff) s0),
    u8 (sub32 ((co2 >>> 8) &&& 0xff) s1),
    u8 (add32 (co3 &&& 0xff) s1),
    u8 (add32 ((co1 >>> 16) &&& 0xff) s0),
    u8 (sub32 ((co2 >>> 16) &&& 0xff) s1),
    u8 (sub32 ((co3 >>> 16) &&& 0xff) s0),
    u8 (sub32 ((co1 >>> 24) &&& 0xff) s0),
    u8 (sub32 (co0 &&& 0xff) s1),
    u8 (add32 ((co3 >>> 8) &&& 0xff) s0),
    u8 (sub32 ((co2 >>> 24) &&& 0xff) s1),
    u8 (add32 ((co0 >>> 8) &&& 0xff) s0),
    u8 (sub32 ((co1 >>> 8) &&& 0xff) s1),
    u8 (add32 (co1 &&& 0xff) s1),
    u8 (add32 ((co3 >>> 24) &&& 0xff) s1),
    u8 (add32 (co2 &&& 0xff) s0),
    u8 (sub32 ((co0 >>> 24) &&& 0xff) s0) ]

/-- The function `i1d3CreateUnLockResponse(k0, k1, c, r)`; the result is the
buffer `r` after the call. -/
def i1d3CreateUnLockResponse (k0 k1 : Nat) (c r : List Nat) : List Nat :=
  let sr := unlockCore k0 k1 c
  let r1 := (List.range 64).foldl (fun r i => r.set i 0) r
  (List.range 16).foldl (fun r i => r.set (24 + i) (u8 (rd c 2 ^^^ rd sr i))) r1

/-- The table `i1d3UnLockKeys`. -/
def i1d3UnLockKeys : List (Nat × Nat) :=
  [ (0xe9622e9f, 0x8d63e133),
    (0xe01e6e0a, 0x257462de),
    (0xcaa62b2c, 0x30815b61),
    (0xa9119479, 0x5b168761),
    (0x160eb6ae, 0x14440e70),
    (0x291e41d7, 0x51937bdd),
    (0x1abfae03, 0xf25ac8e8),
    (0xc9bfafe0, 0x02871166),
    (0x828c43e9, 0xcbb8a8ed) ]

/-! ### The reference definition of the core response -/

/-- Byte `n` of an integer: `bN(x) = (x div 2^(8N)) mod 256`. -/
def byteN (n : Nat) (x : Int) : Int := (x / 2 ^ (8 * n)) % 256

/-- The sub-challenge byte `sc[i] = c[35+i] XOR c[3]` of the reference definition. -/
def refSc (c : List Nat) (i : Nat) : Int := ((Nat.xor (rd c (35 + i)) (rd c 3) : Nat) : Int)

/-- The reference definition of the 16 core response bytes, over the integers. -/
def refCore (k0 k1 : Nat) (c : List Nat) : List Int :=
  let sc := refSc c
  let word0 := sc 3 * 2 ^ 24 + sc 0 * 2 ^ 16 + sc 4 * 2 ^ 8 + sc 6
  let word1 := sc 1 * 2 ^ 24 + sc 7 * 2 ^ 16 + sc 2 * 2 ^ 8 + sc 5
  let d0 := (-(k0 : Int) - word1) % 2 ^ 32
  let d1 := (-(k1 : Int) - word0) % 2 ^ 32
  let d2 := (word1 * (-(k0 : Int))) % 2 ^ 32
  let d3 := (word0 * (-(k1 : Int))) % 2 ^ 32
  let n0 := (-(k0 : Int)) % 2 ^ 32
  let n1 := (-(k1 : Int)) % 2 ^ 32
  let sum := sc 0 + sc 1 + sc 2 + sc 3 + sc 4 + sc 5 + sc 6 + sc 7
    + (byteN 0 n0 + byteN 1 n0 + byteN 2 n0 + byteN 3 n0)
    + (byteN 0 n1 + byteN 1 n1 + byteN 2 n1 + byteN 3 n1)
  let s0 := sum % 256
  let s1 := (sum / 256) % 256
  [ (byteN 2 d0 + s0) % 256, (byteN 1 d2 - s1) % 256, (byteN 0 d3 + s1) % 256,
    (byteN 2 d1 + s0) % 256, (byteN 2 d2 - s1) % 256, (byteN 2 d3 - s0) % 256,
    (byteN 3 d1 - s0) % 256, (byteN 0 d0 - s1) % 256, (byteN 1 d3 + s0) % 256,
    (byteN 3 d2 - s1) % 256, (byteN 1 d0 + s0) % 256, (byteN 1 d1 - s1) % 256,
    (byteN 0 d1 + s1) % 256, (byteN 3 d3 + s1) % 256, (byteN 0 d2 + s0) % 256,
    (byteN 3 d0 - s0) % 256 ]

/-- The last step of `unlockCore`: the 16 bytes from the four words and the sum. -/
def coreBytes (co0 co1 co2 co3 sum : Nat) : List Nat :=
  let s0 := u8 (sum &&& 0xff)
  let s1 := u8 ((sum >>> 8) &&& 0xff)
  [ u8 (add32 ((co0 >>> 16) &&& 0xff) s0),
    u8 (sub32 ((co2 >>> 8) &&& 0xff) s1),
    u8 (add32 (co3 &&& 0xff) s1),
    u8 (add32 ((co1 >>> 16) &&& 0xff) s0),
    u8 (sub32 ((co2 >>> 16) &&& 0xff) s1),
    u8 (sub32 ((co3 >>> 16) &&& 0xff) s0),
    u8 (sub32 ((co1 >>> 24) &&& 0xff) s0),
    u8 (sub32 (co0 &&& 0xff) s1),
    u8 (add32 ((co3 >>> 8) &&& 0xff) s0),
    u8 (sub32 ((co2 >>> 24) &&& 0xff) s1),
    u8 (add32 ((co0 >>> 8) &&& 0xff) s0),
    u8 (sub32 ((co1 >>> 8) &&& 0xff) s1),
    u8 (add32 (co1 &&& 0xff) s1),
    u8 (add32 ((co3 >>> 24) &&& 0xff) s1),
    u8 (add32 (co2 &&& 0xff) s0),
    u8 (sub32 ((co0 >>> 24) &&& 0xff) s0) ]

/-- The last step of `refCore`, over the integers. -/
def refBytes (d0 d1 d2 d3 sum : Int) : List Int :=
  let s0 := sum % 256
  let s1 := (sum / 256) % 256
  [ (byteN 2 d0 + s0) % 256, (byteN 1 d2 - s1) % 256, (byteN 0 d3 + s1) % 256,
    (byteN 2 d1 + s0) % 256, (byteN 2 d2 - s1) % 256, (byteN 2 d3 - s0) % 256,
    (byteN 3 d1 - s0) % 256, (byteN 0 d0 - s1) % 256, (byteN 1 d3 + s0) % 256,
    (byteN 3 d2 - s1) % 256, (byteN 1 d0 + s0) % 256, (byteN 1 d1 - s1) % 256,
    (byteN 0 d1 + s1) % 256, (byteN 3 d3 + s1) % 256, (byteN 0 d2 + s0) % 256,
    (byteN 3 d0 - s0) % 256 ]

/-- The running sum of `unlockCore` from the sub-challenge bytes and the negated keys. -/
def coreSum (x0 x1 x2 x3 x4 x5 x6 x7 n0 n1 : Nat) : Nat :=
  add32 (add32 (add32 (add32 (add32 (add32 (add32 (add32 (add32 (add32 0 x0) x1) x2) x3) x4) x5)
    x6) x7)
    (add32 (add32 (add32 (0xff &&& n0) (0xff &&& (n0 >>> 8)))
      (0xff &&& (n0 >>> 16))) (0xff &&& (n0 >>> 24))))
    (add32 (add32 (add32 (0xff &&& n1) (0xff &&& (n1 >>> 8)))
      (0xff &&& (n1 >>> 16))) (0xff &&& (n1 >>> 24)))

/-- A challenge frame used to exercise the definitions. -/
def sampleChallenge : List Nat :=
  (List.range 64).map (fun i => (i * 37 + 11) % 256)

/-! ## The HID transport and `i1d3Command` -/

/-- The HID device behind `WriteFile` and `ReadFile`: a deterministic state machine.
`write s frame` is handed the 64 bytes that follow the report id and says whether
the write went through; `read s` yields `none` when the read fails or times out
and otherwise the bytes that follow the report id. -/
structure Device (σ : Type) where
  write : σ → List Nat → σ × Bool
  read : σ → σ × Option (List Nat)

/-- The device state together with the log of all frames handed to `writeHIDdevice`. -/
structure World (σ : Type) where
  st : σ
  sent : List (List Nat)

/-- The function `writeHIDdevice(dev, wbuf, 64)`: `-1` on failure, else the number of
bytes written after the report id. -/
def writeHIDdevice {σ : Type} (d : Device σ) (w : World σ) (wbuf : List Nat) : World σ × Int :=
  let frame := wbuf.take 64
  let res := d.write w.st frame
  (⟨res.1, w.sent ++ [frame]⟩, if res.2 then 64 else -1)

/-- The function `readHIDdevice(dev, rbuf, 64)`: `-1` on failure with `rbuf` untouched,
else the bytes received are copied to the front of `rbuf` and counted. -/
def readHIDdevice {σ : Type} (d : Device σ) (w : World σ) (rbuf : List Nat) :
    World σ × Int × List Nat :=
  let res := d.read w.st
  match res.2 with
  | none => (⟨res.1, w.sent⟩, -1, rbuf)
  | some bs =>
    let numRead := min bs.length 64
    (⟨res.1, w.sent⟩, (numRead : Int), memcpy rbuf 0 bs 0 numRead)

/-- The outcome of `i1d3Command`: its return value and the two buffers after the call. -/
structure CmdResult (σ : Type) where
  world : World σ
  ret : Int
  sBuf : List Nat
  rBuf : List Nat

/-- The function `i1d3Command(dev, cmdCode, sBuf, rBuf)`. -/
def i1d3Command {σ : Type} (d : Device σ) (w : World σ) (cmdCode : Nat) (sBuf rBuf : List Nat) :
    CmdResult σ :=
  let cmd := u8 ((cmdCode >>> 8) &&& 0xff)
  let sBuf1 := sBuf.set 0 cmd
  let sBuf2 := if cmd = 0x00 then sBuf1.set 1 (u8 (cmdCode &&& 0xff)) else sBuf1
  let wr := writeHIDdevice d w sBuf2
  if wr.2 = -1 then
    let fl := readHIDdevice d wr.1 rBuf
    ⟨fl.1, -1, sBuf2, fl.2.2⟩
  else
    let r1 := readHIDdevice d wr.1 rBuf
    if r1.2.1 = -1 then
      let fl := readHIDdevice d r1.1 r1.2.2
      ⟨fl.1, -1, sBuf2, fl.2.2⟩
    else if rd r1.2.2 0 ≠ 0x00 ∨ rd r1.2.2 1 ≠ cmd then
      ⟨r1.1, -1, sBuf2, r1.2.2⟩
    else
      ⟨r1.1, 0, sBuf2, r1.2.2⟩

/-- The frame `i1d3Command` hands to the transport. -/
def cmdFrame (cmdCode : Nat) (sBuf : List Nat) : List Nat :=
  (if u8 ((cmdCode >>> 8) &&& 0xff) = 0x00
    then (sBuf.set 0 (u8 ((cmdCode >>> 8) &&& 0xff))).set 1 (u8 (cmdCode &&& 0xff))
    else sBuf.set 0 (u8 ((cmdCode >>> 8) &&& 0xff))).take 64

/-! ## Unlocking (`i1d3UnLock`) -/

/-- The constant `i1d3numUnLockKeys`. -/
def i1d3numUnLockKeys : Nat := 9

/-- One pass through the body of the loop of `i1d3UnLock` for the key pair `k`, up to
the test of `fBuf[2]`: the world after the two commands, and `fBuf`. -/
def unlockAttempt {σ : Type} (d : Device σ) (k : Nat × Nat) (w : World σ) :
    World σ × List Nat :=
  let tBuf := List.replicate 64 0
  let fBuf := List.replicate 64 0
  let c1 := i1d3Command d w 0x9900 tBuf fBuf
  let tBuf1 := i1d3CreateUnLockResponse k.1 k.2 c1.rBuf c1.sBuf
  let c2 := i1d3Command d c1.world 0x9a00 tBuf1 c1.rBuf
  (c2.world, c2.rBuf)

/-- The loop of `i1d3UnLock` from index `cc` on, `keys` being the table entries from
`cc` to the end. -/
def unlockLoop {σ : Type} (d : Device σ) : List (Nat × Nat) → Nat → World σ → Int × World σ
  | [], _, w => (-1, w)
  | k :: keys, cc, w =>
    let a := unlockAttempt d k w
    if rd a.2 2 = 0x77 then ((cc : Int), a.1) else unlockLoop d keys (cc + 1) a.1

/-- The function `i1d3UnLock(dev)`: the index of the key that unlocked, or `-1`. -/
def i1d3UnLock {σ : Type} (d : Device σ) (w : World σ) : Int × World σ :=
  unlockLoop d (i1d3UnLockKeys.take i1d3numUnLockKeys) 0 w

/-- The world after the loop body of `i1d3UnLock` has been run for each of `keys` in
turn, whatever the device answered. -/
def attemptsRun {σ : Type} (d : Device σ) (keys : List (Nat × Nat)) (w : World σ) : World σ :=
  keys.foldl (fun w k => (unlockAttempt d k w).1) w

/-- The result buffer of attempt `j` (counted from 0): `fBuf` as it stands after the
loop body has been run for `keys[j]`, the attempts before it done.  It holds the
device's answer to the answer-challenge command when that was read in full, and what
was in the buffer before when the read failed. -/
def resultFrame {σ : Type} (d : Device σ) (keys : List (Nat × Nat)) (w : World σ) (j : Nat) :
    List Nat :=
  (unlockAttempt d (keys.getD j (0, 0)) (attemptsRun d (keys.take j) w)).2

/-- A simulated device that hands out `sampleChallenge` and answers `0x77` in byte 2
only to the response made with the third key pair of the table.  Its state is the
frame last written to it. -/
def oemDevice : Device (List Nat) where
  write := fun _ frame => (frame, true)
  read := fun s =>
    if rd s 0 = 0x99 then (s, some sampleChallenge)
    else if (s.drop 24).take 16 =
        ((i1d3CreateUnLockResponse 0xcaa62b2c 0x30815b61 sampleChallenge
          (List.replicate 64 0)).drop 24).take 16
      then (s, some ([0x00, 0x9a, 0x77] ++ List.replicate 61 0))
    else (s, some ([0x00, 0x9a, 0x00] ++ List.replicate 61 0))

/-- The simulated device before anything has been written to it. -/
def idleWorld : World (List Nat) := ⟨[], []⟩

/-- The function `i1d3EnWrite(dev)`; it always returns `-1`. -/
def i1d3EnWrite {σ : Type} (d : Device σ) (w : World σ) : Int × World σ :=
  let tBuf := List.replicate 64 0
  let fBuf := List.replicate 64 0
  let tBuf := (((tBuf.set 1 0xa3).set 2 0x80).set 3 0x25).set 4 0x41
  let c := i1d3Command d w 0xab00 tBuf fBuf
  (-1, c.world)

/-! ## EEPROM transfers -/

/-- The loop shared by the four transfer functions,
`for (int len(size), inc(0); len > 0; addr += inc, bPtr += inc, len -= inc)` with
`inc = len; if (inc > chunk) inc = chunk;` at the head of the body.  `addr` is an
`unsigned short`, `off` is `bPtr - buf`.  The first argument bounds the number of
iterations; `none` says that the bound was hit with bytes still to go. -/
def xferLoop {S : Type} (chunk : Nat) (body : Nat → Nat → Nat → S → S) :
    Nat → Nat → Nat → Nat → S → Option S
  | 0, len, _, _, s => if 0 < len then none else some s
  | fuel + 1, len, addr, off, s =>
    if 0 < len then
      let inc := if len > chunk then chunk else len
      xferLoop chunk body fuel (len - inc) (u16 (addr + inc)) (off + inc) (body addr off inc s)
    else some s

/-- The variables a transfer loop works on: the device, `tBuf`, `fBuf` and the image `buf`. -/
structure Xfer (σ : Type) where
  world : World σ
  tBuf : List Nat
  fBuf : List Nat
  buf : List Nat

/-- What a transfer function hands back: its return value, the device and the image. -/
structure XferResult (σ : Type) where
  ret : Int
  world : World σ
  buf : List Nat

/-- The body of the loop of `i1d3ReadExternalEeprom`. -/
def readExternalBody {σ : Type} (d : Device σ) (addr off inc : Nat) (s : Xfer σ) : Xfer σ :=
  let t1 := s.tBuf.set 1 (u8 ((addr >>> 8) &&& 0xff))
  let t2 := t1.set 2 (u8 (addr &&& 0xff))
  let t3 := t2.set 3 (u8 inc)
  let c := i1d3Command d s.world 0x1200 t3 s.fBuf
  ⟨c.world, c.sBuf, c.rBuf, memcpy s.buf off c.rBuf 5 inc⟩

/-- The function `i1d3ReadExternalEeprom(dev, buf)`. -/
def i1d3ReadExternalEeprom {σ : Type} (d : Device σ) (w : World σ) (buf : List Nat) :
    Option (XferResult σ) :=
  (xferLoop 59 (readExternalBody d) 8192 8192 0 0
    ⟨w, List.replicate 64 0, List.replicate 64 0, buf⟩).map (fun s => ⟨0, s.world, s.buf⟩)

/-- The body of the loop of `i1d3WriteExternalEeprom`. -/
def writeExternalBody {σ : Type} (d : Device σ) (addr off inc : Nat) (s : Xfer σ) : Xfer σ :=
  let t1 := s.tBuf.set 1 (u8 ((addr >>> 8) &&& 0xff))
  let t2 := t1.set 2 (u8 (addr &&& 0xff))
  let t3 := t2.set 3 (u8 inc)
  let t4 := memcpy t3 4 s.buf off inc
  let c := i1d3Command d s.world 0x1300 t4 s.fBuf
  ⟨c.world, c.sBuf, c.rBuf, s.buf⟩

/-- The function `i1d3WriteExternalEeprom(dev, buf)`. -/
def i1d3WriteExternalEeprom {σ : Type} (d : Device σ) (w : World σ) (buf : List Nat) :
    Option (XferResult σ) :=
  (xferLoop 32 (writeExternalBody d) 8192 8192 0 0
    ⟨w, List.replicate 64 0, List.replicate 64 0, buf⟩).map (fun s => ⟨0, s.world, s.buf⟩)

/-- The body of the loop of `i1d3ReadInternalEeprom`. -/
def readInternalBody {σ : Type} (d : Device σ) (addr off inc : Nat) (s : Xfer σ) : Xfer σ :=
  let t1 := s.tBuf.set 1 (u8 addr)
  let t2 := t1.set 2 (u8 inc)
  let c := i1d3Command d s.world 0x0800 t2 s.fBuf
  ⟨c.world, c.sBuf, c.rBuf, memcpy s.buf off c.rBuf 4 inc⟩

/-- The function `i1d3ReadInternalEeprom(dev, buf)`. -/
def i1d3ReadInternalEeprom {σ : Type} (d : Device σ) (w : World σ) (buf : List Nat) :
    Option (XferResult σ) :=
  (xferLoop 60 (readInternalBody d) 256 256 0 0
    ⟨w, List.replicate 64 0, List.replicate 64 0, buf⟩).map (fun s => ⟨0, s.world, s.buf⟩)

/-- The body of the loop of `i1d3WriteInternalEeprom`. -/
def writeInternalBody {σ : Type} (d : Device σ) (addr off inc : Nat) (s : Xfer σ) : Xfer σ :=
  let t1 := s.tBuf.set 1 (u8 addr)
  let t2 := t1.set 2 (u8 inc)
  let t3 := memcpy t2 3 s.buf off inc
  let c := i1d3Command d s.world 0x0700 t3 s.fBuf
  ⟨c.world, c.sBuf, c.rBuf, s.buf⟩

/-- The function `i1d3WriteInternalEeprom(dev, buf)`. -/
def i1d3WriteInternalEeprom {σ : Type} (d : Device σ) (w : World σ) (buf : List Nat) :
    Option (XferResult σ) :=
  (xferLoop 32 (writeInternalBody d) 256 256 0 0
    ⟨w, List.replicate 64 0, List.replicate 64 0, buf⟩).map (fun s => ⟨0, s.world, s.buf⟩)

/-- The state of a transfer loop after its first `n` chunks, for a loop whose chunks
all start at multiples of `chunk`. -/
def chunksDone {S : Type} (chunk size : Nat) (body : Nat → Nat → Nat → S → S) (s : S) (n : Nat) : S :=
  (List.range n).foldl
    (fun s k => body (chunk * k) (chunk * k) (min chunk (size - chunk * k)) s) s

/-- The first `n` chunks `(address, length)` of a region of `size` bytes cut into
pieces of `chunk` bytes: chunk `k` starts at `chunk * k`. -/
def chunkList (chunk size n : Nat) : List (Nat × Nat) :=
  (List.range n).map (fun k => (chunk * k, min chunk (size - chunk * k)))

/-- A chunk sequence is well formed for a region: it starts at address 0, each next
address is the previous address plus the previous length, each length is
`min chunk (size - address)`, and the lengths add up to `size`. -/
def ChunksOk (chunk size : Nat) (l : List (Nat × Nat)) : Prop :=
  l.head?.map Prod.fst = some 0 ∧
  (∀ k, k < l.length - 1 → (l.getD (k + 1) (0, 0)).1 = (l.getD k (0, 0)).1 + (l.getD k (0, 0)).2) ∧
  (∀ p ∈ l, p.2 = min chunk (size - p.1)) ∧
  (l.map Prod.snd).sum = size

instance (chunk size : Nat) (l : List (Nat × Nat)) : Decidable (ChunksOk chunk size l) := by
  unfold ChunksOk; infer_instance

/-- The chunks `(addr, inc)` a transfer loop of the given size and chunk length goes
through, in order: the loop run with a body that only records them. -/
def chunkTrace (chunk size : Nat) : Option (List (Nat × Nat)) :=
  xferLoop chunk (fun addr _ inc acc => acc ++ [(addr, inc)]) size size 0 0 []

/-- The common shape of the four loop bodies: build the request in `tBuf` with `mk`,
run the command, and let `store` update the image from the reply in `fBuf`. -/
def xferBody {σ : Type} (d : Device σ) (code : Nat)
    (mk : List Nat → List Nat → Nat → Nat → Nat → List Nat)
    (store : List Nat → Nat → List Nat → Nat → List Nat)
    (addr off inc : Nat) (s : Xfer σ) : Xfer σ :=
  let c := i1d3Command d s.world code (mk s.tBuf s.buf addr off inc) s.fBuf
  ⟨c.world, c.sBuf, c.rBuf, store s.buf off c.rBuf inc⟩

/-- What the frame and buffer lemmas need to know of a transfer loop: the opcode `op`
of `code` is not zero; `P` holds of the zeroed `tBuf` and of every request frame and
makes a buffer 64 bytes long; `Q` holds of the image at the start and is kept by `store`;
and under `P` and `Q` the request built by `mk` for chunk `k`, with the opcode in byte
0, is `frame k`. -/
structure XferOk (code op chunk size N : Nat)
    (mk : List Nat → List Nat → Nat → Nat → Nat → List Nat)
    (store : List Nat → Nat → List Nat → Nat → List Nat)
    (frame : Nat → List Nat) (P Q : List Nat → Prop) (buf0 : List Nat) : Prop where
  hop : u8 ((code >>> 8) &&& 0xff) = op
  hop0 : op ≠ 0
  hP0 : P (List.replicate 64 0)
  hPlen : ∀ t, P t → t.length = 64
  hQ0 : Q buf0
  hQ : ∀ b o r n, Q b → Q (store b o r n)
  hmk : ∀ t b k, k < N → P t → Q b →
    (mk t b (chunk * k) (chunk * k) (min chunk (size - chunk * k))).set 0 op = frame k
  hPf : ∀ k, k < N → P (frame k)

/-- One command exchange seen from the device: the frame is written, then one report
is read.  The result is the next device state and what the read produced. -/
def exchange {σ : Type} (d : Device σ) (s : σ) (frame : List Nat) : σ × Option (List Nat) :=
  d.read (d.write s frame).1

/-- The device state after the first `n` of the request frames `frame 0, frame 1, ...`
have been exchanged. -/
def stAfter {σ : Type} (d : Device σ) (s : σ) (frame : Nat → List Nat) : Nat → σ
  | 0 => s
  | n + 1 => (exchange d (stAfter d s frame n) (frame n)).1

/-- The response of the device to request `k` of the sequence `frame 0, frame 1, ...`. -/
def replyAt {σ : Type} (d : Device σ) (s : σ) (frame : Nat → List Nat) (k : Nat) :
    Option (List Nat) :=
  (exchange d (stAfter d s frame k) (frame k)).2

/-- A device all of whose exchanges succeed: every write goes through and every read
delivers a full frame of 64 bytes. -/
def Responsive {σ : Type} (d : Device σ) : Prop :=
  ∀ s frame, (d.write s frame).2 = true ∧ ∃ fr, (d.read s).2 = some fr ∧ fr.length = 64

/-- The state of the loopback stub: the bytes stored in the internal and the external
address space, and the request frame last written to it. -/
structure LoopMem where
  int : Nat → Nat
  ext : Nat → Nat
  last : List Nat

/-- The loopback device stub.  A write request (`0x07` internal, `0x13` external) stores
its payload at the address given in its header; a read request (`0x08` internal, `0x12`
external) is answered with a success frame (status `0x00`, opcode echoed) that carries
the stored bytes at the read payload offset (4 internal, 5 external). -/
def loopback : Device LoopMem where
  write := fun m f =>
    if rd f 0 = 0x07 then
      (⟨fun i => if rd f 1 ≤ i ∧ i < rd f 1 + rd f 2 then rd f (3 + (i - rd f 1)) else m.int i,
        m.ext, f⟩, true)
    else if rd f 0 = 0x13 then
      (⟨m.int,
        fun i => if rd f 1 * 256 + rd f 2 ≤ i ∧ i < rd f 1 * 256 + rd f 2 + rd f 3
          then rd f (4 + (i - (rd f 1 * 256 + rd f 2))) else m.ext i,
        f⟩, true)
    else (⟨m.int, m.ext, f⟩, true)
  read := fun m =>
    (m, some ((List.range 64).map (fun j =>
      if j = 0 then 0x00 else if j = 1 then rd m.last 0
      else if rd m.last 0 = 0x08 then
        (if 4 ≤ j ∧ j < 4 + rd m.last 2 then m.int (rd m.last 1 + (j - 4)) else 0)
      else if rd m.last 0 = 0x12 then
        (if 5 ≤ j ∧ j < 5 + rd m.last 3
          then m.ext (rd m.last 1 * 256 + rd m.last 2 + (j - 5)) else 0)
      else 0)))

/-- The loopback stub with all stored bytes zero and nothing sent so far. -/
def loopWorld : World LoopMem := ⟨⟨fun _ => 0, fun _ => 0, []⟩, []⟩

/-! ### The request frames, as the protocol describes them -/

/-- The request frame of an external write of `n` bytes of `image` at address `a`. -/
def extWriteFrame (image : List Nat) (a n : Nat) : List Nat :=
  (List.range 64).map (fun j =>
    if j = 0 then 0x13 else if j = 1 then a / 256 else if j = 2 then a % 256
    else if j = 3 then n else if j < 4 + n then rd image (a + (j - 4)) else 0)

/-- The request frame of an internal write of `n` bytes of `image` at address `a`. -/
def intWriteFrame (image : List Nat) (a n : Nat) : List Nat :=
  (List.range 64).map (fun j =>
    if j = 0 then 0x07 else if j = 1 then a else if j = 2 then n
    else if j < 3 + n then rd image (a + (j - 3)) else 0)

/-- The request frame of an external read of `n` bytes at address `a`. -/
def extReadFrame (a n : Nat) : List Nat :=
  (List.range 64).map (fun j =>
    if j = 0 then 0x12 else if j = 1 then a / 256 else if j = 2 then a % 256
    else if j = 3 then n else 0)

/-- The request frame of an internal read of `n` bytes at address `a`. -/
def intReadFrame (a n : Nat) : List Nat :=
  (List.range 64).map (fun j =>
    if j = 0 then 0x08 else if j = 1 then a else if j = 2 then n else 0)

/-! ## The checksum and the signature patch -/

/-- The function `calcCsum(buf, alt)`. -/
def calcCsum (buf : List Nat) (alt : Bool) : Nat :=
  let sz := if alt then 0x179a else 0x178e
  let sum := ((List.range sz).drop 4).foldl (fun sum i => add32 sum (rd buf i)) 0
  sum &&& 0xffff

/-- An image with all bytes zero, whose stored checksum is valid. -/
def blankImage : List Nat := List.replicate 8192 0

/-- An external image whose stored checksum (1) is not its checksum (0). -/
def staleImage : List Nat := blankImage.set 2 1

/-- A signature block used to exercise the definitions. -/
def sampleSignature : List Nat := List.replicate 0x48 0xa5

/-- An internal image used to exercise the definitions. -/
def sampleInternal : List Nat := (List.range 256).map (fun i => (i * 7 + 3) % 256)

/-- The checksum stored in an external image: little-endian at offsets 2 and 3. -/
def storedCsum (img : List Nat) : Nat := rd img 2 + 256 * rd img 3

/-- How the signature branch of `main` ends: `return 0`, or `exit(1)` after the
checksum message. -/
inductive Exit where
  | done
  | checksumFailed
  deriving DecidableEq, Repr

/-- The end of a run of the signature branch: exit kind, device and the image `eBuf`. -/
structure MainResult (σ : Type) where
  exit : Exit
  world : World σ
  eBuf : List Nat

/-- The signature branch of `main` from the checksum test on: `buf` is the signature
read from the file, `eBuf` the image read from the device, `enable` the flag `-w`. -/
def wSigPatch {σ : Type} (d : Device σ) (w : World σ) (enable : Bool) (buf eBuf : List Nat) :
    Option (MainResult σ) :=
  let fsum := rd eBuf 2 ||| (rd eBuf 3 <<< 8)
  let csum := calcCsum eBuf false
  if csum ≠ fsum then some ⟨Exit.checksumFailed, w, eBuf⟩
  else
    let e1 := memcpy eBuf 0x1638 buf 0 0x48
    let csum := calcCsum e1 false
    let e2 := e1.set 2 (u8 (u8 (csum >>> 0) &&& 0xff))
    let e3 := e2.set 3 (u8 (u8 (csum >>> 8) &&& 0xff))
    if enable then (i1d3WriteExternalEeprom d w e3).map (fun r => ⟨Exit.done, r.world, e3⟩)
    else some ⟨Exit.done, w, e3⟩

/-- The signature branch of `main` (`-S`) once the signature file has been read. -/
def mainWriteSig {σ : Type} (d : Device σ) (w : World σ) (enable : Bool) (buf : List Nat) :
    Option (MainResult σ) :=
  let u := i1d3UnLock d w
  let e := i1d3EnWrite d u.2
  (i1d3ReadExternalEeprom d e.2 (List.replicate 8192 0)).bind
    (fun r => wSigPatch d r.world enable buf r.buf)

/-! ## The commands issued by the loops, one at a time -/

/-- The get-challenge command at the head of the loop body of `i1d3UnLock`. -/
def challengeCmd {σ : Type} (d : Device σ) (w : World σ) : CmdResult σ :=
  i1d3Command d w 0x9900 (List.replicate 64 0) (List.replicate 64 0)

/-- The answer-challenge command of the loop body of `i1d3UnLock` for the key pair `k`. -/
def answerCmd {σ : Type} (d : Device σ) (k : Nat × Nat) (w : World σ) : CmdResult σ :=
  i1d3Command d (challengeCmd d w).world 0x9a00
    (i1d3CreateUnLockResponse k.1 k.2 (challengeCmd d w).rBuf (challengeCmd d w).sBuf)
    (challengeCmd d w).rBuf

/-- The frame the device hands back to the answer-challenge command of attempt `j`
(counted from 0), the attempts before it done: what the read that follows the write of
the answer frame delivers, `none` when that read fails. -/
def answerFrame {σ : Type} (d : Device σ) (keys : List (Nat × Nat)) (w : World σ) (j : Nat) :
    Option (List Nat) :=
  let c1 := challengeCmd d (attemptsRun d (keys.take j) w)
  (exchange d c1.world.st (cmdFrame 0x9a00
    (i1d3CreateUnLockResponse (keys.getD j (0, 0)).1 (keys.getD j (0, 0)).2 c1.rBuf c1.sBuf))).2

/-- The command issued by the loop body of `i1d3ReadExternalEeprom`. -/
def readExternalCmd {σ : Type} (d : Device σ) (addr inc : Nat) (s : Xfer σ) : CmdResult σ :=
  i1d3Command d s.world 0x1200
    (((s.tBuf.set 1 (u8 ((addr >>> 8) &&& 0xff))).set 2 (u8 (addr &&& 0xff))).set 3 (u8 inc))
    s.fBuf

/-- The command issued by the loop body of `i1d3WriteExternalEeprom`. -/
def writeExternalCmd {σ : Type} (d : Device σ) (addr off inc : Nat) (s : Xfer σ) :
    CmdResult σ :=
  i1d3Command d s.world 0x1300
    (memcpy (((s.tBuf.set 1 (u8 ((addr >>> 8) &&& 0xff))).set 2 (u8 (addr &&& 0xff))).set 3
      (u8 inc)) 4 s.buf off inc)
    s.fBuf

/-- The command issued by the loop body of `i1d3ReadInternalEeprom`. -/
def readInternalCmd {σ : Type} (d : Device σ) (addr inc : Nat) (s : Xfer σ) : CmdResult σ :=
  i1d3Command d s.world 0x0800 ((s.tBuf.set 1 (u8 addr)).set 2 (u8 inc)) s.fBuf

/-- The command issued by the loop body of `i1d3WriteInternalEeprom`. -/
def writeInternalCmd {σ : Type} (d : Device σ) (addr off inc : Nat) (s : Xfer σ) :
    CmdResult σ :=
  i1d3Command d s.world 0x0700 (memcpy ((s.tBuf.set 1 (u8 addr)).set 2 (u8 inc)) 3 s.buf off inc)
    s.fBuf

/-- The buffer accesses `(addr, bPtr - buf, inc)` a transfer loop of the given size and
chunk length goes through, in order: the loop run with a body that only records the
address, the offset of `bPtr` in the image and the length of each chunk. -/
def accessTrace (chunk size : Nat) : Option (List (Nat × Nat × Nat)) :=
  xferLoop chunk (fun addr off inc acc => acc ++ [(addr, off, inc)]) size size 0 0 []

/-- A device on which every write and every read fails. -/
def deadDevice : Device Unit where
  write := fun s _ => (s, false)
  read := fun s => (s, none)

/-- The device `deadDevice` with nothing sent so far. -/
def deadWorld : World Unit := ⟨(), []⟩

/-- A simulated device that answers the get-challenge command with a valid frame whose
byte 2 is `0x77` and lets every other read fail.  Its state is the frame last written. -/
def staleDevice : Device (List Nat) where
  write := fun _ frame => (frame, true)
  read := fun s =>
    if rd s 0 = 0x99 then (s, some ([0x00, 0x99, 0x77] ++ List.replicate 61 0))
    else (s, none)

/-! ## The rest of `main` -/

/-- The function `i1d3GetInfo(dev, rBuf)`: the device afterwards and the text copied by
`strncpy(rBuf, fBuf + 2, 62)` into the zeroed `rBuf`. -/
def i1d3GetInfo {σ : Type} (d : Device σ) (w : World σ) : World σ × List Nat :=
  let c := i1d3Command d w 0x0000 (List.replicate 64 0) (List.replicate 64 0)
  let src := ((c.rBuf.drop 2).take 62).takeWhile (fun b => b ≠ 0)
  (c.world, memcpy (List.replicate 64 0) 0 src 0 src.length)

/-- The serial number step of `main`: `memset(serNum, 0, 21)`,
`memcpy(serNum, fileName, 20)`, `memcpy(&eBuf[16], serNum, 20)`.  The list `fileName`
holds the characters of the argument; in memory they are followed by the terminator
and then by `after`, whatever lies behind the `strlen + 1` bytes of the buffer. -/
def serialStep (eBuf fileName after : List Nat) : List Nat :=
  let serNum := List.replicate 21 0
  let serNum := memcpy serNum 0 (fileName ++ [0] ++ after) 0 20
  memcpy eBuf 16 serNum 0 20

/-- The serial number field as the specification describes it: the string truncated to
20 bytes, or padded with zero bytes to 20 bytes. -/
def serialField (s : List Nat) : List Nat :=
  s.take 20 ++ List.replicate (20 - s.length) 0

/-- The flags of `main`, set by the option letters. -/
structure Flags where
  verNum : Bool := false
  forceOverWrite : Bool := false
  enableEEPROMwrite : Bool := false
  rSerNum : Bool := false
  wSerNum : Bool := false
  rIeeprom : Bool := false
  wIeeprom : Bool := false
  rEeeprom : Bool := false
  wEeeprom : Bool := false
  rSig : Bool := false
  wSig : Bool := false

/-- One turn of the `switch (opt)` of `main`; `none` is `exit(1)` (help or bad option). -/
def applyOpt (fl : Flags) (opt : Char) : Option Flags :=
  if opt = 'f' then some { fl with forceOverWrite := true }
  else if opt = 'w' then some { fl with enableEEPROMwrite := true }
  else if opt = 'v' then some { fl with verNum := true }
  else if opt = 'n' then some { fl with rSerNum := true }
  else if opt = 'N' then some { fl with wSerNum := true }
  else if opt = 'i' then some { fl with rIeeprom := true }
  else if opt = 'I' then some { fl with wIeeprom := true }
  else if opt = 'e' then some { fl with rEeeprom := true }
  else if opt = 'E' then some { fl with wEeeprom := true }
  else if opt = 's' then some { fl with rSig := true }
  else if opt = 'S' then some { fl with wSig := true }
  else none

/-- The option loop of `main` over the letters that `getopt` hands out. -/
def parseOpts : Flags → List Char → Option Flags
  | fl, [] => some fl
  | fl, opt :: opts =>
    match applyOpt fl opt with
    | none => none
    | some fl1 => parseOpts fl1 opts

/-- Everything `main` learns from outside the protocol engine: the file name argument
(with the memory behind it), whether the HID functions load and the device is found and
opened, the product id, and how the file operations turn out. -/
structure Env where
  fileName : Option (List Nat)
  after : List Nat
  dllOk : Bool
  found : Bool
  opened : Bool
  productID : Nat
  createOk : Bool
  openOk : Bool
  seekOk : Bool
  writeOk : Bool
  written : Nat
  readOk : Bool
  fileData : List Nat
  closeOk : Bool

/-- How a run of `main` ends: the exit code (`0`, `1` for `exit(1)`, `-1`) and the
device. -/
structure RunResult (σ : Type) where
  code : Int
  world : World σ

/-- The branch `verNum` of `main`. -/
def branchVer {σ : Type} (d : Device σ) (w : World σ) : Option (RunResult σ) :=
  let g := i1d3GetInfo d w
  let u := i1d3UnLock d g.1
  some ⟨0, u.2⟩

/-- The branch `rSerNum` of `main`. -/
def branchReadSerial {σ : Type} (d : Device σ) (w : World σ) : Option (RunResult σ) :=
  let u := i1d3UnLock d w
  if u.1 < 0 then some ⟨1, u.2⟩
  else (i1d3ReadInternalEeprom d u.2 (List.replicate 256 0)).map (fun r => ⟨0, r.world⟩)

/-- The branch `wSerNum` of `main`. -/
def branchWriteSerial {σ : Type} (d : Device σ) (w : World σ) (enable : Bool)
    (fileName after : List Nat) : Option (RunResult σ) :=
  let u := i1d3UnLock d w
  if u.1 < 0 then some ⟨1, u.2⟩
  else
    let e := i1d3EnWrite d u.2
    (i1d3ReadInternalEeprom d e.2 (List.replicate 256 0)).bind (fun r =>
      let eBuf := serialStep r.buf fileName after
      if enable then (i1d3WriteInternalEeprom d r.world eBuf).map (fun r2 => ⟨0, r2.world⟩)
      else some ⟨0, r.world⟩)

/-- The end of the three branches that save a region to a file: `WriteFile`, the test
of the count, `CloseHandle`. -/
def saveFile {σ : Type} (env : Env) (size : Nat) (w : World σ) : RunResult σ :=
  if env.writeOk = false then ⟨-1, w⟩
  else if env.written ≠ size then ⟨1, w⟩
  else if env.closeOk = false then ⟨1, w⟩
  else ⟨0, w⟩

/-- The branch `rIeeprom` of `main`. -/
def branchReadInternal {σ : Type} (d : Device σ) (w : World σ) (env : Env) :
    Option (RunResult σ) :=
  let u := i1d3UnLock d w
  if u.1 < 0 then some ⟨1, u.2⟩
  else if env.createOk = false then some ⟨1, u.2⟩
  else if env.seekOk = false then some ⟨1, u.2⟩
  else (i1d3ReadInternalEeprom d u.2 (List.replicate 256 0)).map
    (fun r => saveFile env 256 r.world)

/-- The branch `wIeeprom` of `main`. -/
def branchWriteInternal {σ : Type} (d : Device σ) (w : World σ) (enable : Bool) (env : Env) :
    Option (RunResult σ) :=
  if env.openOk = false then some ⟨1, w⟩
  else if env.seekOk = false then some ⟨1, w⟩
  else if env.readOk = false then some ⟨-1, w⟩
  else if env.fileData.length ≠ 256 then some ⟨1, w⟩
  else if env.closeOk = false then some ⟨1, w⟩
  else
    let u := i1d3UnLock d w
    if u.1 < 0 then some ⟨1, u.2⟩
    else
      let e := i1d3EnWrite d u.2
      if enable then (i1d3WriteInternalEeprom d e.2 env.fileData).map (fun r => ⟨0, r.world⟩)
      else some ⟨0, e.2⟩

/-- The branch `rEeeprom` of `main`. -/
def branchReadExternal {σ : Type} (d : Device σ) (w : World σ) (env : Env) :
    Option (RunResult σ) :=
  let u := i1d3UnLock d w
  if u.1 < 0 then some ⟨1, u.2⟩
  else if env.createOk = false then some ⟨1, u.2⟩
  else if env.seekOk = false then some ⟨1, u.2⟩
  else (i1d3ReadExternalEeprom d u.2 (List.replicate 8192 0)).map
    (fun r => saveFile env 8192 r.world)

/-- The branch `wEeeprom` of `main`. -/
def branchWriteExternal {σ : Type} (d : Device σ) (w : World σ) (enable : Bool) (env : Env) :
    Option (RunResult σ) :=
  if env.openOk = false then some ⟨1, w⟩
  else if env.seekOk = false then some ⟨1, w⟩
  else if env.readOk = false then some ⟨-1, w⟩
  else if env.fileData.length ≠ 8192 then some ⟨1, w⟩
  else if env.closeOk = false then some ⟨1, w⟩
  else
    let u := i1d3UnLock d w
    let e := i1d3EnWrite d u.2
    if enable then (i1d3WriteExternalEeprom d e.2 env.fileData).map (fun r => ⟨0, r.world⟩)
    else some ⟨0, e.2⟩

/-- The branch `rSig` of `main`. -/
def branchReadSig {σ : Type} (d : Device σ) (w : World σ) (env : Env) :
    Option (RunResult σ) :=
  if env.createOk = false then some ⟨1, w⟩
  else if env.seekOk = false then some ⟨1, w⟩
  else (i1d3ReadExternalEeprom d w (List.replicate 8192 0)).map
    (fun r => saveFile env 0x48 r.world)

/-- The branch `wSig` of `main`. -/
def branchWriteSig {σ : Type} (d : Device σ) (w : World σ) (enable : Bool) (env : Env) :
    Option (RunResult σ) :=
  if env.openOk = false then some ⟨1, w⟩
  else if env.seekOk = false then some ⟨1, w⟩
  else if env.readOk = false then some ⟨-1, w⟩
  else if env.fileData.length ≠ 0x48 then some ⟨1, w⟩
  else if env.closeOk = false then some ⟨1, w⟩
  else (mainWriteSig d w enable env.fileData).map (fun r =>
    match r.exit with
    | Exit.done => ⟨0, r.world⟩
    | Exit.checksumFailed => ⟨1, r.world⟩)

/-- The function `main` from the end of the option loop on. -/
def mainRun {σ : Type} (fl : Flags) (env : Env) (d : Device σ) (w : World σ) :
    Option (RunResult σ) :=
  if env.fileName.isNone ∧ (fl.rIeeprom ∨ fl.wIeeprom ∨ fl.rEeeprom ∨ fl.wEeeprom ∨ fl.rSig
      ∨ fl.wSig) then some ⟨1, w⟩
  else if fl.wSerNum ∧ env.fileName.isNone then some ⟨1, w⟩
  else if env.dllOk = false then some ⟨1, w⟩
  else if env.found = false then some ⟨1, w⟩
  else if env.opened = false then some ⟨1, w⟩
  else if env.productID = 0x5021 then
    let u := i1d3UnLock d w
    let e := i1d3EnWrite d u.2
    (i1d3ReadInternalEeprom d e.2 (List.replicate 256 0)).map (fun r => ⟨1, r.world⟩)
  else if fl.verNum then branchVer d w
  else if fl.rSerNum then branchReadSerial d w
  else if fl.wSerNum then
    branchWriteSerial d w fl.enableEEPROMwrite (env.fileName.getD []) env.after
  else if fl.rIeeprom then branchReadInternal d w env
  else if fl.wIeeprom then branchWriteInternal d w fl.enableEEPROMwrite env
  else if fl.rEeeprom then branchReadExternal d w env
  else if fl.wEeeprom then branchWriteExternal d w fl.enableEEPROMwrite env
  else if fl.rSig then branchReadSig d w env
  else if fl.wSig then branchWriteSig d w fl.enableEEPROMwrite env
  else some ⟨0, w⟩

/-- The function `main`: `opts` are the option letters in the order `getopt` yields
them. -/
def i1d3util {σ : Type} (opts : List Char) (env : Env) (d : Device σ) (w : World σ) :
    Option (RunResult σ) :=
  match parseOpts {} opts with
  | none => some ⟨1, w⟩
  | some fl => mainRun fl env d w

/-- The frames `new` sent from `w` to `w1` hold no EEPROM write request: none has the
opcode `0x07` (internal write) or `0x13` (external write) in byte 0. -/
def Quiet {σ : Type} (w w1 : World σ) : Prop :=
  ∃ new, w1.sent = w.sent ++ new ∧ ∀ f ∈ new, rd f 0 ≠ 0x07 ∧ rd f 0 ≠ 0x13

/-- An environment in which everything outside the protocol engine goes well; the file
holds `sampleSignature` and the argument is the serial number `A`. -/
def sampleEnv : Env where
  fileName := some [0x41]
  after := List.replicate 18 0xaa
  dllOk := true
  found := true
  opened := true
  productID := 0x5020
  createOk := true
  openOk := true
  seekOk := true
  writeOk := true
  written := 0x48
  readOk := true
  fileData := sampleSignature
  closeOk := true

/-! ## Buffers -/


theorem length_foldl_set (n off : Nat) (f : Nat → Nat) (l : List Nat) :
    ((List.range n).foldl (fun d i => d.set (off + i) (f i)) l).length = l.length := by
  induction n with
  | zero => rfl
  | succ n ih => rw [List.range_succ, List.foldl_append]; simp [ih]

theorem getElem?_foldl_set (n off : Nat) (f : Nat → Nat) (l : List Nat) (j : Nat) :
    ((List.range n).foldl (fun d i => d.set (off + i) (f i)) l)[j]? =
      if off ≤ j ∧ j < off + n ∧ j < l.length then some (f (j - off)) else l[j]? := by
  induction n with
  | zero =>
    rw [if_neg (by omega)]
    rfl
  | succ n ih =>
    rw [List.range_succ, List.foldl_append]
    simp only [List.foldl_cons, List.foldl_nil]
    rw [List.getElem?_set, length_foldl_set, ih]
    by_cases h1 : off + n = j
    · subst h1
      by_cases h2 : off + n < l.length
      · simp [h2]
      · simp [h2]; omega
    · simp only [h1, if_false]
      by_cases h3 : off ≤ j ∧ j < off + n ∧ j < l.length
      · rw [if_pos h3, if_pos ⟨h3.1, by omega, h3.2.2⟩]
      · rw [if_neg h3, if_neg (by omega)]

theorem rd_foldl_set (n off : Nat) (f : Nat → Nat) (l : List Nat) (j : Nat) :
    rd ((List.range n).foldl (fun d i => d.set (off + i) (f i)) l) j =
      if off ≤ j ∧ j < off + n ∧ j < l.length then f (j - off) else rd l j := by
  unfold rd
  rw [List.getD_eq_getElem?_getD, getElem?_foldl_set, List.getD_eq_getElem?_getD]
  split <;> rfl

theorem length_memcpy (dst : List Nat) (doff : Nat) (src : List Nat) (soff n : Nat) :
    (memcpy dst doff src soff n).length = dst.length :=
  length_foldl_set n doff _ dst

theorem rd_memcpy (dst : List Nat) (doff : Nat) (src : List Nat) (soff n j : Nat) :
    rd (memcpy dst doff src soff n) j =
      if doff ≤ j ∧ j < doff + n ∧ j < dst.length then rd src (soff + (j - doff)) else rd dst j :=
  rd_foldl_set n doff (fun i => rd src (soff + i)) dst j

theorem memcpy_eq (dst : List Nat) (doff : Nat) (src : List Nat) (soff n : Nat)
    (hd : doff + n ≤ dst.length) (hs : soff + n ≤ src.length) :
    memcpy dst doff src soff n = dst.take doff ++ (src.drop soff).take n ++ dst.drop (doff + n) := by
  apply List.ext_getElem?
  intro j
  unfold memcpy
  rw [getElem?_foldl_set]
  simp only [List.getElem?_append, List.length_append, List.length_take, List.length_drop,
    List.getElem?_take, List.getElem?_drop]
  have h1 : min doff dst.length = doff := by omega
  have h2 : min n (src.length - soff) = n := by omega
  rw [h1, h2]
  by_cases ha : j < doff
  · rw [if_neg (by omega), if_pos (by omega), if_pos ha, if_pos ha]
  · by_cases hb : j < doff + n
    · rw [if_pos ⟨by omega, hb, by omega⟩, if_pos (by omega), if_neg ha, if_pos (by omega)]
      unfold rd
      rw [List.getD_eq_getElem?_getD]
      have : soff + (j - doff) < src.length := by omega
      rw [List.getElem?_eq_getElem this]
      rfl
    · rw [if_neg (by omega), if_neg (by omega)]
      congr 1
      omega

/-! ## The unlock response -/


theorem and_ff (x : Nat) : x &&& 0xff = x % 256 := Nat.and_pow_two_sub_one_eq_mod x 8
theorem ff_and (x : Nat) : 0xff &&& x = x % 256 := by rw [Nat.and_comm]; exact and_ff x

theorem rd_lt_of_isBytes {n : Nat} {l : List Nat} (h : IsBytes n l) (i : Nat) : rd l i < 256 := by
  unfold rd
  by_cases hi : i < l.length
  · rw [List.getD_eq_getElem l 0 hi]
    exact h.2 _ (List.getElem_mem hi)
  · rw [List.getD_eq_default l 0 (by omega)]
    decide

theorem xor_byte_lt {a b : Nat} (ha : a < 256) (hb : b < 256) : a ^^^ b < 256 :=
  Nat.xor_lt_two_pow (n := 8) ha hb

theorem range8 : List.range 8 = [0, 1, 2, 3, 4, 5, 6, 7] := by decide

theorem byte_add (d s sh n : Nat) (hs : sh = 8 * n) (hn : n < 4) :
    ((u8 (add32 ((d >>> sh) &&& 0xff) s) : Nat) : Int) = (byteN n (d : Int) + (s : Int)) % 256 := by
  subst hs
  simp only [and_ff, u8, add32, U32, byteN, Nat.shiftRight_eq_div_pow]
  interval_cases n <;> norm_num

theorem byte_sub (d s sh n : Nat) (hs : sh = 8 * n) (hn : n < 4) :
    ((u8 (sub32 ((d >>> sh) &&& 0xff) s) : Nat) : Int) = (byteN n (d : Int) - (s : Int)) % 256 := by
  subst hs
  simp only [and_ff, u8, sub32, U32, byteN, Nat.shiftRight_eq_div_pow]
  interval_cases n <;> norm_num <;> omega

theorem byte_add0 (d s : Nat) :
    ((u8 (add32 (d &&& 0xff) s) : Nat) : Int) = (byteN 0 (d : Int) + (s : Int)) % 256 :=
  byte_add d s 0 0 rfl (by decide)

theorem byte_sub0 (d s : Nat) :
    ((u8 (sub32 (d &&& 0xff) s) : Nat) : Int) = (byteN 0 (d : Int) - (s : Int)) % 256 :=
  byte_sub d s 0 0 rfl (by decide)

theorem neg32_cast (k : Nat) : ((neg32 k : Nat) : Int) = (-(k : Int)) % 2 ^ 32 := by
  simp only [neg32, U32]; omega

theorem sub32_cast (a b : Nat) : ((sub32 a b : Nat) : Int) = ((a : Int) - (b : Int)) % 2 ^ 32 := by
  simp only [sub32, U32]; omega

theorem mul32_neg32_cast (w k : Nat) :
    ((mul32 w (neg32 k) : Nat) : Int) = ((w : Int) * (-(k : Int))) % 2 ^ 32 := by
  unfold mul32
  rw [Int.ofNat_emod, Nat.cast_mul, neg32_cast k]
  simp only [U32]
  norm_num
  rw [Int.mul_emod, Int.emod_emod_of_dvd _ (dvd_refl _), ← Int.mul_emod]
  simp

theorem rd_subChallenge (c : List Nat) (hc : IsBytes 64 c) (i : Nat) (hi : i < 8) :
    rd (subChallenge c) i = Nat.xor (rd c (35 + i)) (rd c 3) := by
  have hx : rd c 3 ^^^ rd c (35 + i) < 256 :=
    xor_byte_lt (rd_lt_of_isBytes hc 3) (rd_lt_of_isBytes hc (35 + i))
  have : rd (subChallenge c) i = u8 (rd c 3 ^^^ rd c (35 + i)) := by
    unfold subChallenge
    rw [range8]
    interval_cases i <;> rfl
  rw [this, u8, Nat.mod_eq_of_lt hx]
  exact Nat.xor_comm _ _

theorem refSc_lt (c : List Nat) (hc : IsBytes 64 c) (i : Nat) :
    Nat.xor (rd c (35 + i)) (rd c 3) < 256 :=
  xor_byte_lt (rd_lt_of_isBytes hc (35 + i)) (rd_lt_of_isBytes hc 3)

theorem coreBytes_cast (co0 co1 co2 co3 sum : Nat) :
    (coreBytes co0 co1 co2 co3 sum).map Int.ofNat =
      refBytes (co0 : Int) (co1 : Int) (co2 : Int) (co3 : Int) (sum : Int) := by
  have hs0 : ((u8 (sum &&& 0xff) : Nat) : Int) = (sum : Int) % 256 := by
    simp only [and_ff, u8]; omega
  have hs1 : ((u8 ((sum >>> 8) &&& 0xff) : Nat) : Int) = ((sum : Int) / 256) % 256 := by
    simp only [and_ff, u8, Nat.shiftRight_eq_div_pow]; omega
  simp only [coreBytes, refBytes, List.map_cons, List.map_nil, Int.ofNat_eq_coe]
  rw [byte_add co0 _ 16 2 rfl (by decide), byte_sub co2 _ 8 1 rfl (by decide), byte_add0,
    byte_add co1 _ 16 2 rfl (by decide), byte_sub co2 _ 16 2 rfl (by decide),
    byte_sub co3 _ 16 2 rfl (by decide), byte_sub co1 _ 24 3 rfl (by decide), byte_sub0,
    byte_add co3 _ 8 1 rfl (by decide), byte_sub co2 _ 24 3 rfl (by decide),
    byte_add co0 _ 8 1 rfl (by decide), byte_sub co1 _ 8 1 rfl (by decide), byte_add0,
    byte_add co3 _ 24 3 rfl (by decide), byte_add0, byte_sub co0 _ 24 3 rfl (by decide),
    hs0, hs1]

theorem coreSum_cast (x0 x1 x2 x3 x4 x5 x6 x7 n0 n1 : Nat)
    (h0 : x0 < 256) (h1 : x1 < 256) (h2 : x2 < 256) (h3 : x3 < 256)
    (h4 : x4 < 256) (h5 : x5 < 256) (h6 : x6 < 256) (h7 : x7 < 256) :
    ((coreSum x0 x1 x2 x3 x4 x5 x6 x7 n0 n1 : Nat) : Int) =
      (x0 : Int) + x1 + x2 + x3 + x4 + x5 + x6 + x7
      + (byteN 0 n0 + byteN 1 n0 + byteN 2 n0 + byteN 3 n0)
      + (byteN 0 n1 + byteN 1 n1 + byteN 2 n1 + byteN 3 n1) := by
  simp only [coreSum, ff_and, add32, U32, byteN, Nat.shiftRight_eq_div_pow]
  norm_num
  omega

/-- Claim C1. For every key pair of 32-bit words and every challenge frame of 64 bytes,
the 16 core response bytes `sr` computed by `i1d3CreateUnLockResponse` with shifts,
masks and `unsigned int` arithmetic are the bytes of the reference definition `refCore`,
which is stated over the integers: `sc[i] = c[35+i] XOR c[3]`, the two words, `d0..d3`
modulo `2^32`, the sum with its bytes `s0` and `s1`, and the sixteen sums and
differences modulo 256. -/
theorem unlockCore_eq_refCore (k0 k1 : Nat) (c : List Nat)
    (_hk0 : k0 < 2 ^ 32) (_hk1 : k1 < 2 ^ 32) (hc : IsBytes 64 c) :
    (unlockCore k0 k1 c).map Int.ofNat = refCore k0 k1 c := by
  have hL : unlockCore k0 k1 c =
      coreBytes
        (sub32 (neg32 k0) (((rd (subChallenge c) 1 <<< 24) + (rd (subChallenge c) 7 <<< 16)
          + (rd (subChallenge c) 2 <<< 8) + rd (subChallenge c) 5) % U32))
        (sub32 (neg32 k1) (((rd (subChallenge c) 3 <<< 24) + (rd (subChallenge c) 0 <<< 16)
          + (rd (subChallenge c) 4 <<< 8) + rd (subChallenge c) 6) % U32))
        (mul32 (((rd (subChallenge c) 1 <<< 24) + (rd (subChallenge c) 7 <<< 16)
          + (rd (subChallenge c) 2 <<< 8) + rd (subChallenge c) 5) % U32) (neg32 k0))
        (mul32 (((rd (subChallenge c) 3 <<< 24) + (rd (subChallenge c) 0 <<< 16)
          + (rd (subChallenge c) 4 <<< 8) + rd (subChallenge c) 6) % U32) (neg32 k1))
        (coreSum (rd (subChallenge c) 0) (rd (subChallenge c) 1) (rd (subChallenge c) 2)
          (rd (subChallenge c) 3) (rd (subChallenge c) 4) (rd (subChallenge c) 5)
          (rd (subChallenge c) 6) (rd (subChallenge c) 7) (neg32 k0) (neg32 k1)) := rfl
  have hR : refCore k0 k1 c =
      refBytes
        ((-(k0 : Int) - (refSc c 1 * 2 ^ 24 + refSc c 7 * 2 ^ 16 + refSc c 2 * 2 ^ 8 + refSc c 5))
          % 2 ^ 32)
        ((-(k1 : Int) - (refSc c 3 * 2 ^ 24 + refSc c 0 * 2 ^ 16 + refSc c 4 * 2 ^ 8 + refSc c 6))
          % 2 ^ 32)
        (((refSc c 1 * 2 ^ 24 + refSc c 7 * 2 ^ 16 + refSc c 2 * 2 ^ 8 + refSc c 5)
          * (-(k0 : Int))) % 2 ^ 32)
        (((refSc c 3 * 2 ^ 24 + refSc c 0 * 2 ^ 16 + refSc c 4 * 2 ^ 8 + refSc c 6)
          * (-(k1 : Int))) % 2 ^ 32)
        (refSc c 0 + refSc c 1 + refSc c 2 + refSc c 3 + refSc c 4 + refSc c 5 + refSc c 6
          + refSc c 7
          + (byteN 0 ((-(k0 : Int)) % 2 ^ 32) + byteN 1 ((-(k0 : Int)) % 2 ^ 32)
            + byteN 2 ((-(k0 : Int)) % 2 ^ 32) + byteN 3 ((-(k0 : Int)) % 2 ^ 32))
          + (byteN 0 ((-(k1 : Int)) % 2 ^ 32) + byteN 1 ((-(k1 : Int)) % 2 ^ 32)
            + byteN 2 ((-(k1 : Int)) % 2 ^ 32) + byteN 3 ((-(k1 : Int)) % 2 ^ 32))) := rfl
  rw [hL, hR, coreBytes_cast]
  rw [rd_subChallenge c hc 0 (by decide), rd_subChallenge c hc 1 (by decide),
    rd_subChallenge c hc 2 (by decide), rd_subChallenge c hc 3 (by decide),
    rd_subChallenge c hc 4 (by decide), rd_subChallenge c hc 5 (by decide),
    rd_subChallenge c hc 6 (by decide), rd_subChallenge c hc 7 (by decide)]
  rw [coreSum_cast _ _ _ _ _ _ _ _ _ _ (refSc_lt c hc 0) (refSc_lt c hc 1) (refSc_lt c hc 2)
    (refSc_lt c hc 3) (refSc_lt c hc 4) (refSc_lt c hc 5) (refSc_lt c hc 6) (refSc_lt c hc 7)]
  have h0 := refSc_lt c hc 0
  have h1 := refSc_lt c hc 1
  have h2 := refSc_lt c hc 2
  have h3 := refSc_lt c hc 3
  have h4 := refSc_lt c hc 4
  have h5 := refSc_lt c hc 5
  have h6 := refSc_lt c hc 6
  have h7 := refSc_lt c hc 7
  simp only [refSc]
  generalize Nat.xor (rd c (35 + 0)) (rd c 3) = x0 at *
  generalize Nat.xor (rd c (35 + 1)) (rd c 3) = x1 at *
  generalize Nat.xor (rd c (35 + 2)) (rd c 3) = x2 at *
  generalize Nat.xor (rd c (35 + 3)) (rd c 3) = x3 at *
  generalize Nat.xor (rd c (35 + 4)) (rd c 3) = x4 at *
  generalize Nat.xor (rd c (35 + 5)) (rd c 3) = x5 at *
  generalize Nat.xor (rd c (35 + 6)) (rd c 3) = x6 at *
  generalize Nat.xor (rd c (35 + 7)) (rd c 3) = x7 at *
  have hw0 : ((((x3 <<< 24) + (x0 <<< 16) + (x4 <<< 8) + x6) % U32 : Nat) : Int) =
      (x3 : Int) * 2 ^ 24 + (x0 : Int) * 2 ^ 16 + (x4 : Int) * 2 ^ 8 + (x6 : Int) := by
    simp only [Nat.shiftLeft_eq, U32]; omega
  have hw1 : ((((x1 <<< 24) + (x7 <<< 16) + (x2 <<< 8) + x5) % U32 : Nat) : Int) =
      (x1 : Int) * 2 ^ 24 + (x7 : Int) * 2 ^ 16 + (x2 : Int) * 2 ^ 8 + (x5 : Int) := by
    simp only [Nat.shiftLeft_eq, U32]; omega
  rw [← hw0, ← hw1, sub32_cast, sub32_cast, mul32_neg32_cast, mul32_neg32_cast,
    neg32_cast, neg32_cast]
  congr 1 <;> omega

theorem coreBytes_lt (co0 co1 co2 co3 sum : Nat) : ∀ b ∈ coreBytes co0 co1 co2 co3 sum, b < 256 := by
  intro b hb
  simp only [coreBytes, List.mem_cons, List.mem_singleton, List.not_mem_nil, or_false] at hb
  rcases hb with h | h | h | h | h | h | h | h | h | h | h | h | h | h | h | h <;>
    (rw [h]; exact Nat.mod_lt _ (by decide))

theorem unlockCore_isBytes (k0 k1 : Nat) (c : List Nat) : IsBytes 16 (unlockCore k0 k1 c) :=
  ⟨rfl, coreBytes_lt _ _ _ _ _⟩

theorem length_createResponse (k0 k1 : Nat) (c r : List Nat) :
    (i1d3CreateUnLockResponse k0 k1 c r).length = r.length := by
  unfold i1d3CreateUnLockResponse
  simp only
  rw [length_foldl_set 16 24 (fun i => u8 (rd c 2 ^^^ rd (unlockCore k0 k1 c) i))]
  have := length_foldl_set 64 0 (fun _ => 0) r
  simpa using this

theorem rd_createResponse (k0 k1 : Nat) (c r : List Nat) (hr : r.length = 64) (j : Nat) :
    rd (i1d3CreateUnLockResponse k0 k1 c r) j =
      if 24 ≤ j ∧ j < 40 then u8 (rd c 2 ^^^ rd (unlockCore k0 k1 c) (j - 24)) else 0 := by
  unfold i1d3CreateUnLockResponse
  simp only
  rw [rd_foldl_set 16 24 (fun i => u8 (rd c 2 ^^^ rd (unlockCore k0 k1 c) i))]
  have hl := length_foldl_set 64 0 (fun _ => 0) r
  have hz := rd_foldl_set 64 0 (fun _ => 0) r j
  simp only [Nat.zero_add] at hl hz
  rw [hl, hz, hr]
  by_cases h : 24 ≤ j ∧ j < 40
  · rw [if_pos ⟨h.1, by omega, by omega⟩, if_pos h]
  · rw [if_neg (by omega), if_neg h]
    by_cases h2 : j < 64
    · rw [if_pos ⟨by omega, by omega, h2⟩]
    · rw [if_neg (by omega)]
      unfold rd
      exact List.getD_eq_default _ _ (by omega)

/-- Claim C2. For every key pair and every challenge frame `c` of 64 bytes, the response
frame written by `i1d3CreateUnLockResponse` into a 64 byte buffer is 64 bytes long, has
byte `24 + i` equal to core response byte `i` XOR `c[2]` for every `i` below 16, and is
zero at every index outside 24..39. -/
theorem response_frame_layout (k0 k1 : Nat) (c r : List Nat)
    (hc : IsBytes 64 c) (hr : r.length = 64) :
    (i1d3CreateUnLockResponse k0 k1 c r).length = 64 ∧
    (∀ i, i < 16 → rd (i1d3CreateUnLockResponse k0 k1 c r) (24 + i) =
      Nat.xor (rd (unlockCore k0 k1 c) i) (rd c 2)) ∧
    (∀ j, j < 64 → (j < 24 ∨ 39 < j) → rd (i1d3CreateUnLockResponse k0 k1 c r) j = 0) := by
  refine ⟨by rw [length_createResponse, hr], ?_, ?_⟩
  · intro i hi
    rw [rd_createResponse k0 k1 c r hr, if_pos (by omega)]
    have h1 : 24 + i - 24 = i := by omega
    rw [h1, u8, Nat.mod_eq_of_lt
      (xor_byte_lt (rd_lt_of_isBytes hc 2) (rd_lt_of_isBytes (unlockCore_isBytes k0 k1 c) i))]
    exact Nat.xor_comm _ _
  · intro j _ hj
    rw [rd_createResponse k0 k1 c r hr, if_neg (by omega)]

theorem response_frame_layout_witness :
    IsBytes 64 sampleChallenge ∧
    (i1d3CreateUnLockResponse 0xcaa62b2c 0x30815b61 sampleChallenge (List.replicate 64 0xff)).length = 64 ∧
    (∀ i, i < 16 → rd (i1d3CreateUnLockResponse 0xcaa62b2c 0x30815b61 sampleChallenge
        (List.replicate 64 0xff)) (24 + i) =
      Nat.xor (rd (unlockCore 0xcaa62b2c 0x30815b61 sampleChallenge) i) (rd sampleChallenge 2)) ∧
    (∀ j, j < 64 → (j < 24 ∨ 39 < j) → rd (i1d3CreateUnLockResponse 0xcaa62b2c 0x30815b61
      sampleChallenge (List.replicate 64 0xff)) j = 0) :=
  ⟨by decide, response_frame_layout 0xcaa62b2c 0x30815b61 sampleChallenge (List.replicate 64 0xff)
    (by decide) (by decide)⟩

theorem unlockCore_eq_refCore_witness :
    IsBytes 64 sampleChallenge ∧
    (unlockCore 0xcaa62b2c 0x30815b61 sampleChallenge).map Int.ofNat =
      refCore 0xcaa62b2c 0x30815b61 sampleChallenge :=
  ⟨by decide, unlockCore_eq_refCore 0xcaa62b2c 0x30815b61 sampleChallenge (by decide) (by decide)
    (by decide)⟩

/-! ## The transport -/

theorem readHIDdevice_sent {σ : Type} (d : Device σ) (w : World σ) (rbuf : List Nat) :
    (readHIDdevice d w rbuf).1.sent = w.sent := by
  unfold readHIDdevice
  simp only
  split <;> rfl

theorem length_readHIDdevice {σ : Type} (d : Device σ) (w : World σ) (rbuf : List Nat) :
    (readHIDdevice d w rbuf).2.2.length = rbuf.length := by
  unfold readHIDdevice
  simp only
  split
  · rfl
  · exact length_memcpy _ _ _ _ _

theorem writeHIDdevice_sent {σ : Type} (d : Device σ) (w : World σ) (wbuf : List Nat) :
    (writeHIDdevice d w wbuf).1.sent = w.sent ++ [wbuf.take 64] := rfl

theorem i1d3Command_sent {σ : Type} (d : Device σ) (w : World σ) (cmdCode : Nat)
    (sBuf rBuf : List Nat) :
    (i1d3Command d w cmdCode sBuf rBuf).world.sent = w.sent ++ [cmdFrame cmdCode sBuf] := by
  unfold i1d3Command cmdFrame
  simp only
  split_ifs <;> simp only [readHIDdevice_sent, writeHIDdevice_sent]

theorem i1d3Command_sBuf {σ : Type} (d : Device σ) (w : World σ) (cmdCode : Nat)
    (sBuf rBuf : List Nat) :
    (i1d3Command d w cmdCode sBuf rBuf).sBuf =
      if u8 ((cmdCode >>> 8) &&& 0xff) = 0x00
        then (sBuf.set 0 (u8 ((cmdCode >>> 8) &&& 0xff))).set 1 (u8 (cmdCode &&& 0xff))
        else sBuf.set 0 (u8 ((cmdCode >>> 8) &&& 0xff)) := by
  unfold i1d3Command
  simp only
  split_ifs <;> rfl

theorem length_i1d3Command_sBuf {σ : Type} (d : Device σ) (w : World σ) (cmdCode : Nat)
    (sBuf rBuf : List Nat) :
    (i1d3Command d w cmdCode sBuf rBuf).sBuf.length = sBuf.length := by
  rw [i1d3Command_sBuf]
  split <;> simp

theorem length_i1d3Command_rBuf {σ : Type} (d : Device σ) (w : World σ) (cmdCode : Nat)
    (sBuf rBuf : List Nat) :
    (i1d3Command d w cmdCode sBuf rBuf).rBuf.length = rBuf.length := by
  unfold i1d3Command
  simp only
  split_ifs <;> simp only [length_readHIDdevice]

/-! ## Unlocking -/

theorem unlockAttempt_sent_length {σ : Type} (d : Device σ) (k : Nat × Nat) (w : World σ) :
    (unlockAttempt d k w).1.sent.length = w.sent.length + 2 := by
  unfold unlockAttempt
  simp only [i1d3Command_sent, List.length_append, List.length_singleton]

theorem attemptsRun_sent_length {σ : Type} (d : Device σ) (keys : List (Nat × Nat))
    (w : World σ) :
    (attemptsRun d keys w).sent.length = w.sent.length + 2 * keys.length := by
  induction keys generalizing w with
  | nil => rfl
  | cons k ks ih =>
    show (attemptsRun d ks (unlockAttempt d k w).1).sent.length = _
    rw [ih, unlockAttempt_sent_length, List.length_cons]
    omega

theorem unlockLoop_spec {σ : Type} (d : Device σ) (keys : List (Nat × Nat)) (cc : Nat)
    (w : World σ) :
    (∃ j, j < keys.length ∧ rd (resultFrame d keys w j) 2 = 0x77 ∧
        (∀ i, i < j → rd (resultFrame d keys w i) 2 ≠ 0x77) ∧
        unlockLoop d keys cc w = (((cc + j : Nat) : Int), attemptsRun d (keys.take (j + 1)) w)) ∨
    ((∀ i, i < keys.length → rd (resultFrame d keys w i) 2 ≠ 0x77) ∧
        unlockLoop d keys cc w = (-1, attemptsRun d keys w)) := by
  induction keys generalizing cc w with
  | nil => exact Or.inr ⟨fun i hi => absurd hi (Nat.not_lt_zero i), rfl⟩
  | cons k ks ih =>
    by_cases h : rd (unlockAttempt d k w).2 2 = 0x77
    · refine Or.inl ⟨0, Nat.succ_pos _, h, fun i hi => absurd hi (Nat.not_lt_zero i), ?_⟩
      unfold unlockLoop
      simp only [h, if_true]
      rfl
    · have hstep : unlockLoop d (k :: ks) cc w = unlockLoop d ks (cc + 1) (unlockAttempt d k w).1 := by
        rw [unlockLoop]
        simp only [h, if_false]
      rcases ih (cc + 1) (unlockAttempt d k w).1 with ⟨j, hj, h77, hlt, heq⟩ | ⟨hall, heq⟩
      · refine Or.inl ⟨j + 1, Nat.succ_lt_succ hj, h77, ?_, ?_⟩
        · intro i hi
          cases i with
          | zero => exact h
          | succ i => exact hlt i (Nat.lt_of_succ_lt_succ hi)
        · rw [hstep, heq]
          have : cc + 1 + j = cc + (j + 1) := by omega
          rw [this]
          rfl
      · refine Or.inr ⟨?_, ?_⟩
        · intro i hi
          cases i with
          | zero => exact h
          | succ i => exact hall i (Nat.lt_of_succ_lt_succ hi)
        · rw [hstep, heq]
          rfl

/-! ## The transfer loop -/

theorem chunksDone_succ {S : Type} (chunk size : Nat) (body : Nat → Nat → Nat → S → S) (s : S)
    (n : Nat) :
    chunksDone chunk size body s (n + 1) =
      body (chunk * n) (chunk * n) (min chunk (size - chunk * n)) (chunksDone chunk size body s n) := by
  unfold chunksDone
  rw [List.range_succ, List.foldl_append]
  rfl

theorem xferLoop_aux {S : Type} (chunk size : Nat) (body : Nat → Nat → Nat → S → S)
    (hc : 0 < chunk) (hs : size < 65536) (s : S) :
    ∀ fuel n, (n = 0 ∨ chunk * (n - 1) < size) → size - min (chunk * n) size ≤ fuel →
      ∃ m, size ≤ chunk * m ∧ (m = 0 ∨ chunk * (m - 1) < size) ∧
        xferLoop chunk body fuel (size - min (chunk * n) size) (min (chunk * n) size)
          (min (chunk * n) size) (chunksDone chunk size body s n) =
          some (chunksDone chunk size body s m) := by
  intro fuel
  induction fuel with
  | zero =>
    intro n hn hfuel
    refine ⟨n, by omega, hn, ?_⟩
    unfold xferLoop
    rw [if_neg (by omega)]
  | succ fuel ih =>
    intro n hn hfuel
    by_cases hlen : 0 < size - min (chunk * n) size
    · have hlt : chunk * n < size := by omega
      have hsucc : chunk * (n + 1) = chunk * n + chunk := Nat.mul_succ chunk n
      obtain ⟨m, hm1, hm2, hm3⟩ := ih (n + 1) (Or.inr (by simpa using hlt)) (by omega)
      refine ⟨m, hm1, hm2, ?_⟩
      unfold xferLoop
      rw [if_pos hlen]
      simp only
      rw [chunksDone_succ] at hm3
      have hmin : min (chunk * n) size = chunk * n := by omega
      have hinc : (if size - min (chunk * n) size > chunk then chunk
          else size - min (chunk * n) size) = min chunk (size - chunk * n) := by
        split_ifs <;> omega
      rw [hinc, hmin]
      have h1 : size - chunk * n - min chunk (size - chunk * n) =
          size - min (chunk * (n + 1)) size := by omega
      have h2 : chunk * n + min chunk (size - chunk * n) = min (chunk * (n + 1)) size := by omega
      have h3 : u16 (min (chunk * (n + 1)) size) = min (chunk * (n + 1)) size := by
        unfold u16; exact Nat.mod_eq_of_lt (by omega)
      rw [h1, h2, h3]
      exact hm3
    · refine ⟨n, by omega, hn, ?_⟩
      unfold xferLoop
      rw [if_neg hlen]

theorem xferLoop_eq {S : Type} (chunk size : Nat) (body : Nat → Nat → Nat → S → S)
    (hc : 0 < chunk) (hs : size < 65536) (s : S) :
    ∃ m, size ≤ chunk * m ∧ (m = 0 ∨ chunk * (m - 1) < size) ∧
      xferLoop chunk body size size 0 0 s = some (chunksDone chunk size body s m) := by
  have h := xferLoop_aux chunk size body hc hs s size 0 (Or.inl rfl) (by omega)
  simpa [chunksDone] using h

theorem xferLoop_32_256 {S : Type} (body : Nat → Nat → Nat → S → S) (s : S) :
    xferLoop 32 body 256 256 0 0 s = some (chunksDone 32 256 body s 8) := by
  obtain ⟨m, h1, h2, h3⟩ := xferLoop_eq 32 256 body (by decide) (by decide) s
  have : m = 8 := by omega
  rw [h3, this]

theorem xferLoop_60_256 {S : Type} (body : Nat → Nat → Nat → S → S) (s : S) :
    xferLoop 60 body 256 256 0 0 s = some (chunksDone 60 256 body s 5) := by
  obtain ⟨m, h1, h2, h3⟩ := xferLoop_eq 60 256 body (by decide) (by decide) s
  have : m = 5 := by omega
  rw [h3, this]

theorem xferLoop_32_8192 {S : Type} (body : Nat → Nat → Nat → S → S) (s : S) :
    xferLoop 32 body 8192 8192 0 0 s = some (chunksDone 32 8192 body s 256) := by
  obtain ⟨m, h1, h2, h3⟩ := xferLoop_eq 32 8192 body (by decide) (by decide) s
  have : m = 256 := by omega
  rw [h3, this]

theorem xferLoop_59_8192 {S : Type} (body : Nat → Nat → Nat → S → S) (s : S) :
    xferLoop 59 body 8192 8192 0 0 s = some (chunksDone 59 8192 body s 139) := by
  obtain ⟨m, h1, h2, h3⟩ := xferLoop_eq 59 8192 body (by decide) (by decide) s
  have : m = 139 := by omega
  rw [h3, this]


/-! ## The checksum -/

theorem foldl_add32 (f : Nat → Nat) (l : List Nat) (s : Nat) :
    (l.foldl (fun sum i => add32 sum (f i)) s) % U32 = (s + (l.map f).sum) % U32 := by
  induction l generalizing s with
  | nil => simp
  | cons a l ih =>
    simp only [List.foldl_cons, List.map_cons, List.sum_cons]
    rw [ih, add32, ← Nat.add_assoc]
    exact Nat.ModEq.add_right _ (Nat.mod_mod _ _)

theorem sum_drop_range (f : Nat → Nat) (n : Nat) (h : 4 ≤ n) :
    (((List.range n).drop 4).map f).sum = ∑ i ∈ Finset.Ico 4 n, f i := by
  induction n, h using Nat.le_induction with
  | base => rfl
  | succ n hn ih =>
    rw [List.range_succ, List.drop_append_of_le_length (by simpa using hn), List.map_append,
      List.sum_append, ih, Finset.sum_Ico_succ_top hn]
    simp

theorem calcCsum_sum (img : List Nat) (alt : Bool) :
    calcCsum img alt = (∑ i ∈ Finset.Ico 4 (if alt then 0x179a else 0x178e), rd img i) % 2 ^ 16 := by
  unfold calcCsum
  simp only
  have h16 : (0xffff : Nat) = 2 ^ 16 - 1 := by norm_num
  rw [h16, Nat.and_pow_two_sub_one_eq_mod]
  have hdvd : 2 ^ 16 ∣ U32 := by unfold U32; norm_num
  rw [← Nat.mod_mod_of_dvd _ hdvd, foldl_add32, Nat.mod_mod_of_dvd _ hdvd, Nat.zero_add]
  rw [sum_drop_range _ _ (by split <;> decide)]

theorem calcCsum_lt (img : List Nat) (alt : Bool) : calcCsum img alt < 65536 := by
  rw [calcCsum_sum]
  exact Nat.mod_lt _ (by decide)

theorem calcCsum_congr (a b : List Nat) (alt : Bool) (h : ∀ i, 4 ≤ i → rd a i = rd b i) :
    calcCsum a alt = calcCsum b alt := by
  rw [calcCsum_sum, calcCsum_sum]
  congr 1
  apply Finset.sum_congr rfl
  intro i hi
  exact h i (Finset.mem_Ico.1 hi).1

theorem rd_set (l : List Nat) (i v j : Nat) :
    rd (l.set i v) j = if j = i ∧ i < l.length then v else rd l j := by
  unfold rd
  rw [List.getD_eq_getElem?_getD, List.getElem?_set, List.getD_eq_getElem?_getD]
  by_cases h : i = j
  · subst h
    by_cases h2 : i < l.length
    · simp [h2]
    · simp [h2, List.getElem?_eq_none (Nat.le_of_not_lt h2)]
  · rw [if_neg h, if_neg (by omega)]

theorem rd_replicate (n v j : Nat) : rd (List.replicate n v) j = if j < n then v else 0 := by
  unfold rd
  rw [List.getD_eq_getElem?_getD, List.getElem?_replicate]
  split <;> rfl

theorem blankImage_isBytes : IsBytes 8192 blankImage :=
  ⟨List.length_replicate _ _, fun b hb => by rw [List.eq_of_mem_replicate hb]; decide⟩

theorem calcCsum_blankImage : calcCsum blankImage false = 0 := by
  rw [calcCsum_sum]
  have : ∀ i ∈ Finset.Ico 4 (if false = true then 0x179a else 0x178e), rd blankImage i = 0 := by
    intro i _
    unfold blankImage
    rw [rd_replicate]
    split <;> rfl
  rw [Finset.sum_eq_zero this]
  rfl

/-- Claim C4. For every external image of 8192 bytes, `calcCsum image alt` is the sum of
`image[i]` over `4 <= i < end` modulo `2^16`, with `end = 0x178e` when `alt` is false and
`end = 0x179a` when `alt` is true, and it is at most `0xffff`. -/
theorem calcCsum_spec (image : List Nat) (alt : Bool) (_himg : IsBytes 8192 image) :
    calcCsum image alt =
      (∑ i ∈ Finset.Ico 4 (if alt then 0x179a else 0x178e), rd image i) % 2 ^ 16 ∧
    calcCsum image alt ≤ 0xffff :=
  ⟨calcCsum_sum image alt, Nat.le_of_lt_succ (calcCsum_lt image alt)⟩

theorem calcCsum_spec_witness :
    IsBytes 8192 blankImage ∧
    calcCsum blankImage true =
      (∑ i ∈ Finset.Ico 4 (if true then 0x179a else 0x178e), rd blankImage i) % 2 ^ 16 ∧
    calcCsum blankImage true ≤ 0xffff :=
  ⟨blankImage_isBytes, calcCsum_spec blankImage true blankImage_isBytes⟩

/-! ## The chunks of the four transfers -/

theorem chunksDone_record (chunk size n : Nat) :
    chunksDone chunk size (fun addr _ inc acc => acc ++ [(addr, inc)]) [] n =
      chunkList chunk size n := by
  induction n with
  | zero => rfl
  | succ n ih =>
    rw [chunksDone_succ, ih]
    unfold chunkList
    rw [List.range_succ, List.map_append]
    rfl

theorem foldl_chunkList {S : Type} (chunk size : Nat) (body : Nat → Nat → Nat → S → S) (s : S)
    (n : Nat) :
    (chunkList chunk size n).foldl (fun s c => body c.1 c.1 c.2 s) s =
      chunksDone chunk size body s n := by
  unfold chunkList chunksDone
  rw [List.foldl_map]

/-! ## The request frames -/

theorem list_eq_of_rd (n : Nat) (l1 l2 : List Nat) (h1 : l1.length = n) (h2 : l2.length = n)
    (h : ∀ j, j < n → rd l1 j = rd l2 j) : l1 = l2 := by
  apply List.ext_getElem (by rw [h1, h2])
  intro j hj1 hj2
  have := h j (by omega)
  unfold rd at this
  rwa [List.getD_eq_getElem l1 0 hj1, List.getD_eq_getElem l2 0 hj2] at this

theorem rd_map_range (n : Nat) (f : Nat → Nat) (j : Nat) :
    rd ((List.range n).map f) j = if j < n then f j else 0 := by
  unfold rd
  rw [List.getD_eq_getElem?_getD, List.getElem?_map]
  by_cases h : j < n
  · rw [List.getElem?_range h, if_pos h]; rfl
  · rw [List.getElem?_eq_none (by simpa using h), if_neg h]; rfl

theorem cmdFrame_of_major (cmdCode : Nat) (sBuf : List Nat) (hl : sBuf.length = 64)
    (hc : u8 ((cmdCode >>> 8) &&& 0xff) ≠ 0x00) :
    cmdFrame cmdCode sBuf = sBuf.set 0 (u8 ((cmdCode >>> 8) &&& 0xff)) := by
  unfold cmdFrame
  rw [if_neg hc]
  exact List.take_of_length_le (by simp [hl])

theorem i1d3Command_sBuf_major {σ : Type} (d : Device σ) (w : World σ) (cmdCode : Nat)
    (sBuf rBuf : List Nat) (hc : u8 ((cmdCode >>> 8) &&& 0xff) ≠ 0x00) :
    (i1d3Command d w cmdCode sBuf rBuf).sBuf = sBuf.set 0 (u8 ((cmdCode >>> 8) &&& 0xff)) := by
  rw [i1d3Command_sBuf, if_neg hc]

theorem u8_hi (a : Nat) (ha : a < 65536) : u8 ((a >>> 8) &&& 0xff) = a / 256 := by
  rw [and_ff, Nat.shiftRight_eq_div_pow, u8]; omega

theorem u8_lo (a : Nat) : u8 (a &&& 0xff) = a % 256 := by
  rw [and_ff, u8]; omega

theorem u8_of_lt (a : Nat) (ha : a < 256) : u8 a = a := Nat.mod_eq_of_lt ha

/-- The frame built by the body of `i1d3WriteExternalEeprom` is the protocol's frame. -/
theorem extWrite_frame (t image : List Nat) (a n : Nat) (ht : t.length = 64)
    (hz : ∀ j, 4 + n ≤ j → rd t j = 0) (ha : a < 65536) (hn : 4 + n ≤ 64) :
    (memcpy (((t.set 1 (u8 ((a >>> 8) &&& 0xff))).set 2 (u8 (a &&& 0xff))).set 3 (u8 n)) 4
      image a n).set 0 0x13 = extWriteFrame image a n := by
  apply list_eq_of_rd 64
  · simp [length_memcpy, ht]
  · simp [extWriteFrame]
  · intro j hj
    rw [extWriteFrame, rd_map_range, if_pos hj, rd_set, rd_memcpy, rd_set, rd_set, rd_set,
      u8_hi a ha, u8_lo, u8_of_lt n (by omega)]
    simp only [length_memcpy, List.length_set, ht]
    by_cases h0 : j = 0
    · simp [h0]
    by_cases h1 : j = 1
    · simp [h1]
    by_cases h2 : j = 2
    · simp [h2]
    by_cases h3 : j = 3
    · simp [h3]
    by_cases h4 : j < 4 + n
    · rw [if_neg (by omega), if_pos ⟨by omega, h4, hj⟩, if_neg h0, if_neg h1, if_neg h2, if_neg h3,
        if_pos h4]
    · rw [if_neg (by omega), if_neg (by omega), if_neg (by omega), if_neg (by omega),
        if_neg (by omega), if_neg h0, if_neg h1, if_neg h2, if_neg h3, if_neg h4]
      exact hz j (by omega)

/-- The frame built by the body of `i1d3WriteInternalEeprom` is the protocol's frame. -/
theorem intWrite_frame (t image : List Nat) (a n : Nat) (ht : t.length = 64)
    (hz : ∀ j, 3 + n ≤ j → rd t j = 0) (ha : a < 256) (hn : 3 + n ≤ 64) :
    (memcpy ((t.set 1 (u8 a)).set 2 (u8 n)) 3 image a n).set 0 0x07 = intWriteFrame image a n := by
  apply list_eq_of_rd 64
  · simp [length_memcpy, ht]
  · simp [intWriteFrame]
  · intro j hj
    rw [intWriteFrame, rd_map_range, if_pos hj, rd_set, rd_memcpy, rd_set, rd_set,
      u8_of_lt a ha, u8_of_lt n (by omega)]
    simp only [length_memcpy, List.length_set, ht]
    by_cases h0 : j = 0
    · simp [h0]
    by_cases h1 : j = 1
    · simp [h1]
    by_cases h2 : j = 2
    · simp [h2]
    by_cases h4 : j < 3 + n
    · rw [if_neg (by omega), if_pos ⟨by omega, h4, hj⟩, if_neg h0, if_neg h1, if_neg h2, if_pos h4]
    · rw [if_neg (by omega), if_neg (by omega), if_neg (by omega), if_neg (by omega),
        if_neg h0, if_neg h1, if_neg h2, if_neg h4]
      exact hz j (by omega)

/-- The frame built by the body of `i1d3ReadExternalEeprom` is the protocol's frame. -/
theorem extRead_frame (t : List Nat) (a n : Nat) (ht : t.length = 64)
    (hz : ∀ j, 4 ≤ j → rd t j = 0) (ha : a < 65536) (hn : n < 256) :
    (((t.set 1 (u8 ((a >>> 8) &&& 0xff))).set 2 (u8 (a &&& 0xff))).set 3 (u8 n)).set 0 0x12 =
      extReadFrame a n := by
  apply list_eq_of_rd 64
  · simp [ht]
  · simp [extReadFrame]
  · intro j hj
    rw [extReadFrame, rd_map_range, if_pos hj, rd_set, rd_set, rd_set, rd_set,
      u8_hi a ha, u8_lo, u8_of_lt n hn]
    simp only [List.length_set, ht]
    by_cases h0 : j = 0
    · simp [h0]
    by_cases h1 : j = 1
    · simp [h1]
    by_cases h2 : j = 2
    · simp [h2]
    by_cases h3 : j = 3
    · simp [h3]
    rw [if_neg (by omega), if_neg (by omega), if_neg (by omega), if_neg (by omega),
      if_neg h0, if_neg h1, if_neg h2, if_neg h3]
    exact hz j (by omega)

/-- The frame built by the body of `i1d3ReadInternalEeprom` is the protocol's frame. -/
theorem intRead_frame (t : List Nat) (a n : Nat) (ht : t.length = 64)
    (hz : ∀ j, 3 ≤ j → rd t j = 0) (ha : a < 256) (hn : n < 256) :
    ((t.set 1 (u8 a)).set 2 (u8 n)).set 0 0x08 = intReadFrame a n := by
  apply list_eq_of_rd 64
  · simp [ht]
  · simp [intReadFrame]
  · intro j hj
    rw [intReadFrame, rd_map_range, if_pos hj, rd_set, rd_set, rd_set,
      u8_of_lt a ha, u8_of_lt n hn]
    simp only [List.length_set, ht]
    by_cases h0 : j = 0
    · simp [h0]
    by_cases h1 : j = 1
    · simp [h1]
    by_cases h2 : j = 2
    · simp [h2]
    rw [if_neg (by omega), if_neg (by omega), if_neg (by omega),
      if_neg h0, if_neg h1, if_neg h2]
    exact hz j (by omega)


/-! ## The four loop bodies as instances of `xferBody` -/

theorem readExternalBody_eq {σ : Type} (d : Device σ) :
    readExternalBody d = xferBody d 0x1200
      (fun t _ a _ n => ((t.set 1 (u8 ((a >>> 8) &&& 0xff))).set 2 (u8 (a &&& 0xff))).set 3 (u8 n))
      (fun b o r n => memcpy b o r 5 n) := rfl

theorem writeExternalBody_eq {σ : Type} (d : Device σ) :
    writeExternalBody d = xferBody d 0x1300
      (fun t b a o n => memcpy
        (((t.set 1 (u8 ((a >>> 8) &&& 0xff))).set 2 (u8 (a &&& 0xff))).set 3 (u8 n)) 4 b o n)
      (fun b _ _ _ => b) := rfl

theorem readInternalBody_eq {σ : Type} (d : Device σ) :
    readInternalBody d = xferBody d 0x0800
      (fun t _ a _ n => (t.set 1 (u8 a)).set 2 (u8 n))
      (fun b o r n => memcpy b o r 4 n) := rfl

theorem writeInternalBody_eq {σ : Type} (d : Device σ) :
    writeInternalBody d = xferBody d 0x0700
      (fun t b a o n => memcpy ((t.set 1 (u8 a)).set 2 (u8 n)) 3 b o n)
      (fun b _ _ _ => b) := rfl

theorem xfer_frames {σ : Type} (d : Device σ) (code op chunk size N : Nat)
    (mk : List Nat → List Nat → Nat → Nat → Nat → List Nat)
    (store : List Nat → Nat → List Nat → Nat → List Nat)
    (frame : Nat → List Nat) (P Q : List Nat → Prop) (w : World σ) (buf0 : List Nat)
    (h : XferOk code op chunk size N mk store frame P Q buf0) :
    ∀ n, n ≤ N →
      P (chunksDone chunk size (xferBody d code mk store)
          ⟨w, List.replicate 64 0, List.replicate 64 0, buf0⟩ n).tBuf ∧
      Q (chunksDone chunk size (xferBody d code mk store)
          ⟨w, List.replicate 64 0, List.replicate 64 0, buf0⟩ n).buf ∧
      (chunksDone chunk size (xferBody d code mk store)
          ⟨w, List.replicate 64 0, List.replicate 64 0, buf0⟩ n).fBuf.length = 64 ∧
      (chunksDone chunk size (xferBody d code mk store)
          ⟨w, List.replicate 64 0, List.replicate 64 0, buf0⟩ n).world.sent =
        w.sent ++ (List.range n).map frame := by
  intro n
  induction n with
  | zero =>
    intro _
    exact ⟨h.hP0, h.hQ0, List.length_replicate _ _, by simp [chunksDone]⟩
  | succ n ih =>
    intro hn
    obtain ⟨hP, hQb, hf, hs⟩ := ih (by omega)
    rw [chunksDone_succ]
    generalize chunksDone chunk size (xferBody d code mk store)
      ⟨w, List.replicate 64 0, List.replicate 64 0, buf0⟩ n = S at hP hQb hf hs
    have hfr := h.hmk S.tBuf S.buf n (by omega) hP hQb
    have hop := h.hop
    have hopc : u8 ((code >>> 8) &&& 0xff) ≠ 0x00 := by rw [hop]; exact h.hop0
    unfold xferBody
    simp only
    refine ⟨?_, h.hQ _ _ _ _ hQb, ?_, ?_⟩
    · rw [i1d3Command_sBuf_major _ _ _ _ _ hopc, hop, hfr]
      exact h.hPf n (by omega)
    · rw [length_i1d3Command_rBuf, hf]
    · rw [i1d3Command_sent, hs, List.range_succ, List.map_append, List.append_assoc]
      congr 2
      unfold cmdFrame
      rw [if_neg hopc, hop, hfr]
      simp only [List.map_cons, List.map_nil]
      rw [List.take_of_length_le (by rw [h.hPlen _ (h.hPf n (by omega))])]


theorem length_extWriteFrame (image : List Nat) (a n : Nat) : (extWriteFrame image a n).length = 64 := by
  simp [extWriteFrame]

theorem length_intWriteFrame (image : List Nat) (a n : Nat) : (intWriteFrame image a n).length = 64 := by
  simp [intWriteFrame]

theorem length_extReadFrame (a n : Nat) : (extReadFrame a n).length = 64 := by
  simp [extReadFrame]

theorem length_intReadFrame (a n : Nat) : (intReadFrame a n).length = 64 := by
  simp [intReadFrame]

theorem rd_extWriteFrame_tail (image : List Nat) (a n j : Nat) (hj : 4 + n ≤ j) :
    rd (extWriteFrame image a n) j = 0 := by
  rw [extWriteFrame, rd_map_range]
  split
  · rw [if_neg (by omega), if_neg (by omega), if_neg (by omega), if_neg (by omega),
      if_neg (by omega)]
  · rfl

theorem rd_intWriteFrame_tail (image : List Nat) (a n j : Nat) (hj : 3 + n ≤ j) :
    rd (intWriteFrame image a n) j = 0 := by
  rw [intWriteFrame, rd_map_range]
  split
  · rw [if_neg (by omega), if_neg (by omega), if_neg (by omega), if_neg (by omega)]
  · rfl

theorem rd_extReadFrame_tail (a n j : Nat) (hj : 4 ≤ j) : rd (extReadFrame a n) j = 0 := by
  rw [extReadFrame, rd_map_range]
  split
  · rw [if_neg (by omega), if_neg (by omega), if_neg (by omega), if_neg (by omega)]
  · rfl

theorem rd_intReadFrame_tail (a n j : Nat) (hj : 3 ≤ j) : rd (intReadFrame a n) j = 0 := by
  rw [intReadFrame, rd_map_range]
  split
  · rw [if_neg (by omega), if_neg (by omega), if_neg (by omega)]
  · rfl

theorem rd_replicate_zero (n j : Nat) : rd (List.replicate n 0) j = 0 := by
  rw [rd_replicate]; split <;> rfl

/-- The loop of `i1d3WriteExternalEeprom` meets the conditions of `xfer_frames`. -/
theorem writeExternal_ok (image : List Nat) :
    XferOk 0x1300 0x13 32 8192 256
      (fun t b a o n => memcpy
        (((t.set 1 (u8 ((a >>> 8) &&& 0xff))).set 2 (u8 (a &&& 0xff))).set 3 (u8 n)) 4 b o n)
      (fun b _ _ _ => b)
      (fun k => extWriteFrame image (32 * k) (min 32 (8192 - 32 * k)))
      (fun t => t.length = 64 ∧ ∀ j, 36 ≤ j → rd t j = 0) (fun b => b = image) image := by
  refine ⟨by decide, by decide, ?_, ?_, ?_, ?_, ?_, ?_⟩
  · exact ⟨List.length_replicate _ _, fun j _ => rd_replicate_zero 64 j⟩
  · exact fun t h => h.1
  · rfl
  · exact fun _ _ _ _ h => h
  · intro t b k hk hP hQ
    have hm : min 32 (8192 - 32 * k) = 32 := by omega
    simp only [hm, hQ]
    exact extWrite_frame t image (32 * k) 32 hP.1 hP.2 (by omega) (by decide)
  · intro k hk
    have hm : min 32 (8192 - 32 * k) = 32 := by omega
    simp only [hm]
    exact ⟨length_extWriteFrame _ _ _, fun j hj => rd_extWriteFrame_tail _ _ _ _ (by omega)⟩

/-- The state of `i1d3WriteExternalEeprom` after `n` chunks. -/
theorem writeExternal_state {σ : Type} (d : Device σ) (w : World σ) (image : List Nat) :
    ∀ n, n ≤ 256 →
      ((chunksDone 32 8192 (writeExternalBody d)
          ⟨w, List.replicate 64 0, List.replicate 64 0, image⟩ n).tBuf.length = 64 ∧
        ∀ j, 36 ≤ j → rd (chunksDone 32 8192 (writeExternalBody d)
          ⟨w, List.replicate 64 0, List.replicate 64 0, image⟩ n).tBuf j = 0) ∧
      (chunksDone 32 8192 (writeExternalBody d)
          ⟨w, List.replicate 64 0, List.replicate 64 0, image⟩ n).buf = image ∧
      (chunksDone 32 8192 (writeExternalBody d)
          ⟨w, List.replicate 64 0, List.replicate 64 0, image⟩ n).fBuf.length = 64 ∧
      (chunksDone 32 8192 (writeExternalBody d)
          ⟨w, List.replicate 64 0, List.replicate 64 0, image⟩ n).world.sent =
        w.sent ++ (List.range n).map
          (fun k => extWriteFrame image (32 * k) (min 32 (8192 - 32 * k))) := by
  rw [writeExternalBody_eq]
  exact xfer_frames d 0x1300 0x13 32 8192 256 _ _ _ _ _ w image (writeExternal_ok image)

/-- The loop of `i1d3WriteInternalEeprom` meets the conditions of `xfer_frames`. -/
theorem writeInternal_ok (image : List Nat) :
    XferOk 0x0700 0x07 32 256 8
      (fun t b a o n => memcpy ((t.set 1 (u8 a)).set 2 (u8 n)) 3 b o n)
      (fun b _ _ _ => b)
      (fun k => intWriteFrame image (32 * k) (min 32 (256 - 32 * k)))
      (fun t => t.length = 64 ∧ ∀ j, 35 ≤ j → rd t j = 0) (fun b => b = image) image := by
  refine ⟨by decide, by decide, ?_, ?_, ?_, ?_, ?_, ?_⟩
  · exact ⟨List.length_replicate _ _, fun j _ => rd_replicate_zero 64 j⟩
  · exact fun t h => h.1
  · rfl
  · exact fun _ _ _ _ h => h
  · intro t b k hk hP hQ
    have hm : min 32 (256 - 32 * k) = 32 := by omega
    simp only [hm, hQ]
    exact intWrite_frame t image (32 * k) 32 hP.1 hP.2 (by omega) (by decide)
  · intro k hk
    have hm : min 32 (256 - 32 * k) = 32 := by omega
    simp only [hm]
    exact ⟨length_intWriteFrame _ _ _, fun j hj => rd_intWriteFrame_tail _ _ _ _ (by omega)⟩

/-- The state of `i1d3WriteInternalEeprom` after `n` chunks. -/
theorem writeInternal_state {σ : Type} (d : Device σ) (w : World σ) (image : List Nat) :
    ∀ n, n ≤ 8 →
      ((chunksDone 32 256 (writeInternalBody d)
          ⟨w, List.replicate 64 0, List.replicate 64 0, image⟩ n).tBuf.length = 64 ∧
        ∀ j, 35 ≤ j → rd (chunksDone 32 256 (writeInternalBody d)
          ⟨w, List.replicate 64 0, List.replicate 64 0, image⟩ n).tBuf j = 0) ∧
      (chunksDone 32 256 (writeInternalBody d)
          ⟨w, List.replicate 64 0, List.replicate 64 0, image⟩ n).buf = image ∧
      (chunksDone 32 256 (writeInternalBody d)
          ⟨w, List.replicate 64 0, List.replicate 64 0, image⟩ n).fBuf.length = 64 ∧
      (chunksDone 32 256 (writeInternalBody d)
          ⟨w, List.replicate 64 0, List.replicate 64 0, image⟩ n).world.sent =
        w.sent ++ (List.range n).map
          (fun k => intWriteFrame image (32 * k) (min 32 (256 - 32 * k))) := by
  rw [writeInternalBody_eq]
  exact xfer_frames d 0x0700 0x07 32 256 8 _ _ _ _ _ w image (writeInternal_ok image)

/-- The loop of `i1d3ReadExternalEeprom` meets the conditions of `xfer_frames`. -/
theorem readExternal_ok (buf : List Nat) :
    XferOk 0x1200 0x12 59 8192 139
      (fun t _ a _ n => ((t.set 1 (u8 ((a >>> 8) &&& 0xff))).set 2 (u8 (a &&& 0xff))).set 3 (u8 n))
      (fun b o r n => memcpy b o r 5 n)
      (fun k => extReadFrame (59 * k) (min 59 (8192 - 59 * k)))
      (fun t => t.length = 64 ∧ ∀ j, 4 ≤ j → rd t j = 0) (fun b => b.length = buf.length) buf := by
  refine ⟨by decide, by decide, ?_, ?_, ?_, ?_, ?_, ?_⟩
  · exact ⟨List.length_replicate _ _, fun j _ => rd_replicate_zero 64 j⟩
  · exact fun t h => h.1
  · rfl
  · intro b o r n h
    rw [length_memcpy, h]
  · intro t b k hk hP _
    exact extRead_frame t (59 * k) _ hP.1 hP.2 (by omega) (by omega)
  · intro k _
    exact ⟨length_extReadFrame _ _, fun j hj => rd_extReadFrame_tail _ _ _ hj⟩

/-- The state of `i1d3ReadExternalEeprom` after `n` chunks. -/
theorem readExternal_state {σ : Type} (d : Device σ) (w : World σ) (buf : List Nat) :
    ∀ n, n ≤ 139 →
      ((chunksDone 59 8192 (readExternalBody d)
          ⟨w, List.replicate 64 0, List.replicate 64 0, buf⟩ n).tBuf.length = 64 ∧
        ∀ j, 4 ≤ j → rd (chunksDone 59 8192 (readExternalBody d)
          ⟨w, List.replicate 64 0, List.replicate 64 0, buf⟩ n).tBuf j = 0) ∧
      (chunksDone 59 8192 (readExternalBody d)
          ⟨w, List.replicate 64 0, List.replicate 64 0, buf⟩ n).buf.length = buf.length ∧
      (chunksDone 59 8192 (readExternalBody d)
          ⟨w, List.replicate 64 0, List.replicate 64 0, buf⟩ n).fBuf.length = 64 ∧
      (chunksDone 59 8192 (readExternalBody d)
          ⟨w, List.replicate 64 0, List.replicate 64 0, buf⟩ n).world.sent =
        w.sent ++ (List.range n).map
          (fun k => extReadFrame (59 * k) (min 59 (8192 - 59 * k))) := by
  rw [readExternalBody_eq]
  exact xfer_frames d 0x1200 0x12 59 8192 139 _ _ _ _ _ w buf (readExternal_ok buf)

/-- The loop of `i1d3ReadInternalEeprom` meets the conditions of `xfer_frames`. -/
theorem readInternal_ok (buf : List Nat) :
    XferOk 0x0800 0x08 60 256 5
      (fun t _ a _ n => (t.set 1 (u8 a)).set 2 (u8 n))
      (fun b o r n => memcpy b o r 4 n)
      (fun k => intReadFrame (60 * k) (min 60 (256 - 60 * k)))
      (fun t => t.length = 64 ∧ ∀ j, 3 ≤ j → rd t j = 0) (fun b => b.length = buf.length) buf := by
  refine ⟨by decide, by decide, ?_, ?_, ?_, ?_, ?_, ?_⟩
  · exact ⟨List.length_replicate _ _, fun j _ => rd_replicate_zero 64 j⟩
  · exact fun t h => h.1
  · rfl
  · intro b o r n h
    rw [length_memcpy, h]
  · intro t b k hk hP _
    exact intRead_frame t (60 * k) _ hP.1 hP.2 (by omega) (by omega)
  · intro k _
    exact ⟨length_intReadFrame _ _, fun j hj => rd_intReadFrame_tail _ _ _ hj⟩

/-- The state of `i1d3ReadInternalEeprom` after `n` chunks. -/
theorem readInternal_state {σ : Type} (d : Device σ) (w : World σ) (buf : List Nat) :
    ∀ n, n ≤ 5 →
      ((chunksDone 60 256 (readInternalBody d)
          ⟨w, List.replicate 64 0, List.replicate 64 0, buf⟩ n).tBuf.length = 64 ∧
        ∀ j, 3 ≤ j → rd (chunksDone 60 256 (readInternalBody d)
          ⟨w, List.replicate 64 0, List.replicate 64 0, buf⟩ n).tBuf j = 0) ∧
      (chunksDone 60 256 (readInternalBody d)
          ⟨w, List.replicate 64 0, List.replicate 64 0, buf⟩ n).buf.length = buf.length ∧
      (chunksDone 60 256 (readInternalBody d)
          ⟨w, List.replicate 64 0, List.replicate 64 0, buf⟩ n).fBuf.length = 64 ∧
      (chunksDone 60 256 (readInternalBody d)
          ⟨w, List.replicate 64 0, List.replicate 64 0, buf⟩ n).world.sent =
        w.sent ++ (List.range n).map
          (fun k => intReadFrame (60 * k) (min 60 (256 - 60 * k))) := by
  rw [readInternalBody_eq]
  exact xfer_frames d 0x0800 0x08 60 256 5 _ _ _ _ _ w buf (readInternal_ok buf)

theorem map_chunkList (chunk size n : Nat) (f : Nat → Nat → List Nat) :
    (chunkList chunk size n).map (fun c => f c.1 c.2) =
      (List.range n).map (fun k => f (chunk * k) (min chunk (size - chunk * k))) := by
  unfold chunkList
  rw [List.map_map]
  rfl


theorem i1d3WriteExternalEeprom_eq {σ : Type} (d : Device σ) (w : World σ) (buf : List Nat) :
    i1d3WriteExternalEeprom d w buf = some
      ⟨0, (chunksDone 32 8192 (writeExternalBody d)
          ⟨w, List.replicate 64 0, List.replicate 64 0, buf⟩ 256).world,
        (chunksDone 32 8192 (writeExternalBody d)
          ⟨w, List.replicate 64 0, List.replicate 64 0, buf⟩ 256).buf⟩ := by
  unfold i1d3WriteExternalEeprom
  rw [xferLoop_32_8192]
  rfl

theorem i1d3WriteInternalEeprom_eq {σ : Type} (d : Device σ) (w : World σ) (buf : List Nat) :
    i1d3WriteInternalEeprom d w buf = some
      ⟨0, (chunksDone 32 256 (writeInternalBody d)
          ⟨w, List.replicate 64 0, List.replicate 64 0, buf⟩ 8).world,
        (chunksDone 32 256 (writeInternalBody d)
          ⟨w, List.replicate 64 0, List.replicate 64 0, buf⟩ 8).buf⟩ := by
  unfold i1d3WriteInternalEeprom
  rw [xferLoop_32_256]
  rfl

theorem i1d3ReadExternalEeprom_eq {σ : Type} (d : Device σ) (w : World σ) (buf : List Nat) :
    i1d3ReadExternalEeprom d w buf = some
      ⟨0, (chunksDone 59 8192 (readExternalBody d)
          ⟨w, List.replicate 64 0, List.replicate 64 0, buf⟩ 139).world,
        (chunksDone 59 8192 (readExternalBody d)
          ⟨w, List.replicate 64 0, List.replicate 64 0, buf⟩ 139).buf⟩ := by
  unfold i1d3ReadExternalEeprom
  rw [xferLoop_59_8192]
  rfl

theorem i1d3ReadInternalEeprom_eq {σ : Type} (d : Device σ) (w : World σ) (buf : List Nat) :
    i1d3ReadInternalEeprom d w buf = some
      ⟨0, (chunksDone 60 256 (readInternalBody d)
          ⟨w, List.replicate 64 0, List.replicate 64 0, buf⟩ 5).world,
        (chunksDone 60 256 (readInternalBody d)
          ⟨w, List.replicate 64 0, List.replicate 64 0, buf⟩ 5).buf⟩ := by
  unfold i1d3ReadInternalEeprom
  rw [xferLoop_60_256]
  rfl

theorem mem_chunkList {chunk size n : Nat} {c : Nat × Nat} (h : c ∈ chunkList chunk size n) :
    ∃ k, k < n ∧ c = (chunk * k, min chunk (size - chunk * k)) := by
  unfold chunkList at h
  obtain ⟨k, hk, rfl⟩ := List.mem_map.1 h
  exact ⟨k, List.mem_range.1 hk, rfl⟩

theorem isBytes_map_range (f : Nat → Nat) (h : ∀ j, j < 64 → f j < 256) :
    IsBytes 64 ((List.range 64).map f) := by
  refine ⟨by simp, ?_⟩
  intro b hb
  obtain ⟨j, hj, rfl⟩ := List.mem_map.1 hb
  exact h j (List.mem_range.1 hj)

theorem isBytes_extWriteFrame (image : List Nat) (a n m : Nat) (himg : IsBytes m image)
    (ha : a < 65536) (hn : n < 256) : IsBytes 64 (extWriteFrame image a n) := by
  apply isBytes_map_range
  intro j _
  have := rd_lt_of_isBytes himg (a + (j - 4))
  split_ifs <;> omega

theorem isBytes_intWriteFrame (image : List Nat) (a n m : Nat) (himg : IsBytes m image)
    (ha : a < 256) (hn : n < 256) : IsBytes 64 (intWriteFrame image a n) := by
  apply isBytes_map_range
  intro j _
  have := rd_lt_of_isBytes himg (a + (j - 3))
  split_ifs <;> omega

theorem isBytes_extReadFrame (a n : Nat) (ha : a < 65536) (hn : n < 256) :
    IsBytes 64 (extReadFrame a n) := by
  apply isBytes_map_range
  intro j _
  split_ifs <;> omega

theorem isBytes_intReadFrame (a n : Nat) (ha : a < 256) (hn : n < 256) :
    IsBytes 64 (intReadFrame a n) := by
  apply isBytes_map_range
  intro j _
  split_ifs <;> omega

theorem rd_extWriteFrame_hdr (image : List Nat) (a n : Nat) :
    rd (extWriteFrame image a n) 0 = 0x13 ∧ rd (extWriteFrame image a n) 1 = a / 256 ∧
    rd (extWriteFrame image a n) 2 = a % 256 ∧ rd (extWriteFrame image a n) 3 = n := by
  simp [extWriteFrame, rd_map_range]

theorem rd_intWriteFrame_hdr (image : List Nat) (a n : Nat) :
    rd (intWriteFrame image a n) 0 = 0x07 ∧ rd (intWriteFrame image a n) 1 = a ∧
    rd (intWriteFrame image a n) 2 = n := by
  simp [intWriteFrame, rd_map_range]

theorem rd_extReadFrame_hdr (a n : Nat) :
    rd (extReadFrame a n) 0 = 0x12 ∧ rd (extReadFrame a n) 1 = a / 256 ∧
    rd (extReadFrame a n) 2 = a % 256 ∧ rd (extReadFrame a n) 3 = n := by
  simp [extReadFrame, rd_map_range]

theorem rd_intReadFrame_hdr (a n : Nat) :
    rd (intReadFrame a n) 0 = 0x08 ∧ rd (intReadFrame a n) 1 = a ∧
    rd (intReadFrame a n) 2 = n := by
  simp [intReadFrame, rd_map_range]

/-- Claim C8. The request frames of the four transfers.  For every device and every pair of
images, each transfer returns, and the frames it has handed to the transport are, chunk
by chunk, the frames the protocol describes (`extWriteFrame`, `intWriteFrame`,
`extReadFrame`, `intReadFrame`: opcode, address, length, payload, zero padding).  Every
such frame consists of bytes, and its address and length fields decode to the chunk. -/
theorem request_frames {σ : Type} (d : Device σ) (w : World σ)
    (imageI imageE bufI bufE : List Nat) (hI : IsBytes 256 imageI) (hE : IsBytes 8192 imageE) :
    (∃ r, i1d3WriteExternalEeprom d w imageE = some r ∧
      r.world.sent = w.sent ++
        (chunkList 32 8192 256).map (fun c => extWriteFrame imageE c.1 c.2)) ∧
    (∃ r, i1d3WriteInternalEeprom d w imageI = some r ∧
      r.world.sent = w.sent ++
        (chunkList 32 256 8).map (fun c => intWriteFrame imageI c.1 c.2)) ∧
    (∃ r, i1d3ReadExternalEeprom d w bufE = some r ∧
      r.world.sent = w.sent ++ (chunkList 59 8192 139).map (fun c => extReadFrame c.1 c.2)) ∧
    (∃ r, i1d3ReadInternalEeprom d w bufI = some r ∧
      r.world.sent = w.sent ++ (chunkList 60 256 5).map (fun c => intReadFrame c.1 c.2)) ∧
    (∀ c ∈ chunkList 32 8192 256, IsBytes 64 (extWriteFrame imageE c.1 c.2) ∧
      rd (extWriteFrame imageE c.1 c.2) 1 * 256 + rd (extWriteFrame imageE c.1 c.2) 2 = c.1 ∧
      rd (extWriteFrame imageE c.1 c.2) 3 = c.2) ∧
    (∀ c ∈ chunkList 32 256 8, IsBytes 64 (intWriteFrame imageI c.1 c.2) ∧
      rd (intWriteFrame imageI c.1 c.2) 1 = c.1 ∧ rd (intWriteFrame imageI c.1 c.2) 2 = c.2) ∧
    (∀ c ∈ chunkList 59 8192 139, IsBytes 64 (extReadFrame c.1 c.2) ∧
      rd (extReadFrame c.1 c.2) 1 * 256 + rd (extReadFrame c.1 c.2) 2 = c.1 ∧
      rd (extReadFrame c.1 c.2) 3 = c.2) ∧
    (∀ c ∈ chunkList 60 256 5, IsBytes 64 (intReadFrame c.1 c.2) ∧
      rd (intReadFrame c.1 c.2) 1 = c.1 ∧ rd (intReadFrame c.1 c.2) 2 = c.2) := by
  refine ⟨⟨_, i1d3WriteExternalEeprom_eq d w imageE, ?_⟩,
    ⟨_, i1d3WriteInternalEeprom_eq d w imageI, ?_⟩,
    ⟨_, i1d3ReadExternalEeprom_eq d w bufE, ?_⟩,
    ⟨_, i1d3ReadInternalEeprom_eq d w bufI, ?_⟩, ?_, ?_, ?_, ?_⟩
  · rw [map_chunkList 32 8192 256 (extWriteFrame imageE)]
    exact (writeExternal_state d w imageE 256 (le_refl _)).2.2.2
  · rw [map_chunkList 32 256 8 (intWriteFrame imageI)]
    exact (writeInternal_state d w imageI 8 (le_refl _)).2.2.2
  · rw [map_chunkList 59 8192 139 extReadFrame]
    exact (readExternal_state d w bufE 139 (le_refl _)).2.2.2
  · rw [map_chunkList 60 256 5 intReadFrame]
    exact (readInternal_state d w bufI 5 (le_refl _)).2.2.2
  · intro c hc
    obtain ⟨k, hk, rfl⟩ := mem_chunkList hc
    obtain ⟨_, h1, h2, h3⟩ := rd_extWriteFrame_hdr imageE (32 * k) (min 32 (8192 - 32 * k))
    refine ⟨isBytes_extWriteFrame _ _ _ _ hE (by omega) (by omega), ?_, h3⟩
    rw [h1, h2]; omega
  · intro c hc
    obtain ⟨k, hk, rfl⟩ := mem_chunkList hc
    obtain ⟨_, h1, h2⟩ := rd_intWriteFrame_hdr imageI (32 * k) (min 32 (256 - 32 * k))
    exact ⟨isBytes_intWriteFrame _ _ _ _ hI (by omega) (by omega), h1, h2⟩
  · intro c hc
    obtain ⟨k, hk, rfl⟩ := mem_chunkList hc
    obtain ⟨_, h1, h2, h3⟩ := rd_extReadFrame_hdr (59 * k) (min 59 (8192 - 59 * k))
    refine ⟨isBytes_extReadFrame _ _ (by omega) (by omega), ?_, h3⟩
    rw [h1, h2]; omega
  · intro c hc
    obtain ⟨k, hk, rfl⟩ := mem_chunkList hc
    obtain ⟨_, h1, h2⟩ := rd_intReadFrame_hdr (60 * k) (min 60 (256 - 60 * k))
    exact ⟨isBytes_intReadFrame _ _ (by omega) (by omega), h1, h2⟩

/-! ## Transfers against a device that always answers -/

theorem memcpy_full (rbuf fr : List Nat) (hr : rbuf.length = 64) (hf : fr.length = 64) :
    memcpy rbuf 0 fr 0 64 = fr := by
  rw [memcpy_eq rbuf 0 fr 0 64 (by omega) (by omega)]
  simp only [List.take_zero, List.drop_zero, List.nil_append, Nat.zero_add]
  rw [List.take_of_length_le (by omega), List.drop_of_length_le (by omega), List.append_nil]

theorem i1d3Command_responsive {σ : Type} (d : Device σ) (hd : Responsive d) (w : World σ)
    (code : Nat) (sBuf rBuf : List Nat) (hr : rBuf.length = 64) :
    ∃ fr, (exchange d w.st (cmdFrame code sBuf)).2 = some fr ∧ fr.length = 64 ∧
      (i1d3Command d w code sBuf rBuf).rBuf = fr ∧
      (i1d3Command d w code sBuf rBuf).world.st = (exchange d w.st (cmdFrame code sBuf)).1 := by
  obtain ⟨hw, _⟩ := hd w.st (cmdFrame code sBuf)
  obtain ⟨_, fr, hfr, hlen⟩ := hd (d.write w.st (cmdFrame code sBuf)).1 []
  refine ⟨fr, hfr, hlen, ?_⟩
  have hwr : (writeHIDdevice d w (if u8 ((code >>> 8) &&& 0xff) = 0x00
        then (sBuf.set 0 (u8 ((code >>> 8) &&& 0xff))).set 1 (u8 (code &&& 0xff))
        else sBuf.set 0 (u8 ((code >>> 8) &&& 0xff)))) =
      (⟨(d.write w.st (cmdFrame code sBuf)).1, w.sent ++ [cmdFrame code sBuf]⟩, 64) := by
    unfold writeHIDdevice
    simp only
    unfold cmdFrame at hw ⊢
    rw [hw]
    rfl
  have hrd : readHIDdevice d ⟨(d.write w.st (cmdFrame code sBuf)).1, w.sent ++ [cmdFrame code sBuf]⟩
      rBuf = (⟨(exchange d w.st (cmdFrame code sBuf)).1, w.sent ++ [cmdFrame code sBuf]⟩, 64, fr) := by
    unfold readHIDdevice
    simp only
    unfold exchange
    rw [hfr]
    simp only [hlen, Nat.min_self]
    rw [memcpy_full rBuf fr hr hlen]
    rfl
  unfold i1d3Command
  simp only
  rw [hwr]
  simp only
  rw [if_neg (by decide), hrd]
  simp only
  rw [if_neg (by decide)]
  split <;> exact ⟨rfl, rfl⟩

theorem xferBody_responsive {σ : Type} (d : Device σ) (hd : Responsive d) (code : Nat)
    (mk : List Nat → List Nat → Nat → Nat → Nat → List Nat)
    (store : List Nat → Nat → List Nat → Nat → List Nat) (a o n : Nat) (s : Xfer σ)
    (hf : s.fBuf.length = 64) :
    ∃ fr, (exchange d s.world.st (cmdFrame code (mk s.tBuf s.buf a o n))).2 = some fr ∧
      fr.length = 64 ∧
      (xferBody d code mk store a o n s).fBuf = fr ∧
      (xferBody d code mk store a o n s).buf = store s.buf o fr n ∧
      (xferBody d code mk store a o n s).world.st =
        (exchange d s.world.st (cmdFrame code (mk s.tBuf s.buf a o n))).1 := by
  obtain ⟨fr, h1, h2, h3, h4⟩ :=
    i1d3Command_responsive d hd s.world code (mk s.tBuf s.buf a o n) s.fBuf hf
  refine ⟨fr, h1, h2, h3, ?_, h4⟩
  unfold xferBody
  simp only
  rw [h3]

theorem xfer_cmdFrame {code op chunk size N : Nat}
    {mk : List Nat → List Nat → Nat → Nat → Nat → List Nat}
    {store : List Nat → Nat → List Nat → Nat → List Nat}
    {frame : Nat → List Nat} {P Q : List Nat → Prop} {buf0 : List Nat}
    (h : XferOk code op chunk size N mk store frame P Q buf0) (t b : List Nat) (k : Nat)
    (hk : k < N) (hP : P t) (hQ : Q b) :
    cmdFrame code (mk t b (chunk * k) (chunk * k) (min chunk (size - chunk * k))) = frame k := by
  unfold cmdFrame
  rw [if_neg (by rw [h.hop]; exact h.hop0), h.hop, h.hmk t b k hk hP hQ,
    List.take_of_length_le (by rw [h.hPlen _ (h.hPf k hk)])]

theorem xfer_step {σ : Type} (d : Device σ) (hd : Responsive d)
    (code op chunk size N : Nat)
    (mk : List Nat → List Nat → Nat → Nat → Nat → List Nat)
    (store : List Nat → Nat → List Nat → Nat → List Nat)
    (frame : Nat → List Nat) (P Q : List Nat → Prop) (w : World σ) (buf0 : List Nat)
    (h : XferOk code op chunk size N mk store frame P Q buf0) (n : Nat) (hn : n < N) :
    ∃ fr, (exchange d (chunksDone chunk size (xferBody d code mk store)
          ⟨w, List.replicate 64 0, List.replicate 64 0, buf0⟩ n).world.st (frame n)).2 = some fr ∧
      fr.length = 64 ∧
      (chunksDone chunk size (xferBody d code mk store)
          ⟨w, List.replicate 64 0, List.replicate 64 0, buf0⟩ (n + 1)).buf =
        store (chunksDone chunk size (xferBody d code mk store)
          ⟨w, List.replicate 64 0, List.replicate 64 0, buf0⟩ n).buf (chunk * n) fr
          (min chunk (size - chunk * n)) ∧
      (chunksDone chunk size (xferBody d code mk store)
          ⟨w, List.replicate 64 0, List.replicate 64 0, buf0⟩ (n + 1)).world.st =
        (exchange d (chunksDone chunk size (xferBody d code mk store)
          ⟨w, List.replicate 64 0, List.replicate 64 0, buf0⟩ n).world.st (frame n)).1 := by
  rw [chunksDone_succ]
  obtain ⟨hP, hQ, hf, _⟩ :=
    xfer_frames d code op chunk size N mk store frame P Q w buf0 h n (Nat.le_of_lt hn)
  generalize chunksDone chunk size (xferBody d code mk store)
    ⟨w, List.replicate 64 0, List.replicate 64 0, buf0⟩ n = S at hP hQ hf
  obtain ⟨fr, h1, h2, _, h4, h5⟩ := xferBody_responsive d hd code mk store (chunk * n) (chunk * n)
    (min chunk (size - chunk * n)) S hf
  rw [xfer_cmdFrame h S.tBuf S.buf n hn hP hQ] at h1 h5
  exact ⟨fr, h1, h2, h4, h5⟩

/-- Against a device that always answers, the device is in the state `stAfter ... n`
after `n` chunks of a transfer. -/
theorem xfer_state {σ : Type} (d : Device σ) (hd : Responsive d)
    (code op chunk size N : Nat)
    (mk : List Nat → List Nat → Nat → Nat → Nat → List Nat)
    (store : List Nat → Nat → List Nat → Nat → List Nat)
    (frame : Nat → List Nat) (P Q : List Nat → Prop) (w : World σ) (buf0 : List Nat)
    (h : XferOk code op chunk size N mk store frame P Q buf0) :
    ∀ n, n ≤ N →
      (chunksDone chunk size (xferBody d code mk store)
          ⟨w, List.replicate 64 0, List.replicate 64 0, buf0⟩ n).world.st =
        stAfter d w.st frame n := by
  intro n
  induction n with
  | zero => intro _; rfl
  | succ n ih =>
    intro hn
    obtain ⟨fr, _, _, _, h5⟩ :=
      xfer_step d hd code op chunk size N mk store frame P Q w buf0 h n (by omega)
    rw [h5, ih (by omega)]
    rfl

/-- Against a device that always answers, chunk `n` of a transfer hands the reply to
request `n` to `store`. -/
theorem xfer_reply {σ : Type} (d : Device σ) (hd : Responsive d)
    (code op chunk size N : Nat)
    (mk : List Nat → List Nat → Nat → Nat → Nat → List Nat)
    (store : List Nat → Nat → List Nat → Nat → List Nat)
    (frame : Nat → List Nat) (P Q : List Nat → Prop) (w : World σ) (buf0 : List Nat)
    (h : XferOk code op chunk size N mk store frame P Q buf0) (n : Nat) (hn : n < N) :
    ∃ fr, replyAt d w.st frame n = some fr ∧ fr.length = 64 ∧
      (chunksDone chunk size (xferBody d code mk store)
          ⟨w, List.replicate 64 0, List.replicate 64 0, buf0⟩ (n + 1)).buf =
        store (chunksDone chunk size (xferBody d code mk store)
          ⟨w, List.replicate 64 0, List.replicate 64 0, buf0⟩ n).buf (chunk * n) fr
          (min chunk (size - chunk * n)) := by
  obtain ⟨fr, h1, h2, h4, _⟩ :=
    xfer_step d hd code op chunk size N mk store frame P Q w buf0 h n hn
  rw [xfer_state d hd code op chunk size N mk store frame P Q w buf0 h n (Nat.le_of_lt hn)] at h1
  exact ⟨fr, h1, h2, h4⟩


/-- Against a device that always answers, after `n` chunks of a read the image holds,
for each chunk `k < n`, the payload of the reply to request `k`. -/
theorem read_data {σ : Type} (d : Device σ) (hd : Responsive d)
    (code op chunk size N off : Nat)
    (mk : List Nat → List Nat → Nat → Nat → Nat → List Nat)
    (frame : Nat → List Nat) (P Q : List Nat → Prop) (w : World σ) (buf0 : List Nat)
    (h : XferOk code op chunk size N mk (fun b o r n => memcpy b o r off n) frame P Q buf0)
    (hQlen : ∀ b, Q b → b.length = size) :
    ∀ n, n ≤ N → ∀ k, k < n →
      ∃ fr, replyAt d w.st frame k = some fr ∧ fr.length = 64 ∧
        ∀ j, j < min chunk (size - chunk * k) →
          rd (chunksDone chunk size (xferBody d code mk (fun b o r n => memcpy b o r off n))
            ⟨w, List.replicate 64 0, List.replicate 64 0, buf0⟩ n).buf (chunk * k + j) =
          rd fr (off + j) := by
  intro n
  induction n with
  | zero => intro _ k hk; exact absurd hk (Nat.not_lt_zero k)
  | succ n ih =>
    intro hn k hk
    obtain ⟨frn, hr1, hr2, hr3⟩ := xfer_reply d hd code op chunk size N mk
      (fun b o r n => memcpy b o r off n) frame P Q w buf0 h n (by omega)
    obtain ⟨_, hQ, _, _⟩ := xfer_frames d code op chunk size N mk
      (fun b o r n => memcpy b o r off n) frame P Q w buf0 h n (by omega)
    have hlen := hQlen _ hQ
    rw [hr3]
    by_cases hkn : k = n
    · subst hkn
      refine ⟨frn, hr1, hr2, ?_⟩
      intro j hj
      rw [rd_memcpy, if_pos ⟨by omega, by omega, by omega⟩]
      congr 1
      omega
    · obtain ⟨fr, h1, h2, h3⟩ := ih (by omega) k (by omega)
      refine ⟨fr, h1, h2, ?_⟩
      intro j hj
      have hmul : chunk * (k + 1) ≤ chunk * n := Nat.mul_le_mul_left chunk (by omega)
      rw [Nat.mul_succ] at hmul
      rw [rd_memcpy, if_neg (by omega)]
      exact h3 j hj

/-- Claim C9. Against a device all of whose exchanges succeed with a full frame, a region
read into a buffer of the region size returns an image of that size in which, for
chunk `k` at address `a_k` with length `n_k` and every `j < n_k`, byte `a_k + j` is byte
`off + j` of the device's response to request `k`, with `off = 4` for the internal and
`off = 5` for the external read; and every index of the region lies in exactly one
chunk. -/
theorem read_image {σ : Type} (d : Device σ) (w : World σ) (bufI bufE : List Nat)
    (hd : Responsive d) (hI : bufI.length = 256) (hE : bufE.length = 8192) :
    (∃ r, i1d3ReadInternalEeprom d w bufI = some r ∧ r.buf.length = 256 ∧
      ∀ k, k < 5 → ∃ fr,
        replyAt d w.st (fun k => intReadFrame (60 * k) (min 60 (256 - 60 * k))) k = some fr ∧
        fr.length = 64 ∧
        ∀ j, j < min 60 (256 - 60 * k) → rd r.buf (60 * k + j) = rd fr (4 + j)) ∧
    (∃ r, i1d3ReadExternalEeprom d w bufE = some r ∧ r.buf.length = 8192 ∧
      ∀ k, k < 139 → ∃ fr,
        replyAt d w.st (fun k => extReadFrame (59 * k) (min 59 (8192 - 59 * k))) k = some fr ∧
        fr.length = 64 ∧
        ∀ j, j < min 59 (8192 - 59 * k) → rd r.buf (59 * k + j) = rd fr (5 + j)) ∧
    (∀ i, i < 256 → ∃! k, k < 5 ∧ 60 * k ≤ i ∧ i < 60 * k + min 60 (256 - 60 * k)) ∧
    (∀ i, i < 8192 → ∃! k, k < 139 ∧ 59 * k ≤ i ∧ i < 59 * k + min 59 (8192 - 59 * k)) := by
  refine ⟨⟨_, i1d3ReadInternalEeprom_eq d w bufI, ?_, ?_⟩,
    ⟨_, i1d3ReadExternalEeprom_eq d w bufE, ?_, ?_⟩, ?_, ?_⟩
  · dsimp only
    rw [(readInternal_state d w bufI 5 (le_refl _)).2.1, hI]
  · intro k hk
    dsimp only
    rw [readInternalBody_eq]
    exact read_data d hd 0x0800 0x08 60 256 5 4 _ _ _ _ w bufI (readInternal_ok bufI)
      (fun b hb => by rw [hb, hI]) 5 (le_refl _) k hk
  · dsimp only
    rw [(readExternal_state d w bufE 139 (le_refl _)).2.1, hE]
  · intro k hk
    dsimp only
    rw [readExternalBody_eq]
    exact read_data d hd 0x1200 0x12 59 8192 139 5 _ _ _ _ w bufE (readExternal_ok bufE)
      (fun b hb => by rw [hb, hE]) 139 (le_refl _) k hk
  · intro i hi
    refine ⟨i / 60, ⟨by omega, by omega, by omega⟩, ?_⟩
    rintro k ⟨h1, h2, h3⟩
    omega
  · intro i hi
    refine ⟨i / 59, ⟨by omega, by omega, by omega⟩, ?_⟩
    rintro k ⟨h1, h2, h3⟩
    omega


/-! ## The loopback stub -/

theorem loopback_responsive : Responsive loopback := by
  intro s frame
  refine ⟨?_, _, rfl, by simp⟩
  unfold loopback
  simp only
  split_ifs <;> rfl

theorem exchange_loopback_fst (m : LoopMem) (f : List Nat) :
    (exchange loopback m f).1 = (loopback.write m f).1 := rfl

theorem loopback_write_int (m : LoopMem) (f : List Nat) (h : rd f 0 = 0x07) :
    (loopback.write m f).1 =
      ⟨fun i => if rd f 1 ≤ i ∧ i < rd f 1 + rd f 2 then rd f (3 + (i - rd f 1)) else m.int i,
        m.ext, f⟩ := by
  unfold loopback
  simp only [h, if_true]

theorem loopback_write_ext (m : LoopMem) (f : List Nat) (h : rd f 0 = 0x13) :
    (loopback.write m f).1 =
      ⟨m.int,
        fun i => if rd f 1 * 256 + rd f 2 ≤ i ∧ i < rd f 1 * 256 + rd f 2 + rd f 3
          then rd f (4 + (i - (rd f 1 * 256 + rd f 2))) else m.ext i,
        f⟩ := by
  unfold loopback
  simp only [h]
  rfl

theorem loopback_write_other (m : LoopMem) (f : List Nat) (h7 : rd f 0 ≠ 0x07)
    (h13 : rd f 0 ≠ 0x13) : (loopback.write m f).1 = ⟨m.int, m.ext, f⟩ := by
  unfold loopback
  simp only
  rw [if_neg h7, if_neg h13]

theorem rd_intWriteFrame_payload (image : List Nat) (a n t : Nat) (ht : t < n) (hn : 3 + n ≤ 64) :
    rd (intWriteFrame image a n) (3 + t) = rd image (a + t) := by
  rw [intWriteFrame, rd_map_range, if_pos (by omega), if_neg (by omega), if_neg (by omega),
    if_neg (by omega), if_pos (by omega)]
  congr 2
  omega

theorem rd_extWriteFrame_payload (image : List Nat) (a n t : Nat) (ht : t < n) (hn : 4 + n ≤ 64) :
    rd (extWriteFrame image a n) (4 + t) = rd image (a + t) := by
  rw [extWriteFrame, rd_map_range, if_pos (by omega), if_neg (by omega), if_neg (by omega),
    if_neg (by omega), if_neg (by omega), if_pos (by omega)]
  congr 2
  omega

/-- After the first `n` internal write requests the stub holds the image below `32 n`. -/
theorem loopback_after_intWrites (m : LoopMem) (image : List Nat) :
    ∀ n, n ≤ 8 → ∀ i, i < 32 * n →
      (stAfter loopback m (fun k => intWriteFrame image (32 * k) (min 32 (256 - 32 * k))) n).int i
        = rd image i := by
  intro n
  induction n with
  | zero => intro _ i hi; omega
  | succ n ih =>
    intro hn i hi
    have hm : min 32 (256 - 32 * n) = 32 := by omega
    obtain ⟨h0, h1, h2⟩ := rd_intWriteFrame_hdr image (32 * n) 32
    show (exchange loopback _ _).1.int i = _
    rw [exchange_loopback_fst]
    simp only [hm]
    rw [loopback_write_int _ _ h0]
    simp only [h1, h2]
    by_cases hi2 : 32 * n ≤ i
    · rw [if_pos ⟨hi2, by omega⟩, rd_intWriteFrame_payload _ _ _ _ (by omega) (by decide)]
      congr 1
      omega
    · rw [if_neg (by omega)]
      exact ih (by omega) i (by omega)

/-- After the first `n` external write requests the stub holds the image below `32 n`. -/
theorem loopback_after_extWrites (m : LoopMem) (image : List Nat) :
    ∀ n, n ≤ 256 → ∀ i, i < 32 * n →
      (stAfter loopback m (fun k => extWriteFrame image (32 * k) (min 32 (8192 - 32 * k))) n).ext i
        = rd image i := by
  intro n
  induction n with
  | zero => intro _ i hi; omega
  | succ n ih =>
    intro hn i hi
    have hm : min 32 (8192 - 32 * n) = 32 := by omega
    obtain ⟨h0, h1, h2, h3⟩ := rd_extWriteFrame_hdr image (32 * n) 32
    have ha : 32 * n / 256 * 256 + 32 * n % 256 = 32 * n := by omega
    show (exchange loopback _ _).1.ext i = _
    rw [exchange_loopback_fst]
    simp only [hm]
    rw [loopback_write_ext _ _ h0]
    simp only [h1, h2, h3, ha]
    by_cases hi2 : 32 * n ≤ i
    · rw [if_pos ⟨hi2, by omega⟩, rd_extWriteFrame_payload _ _ _ _ (by omega) (by decide)]
      congr 1
      omega
    · rw [if_neg (by omega)]
      exact ih (by omega) i (by omega)

/-- Read requests leave the bytes stored in the stub as they are. -/
theorem loopback_after_reads (m : LoopMem) (frame : Nat → List Nat)
    (h : ∀ k, rd (frame k) 0 ≠ 0x07 ∧ rd (frame k) 0 ≠ 0x13) :
    ∀ n, (stAfter loopback m frame n).int = m.int ∧ (stAfter loopback m frame n).ext = m.ext := by
  intro n
  induction n with
  | zero => exact ⟨rfl, rfl⟩
  | succ n ih =>
    show (exchange loopback _ _).1.int = _ ∧ (exchange loopback _ _).1.ext = _
    rw [exchange_loopback_fst, loopback_write_other _ _ (h n).1 (h n).2]
    exact ih

/-- The stub's reply to an internal read request carries the stored bytes at offset 4. -/
theorem loopback_reply_int (m : LoopMem) (a n j : Nat) (hj : j < n) (hn : 4 + n ≤ 64) :
    ∃ fr, (exchange loopback m (intReadFrame a n)).2 = some fr ∧ rd fr (4 + j) = m.int (a + j) := by
  obtain ⟨h0, h1, h2⟩ := rd_intReadFrame_hdr a n
  refine ⟨_, rfl, ?_⟩
  rw [rd_map_range, if_pos (by omega), if_neg (by omega), if_neg (by omega)]
  rw [loopback_write_other _ _ (by rw [h0]; decide) (by rw [h0]; decide)]
  simp only [h0, h1, h2, if_true]
  rw [if_pos ⟨by omega, by omega⟩]
  congr 2
  omega

/-- The stub's reply to an external read request carries the stored bytes at offset 5. -/
theorem loopback_reply_ext (m : LoopMem) (a n j : Nat) (hj : j < n) (hn : 5 + n ≤ 64) :
    ∃ fr, (exchange loopback m (extReadFrame a n)).2 = some fr ∧ rd fr (5 + j) = m.ext (a + j) := by
  obtain ⟨h0, h1, h2, h3⟩ := rd_extReadFrame_hdr a n
  refine ⟨_, rfl, ?_⟩
  rw [rd_map_range, if_pos (by omega), if_neg (by omega), if_neg (by omega)]
  rw [loopback_write_other _ _ (by rw [h0]; decide) (by rw [h0]; decide)]
  simp only [h0, h1, h2, h3]
  rw [if_neg (by decide), if_pos trivial, if_pos ⟨by omega, by omega⟩]
  congr 1
  omega


theorem intReadFrame_not_write (k : Nat) :
    rd (intReadFrame (60 * k) (min 60 (256 - 60 * k))) 0 ≠ 0x07 ∧
    rd (intReadFrame (60 * k) (min 60 (256 - 60 * k))) 0 ≠ 0x13 := by
  rw [(rd_intReadFrame_hdr _ _).1]
  decide

theorem extReadFrame_not_write (k : Nat) :
    rd (extReadFrame (59 * k) (min 59 (8192 - 59 * k))) 0 ≠ 0x07 ∧
    rd (extReadFrame (59 * k) (min 59 (8192 - 59 * k))) 0 ≠ 0x13 := by
  rw [(rd_extReadFrame_hdr _ _).1]
  decide

/-- Writing an internal image and reading it back, for a device that always answers and
whose replies to the read requests after the writes carry the image. -/
theorem roundtrip_int_of {σ : Type} (d : Device σ) (hd : Responsive d) (w : World σ)
    (image buf : List Nat) (hI : image.length = 256) (hb : buf.length = 256)
    (hrt : ∀ k j fr, k < 5 → j < min 60 (256 - 60 * k) →
      replyAt d (stAfter d w.st (fun k => intWriteFrame image (32 * k) (min 32 (256 - 32 * k))) 8)
        (fun k => intReadFrame (60 * k) (min 60 (256 - 60 * k))) k = some fr →
      rd fr (4 + j) = rd image (60 * k + j)) :
    ∃ r1 r2, i1d3WriteInternalEeprom d w image = some r1 ∧
      i1d3ReadInternalEeprom d r1.world buf = some r2 ∧ r2.buf = image := by
  refine ⟨_, _, i1d3WriteInternalEeprom_eq d w image, i1d3ReadInternalEeprom_eq d _ buf, ?_⟩
  dsimp only
  have hst := xfer_state d hd 0x0700 0x07 32 256 8 _ _ _ _ _ w
    image (writeInternal_ok image) 8 (le_refl _)
  rw [← writeInternalBody_eq] at hst
  generalize (chunksDone 32 256 (writeInternalBody d)
    ⟨w, List.replicate 64 0, List.replicate 64 0, image⟩ 8).world = w1 at hst ⊢
  have hlen := (readInternal_state d w1 buf 5 (le_refl _)).2.1
  apply list_eq_of_rd 256 _ _ (by rw [hlen, hb]) hI
  intro i hi
  have hdata := read_data d hd 0x0800 0x08 60 256 5 4 _ _ _ _ w1 buf
    (readInternal_ok buf) (fun b hbb => by rw [hbb, hb]) 5 (le_refl _) (i / 60) (by omega)
  rw [← readInternalBody_eq] at hdata
  obtain ⟨fr, hfr, _, hrd⟩ := hdata
  have hi2 : 60 * (i / 60) + i % 60 = i := by omega
  have h1 := hrd (i % 60) (by omega)
  rw [hst] at hfr
  have h2 := hrt (i / 60) (i % 60) fr (by omega) (by omega) hfr
  rw [hi2] at h1 h2
  rw [h1, h2]

/-- Writing an external image and reading it back, for a device that always answers and
whose replies to the read requests after the writes carry the image. -/
theorem roundtrip_ext_of {σ : Type} (d : Device σ) (hd : Responsive d) (w : World σ)
    (image buf : List Nat) (hE : image.length = 8192) (hb : buf.length = 8192)
    (hrt : ∀ k j fr, k < 139 → j < min 59 (8192 - 59 * k) →
      replyAt d
        (stAfter d w.st (fun k => extWriteFrame image (32 * k) (min 32 (8192 - 32 * k))) 256)
        (fun k => extReadFrame (59 * k) (min 59 (8192 - 59 * k))) k = some fr →
      rd fr (5 + j) = rd image (59 * k + j)) :
    ∃ r1 r2, i1d3WriteExternalEeprom d w image = some r1 ∧
      i1d3ReadExternalEeprom d r1.world buf = some r2 ∧ r2.buf = image := by
  refine ⟨_, _, i1d3WriteExternalEeprom_eq d w image, i1d3ReadExternalEeprom_eq d _ buf, ?_⟩
  dsimp only
  have hst := xfer_state d hd 0x1300 0x13 32 8192 256 _ _ _ _ _ w
    image (writeExternal_ok image) 256 (le_refl _)
  rw [← writeExternalBody_eq] at hst
  generalize (chunksDone 32 8192 (writeExternalBody d)
    ⟨w, List.replicate 64 0, List.replicate 64 0, image⟩ 256).world = w1 at hst ⊢
  have hlen := (readExternal_state d w1 buf 139 (le_refl _)).2.1
  apply list_eq_of_rd 8192 _ _ (by rw [hlen, hb]) hE
  intro i hi
  have hdata := read_data d hd 0x1200 0x12 59 8192 139 5 _ _ _ _ w1 buf
    (readExternal_ok buf) (fun b hbb => by rw [hbb, hb]) 139 (le_refl _) (i / 59) (by omega)
  rw [← readExternalBody_eq] at hdata
  obtain ⟨fr, hfr, _, hrd⟩ := hdata
  have hi2 : 59 * (i / 59) + i % 59 = i := by omega
  have h1 := hrd (i % 59) (by omega)
  rw [hst] at hfr
  have h2 := hrt (i / 59) (i % 59) fr (by omega) (by omega) hfr
  rw [hi2] at h1 h2
  rw [h1, h2]

/-- After an internal image has been written to it, the loopback stub answers the
internal read requests with the bytes of the image. -/
theorem loopback_replies_int (m : LoopMem) (image : List Nat) (k j : Nat) (fr : List Nat)
    (hk : k < 5) (hj : j < min 60 (256 - 60 * k))
    (hfr : replyAt loopback
      (stAfter loopback m (fun k => intWriteFrame image (32 * k) (min 32 (256 - 32 * k))) 8)
      (fun k => intReadFrame (60 * k) (min 60 (256 - 60 * k))) k = some fr) :
    rd fr (4 + j) = rd image (60 * k + j) := by
  generalize hm1 : stAfter loopback m
    (fun k => intWriteFrame image (32 * k) (min 32 (256 - 32 * k))) 8 = m1 at hfr
  have hmem : ∀ i, i < 256 → m1.int i = rd image i := by
    intro i hi
    rw [← hm1]
    exact loopback_after_intWrites m image 8 (le_refl _) i (by omega)
  obtain ⟨fr2, hfr2, hrd2⟩ := loopback_reply_int
    (stAfter loopback m1 (fun k => intReadFrame (60 * k) (min 60 (256 - 60 * k))) k)
    (60 * k) (min 60 (256 - 60 * k)) j hj (by omega)
  have hsame : fr = fr2 := by
    have : replyAt loopback m1 (fun k => intReadFrame (60 * k) (min 60 (256 - 60 * k))) k
        = some fr2 := hfr2
    rw [hfr] at this
    exact Option.some.inj this
  rw [hsame, hrd2, (loopback_after_reads m1 _ intReadFrame_not_write k).1]
  exact hmem _ (by omega)

/-- After an external image has been written to it, the loopback stub answers the
external read requests with the bytes of the image. -/
theorem loopback_replies_ext (m : LoopMem) (image : List Nat) (k j : Nat) (fr : List Nat)
    (hk : k < 139) (hj : j < min 59 (8192 - 59 * k))
    (hfr : replyAt loopback
      (stAfter loopback m (fun k => extWriteFrame image (32 * k) (min 32 (8192 - 32 * k))) 256)
      (fun k => extReadFrame (59 * k) (min 59 (8192 - 59 * k))) k = some fr) :
    rd fr (5 + j) = rd image (59 * k + j) := by
  generalize hm1 : stAfter loopback m
    (fun k => extWriteFrame image (32 * k) (min 32 (8192 - 32 * k))) 256 = m1 at hfr
  have hmem : ∀ i, i < 8192 → m1.ext i = rd image i := by
    intro i hi
    rw [← hm1]
    exact loopback_after_extWrites m image 256 (le_refl _) i (by omega)
  obtain ⟨fr2, hfr2, hrd2⟩ := loopback_reply_ext
    (stAfter loopback m1 (fun k => extReadFrame (59 * k) (min 59 (8192 - 59 * k))) k)
    (59 * k) (min 59 (8192 - 59 * k)) j hj (by omega)
  have hsame : fr = fr2 := by
    have : replyAt loopback m1 (fun k => extReadFrame (59 * k) (min 59 (8192 - 59 * k))) k
        = some fr2 := hfr2
    rw [hfr] at this
    exact Option.some.inj this
  rw [hsame, hrd2, (loopback_after_reads m1 _ extReadFrame_not_write k).2]
  exact hmem _ (by omega)

/-- Claim C10. Under the loopback stub, for every internal image of 256 bytes and every
external image of 8192 bytes: writing the image with the region write and then reading
the region back into a buffer of the region size returns, in both steps, and yields
the image that was written. -/
theorem loopback_roundtrip (w : World LoopMem)
    (imageI imageE bufI bufE : List Nat) (hI : IsBytes 256 imageI) (hE : IsBytes 8192 imageE)
    (hbI : bufI.length = 256) (hbE : bufE.length = 8192) :
    (∃ r1 r2, i1d3WriteInternalEeprom loopback w imageI = some r1 ∧
      i1d3ReadInternalEeprom loopback r1.world bufI = some r2 ∧ r2.buf = imageI) ∧
    (∃ r1 r2, i1d3WriteExternalEeprom loopback w imageE = some r1 ∧
      i1d3ReadExternalEeprom loopback r1.world bufE = some r2 ∧ r2.buf = imageE) :=
  ⟨roundtrip_int_of loopback loopback_responsive w imageI bufI hI.1 hbI
      (fun k j fr hk hj hfr => loopback_replies_int w.st imageI k j fr hk hj hfr),
    roundtrip_ext_of loopback loopback_responsive w imageE bufE hE.1 hbE
      (fun k j fr hk hj hfr => loopback_replies_ext w.st imageE k j fr hk hj hfr)⟩


/-! ## The signature patch -/

theorem fsum_eq_storedCsum (image : List Nat) (n : Nat) (h : IsBytes n image) :
    rd image 2 ||| (rd image 3 <<< 8) = storedCsum image := by
  have h2 : rd image 2 < 2 ^ 8 := rd_lt_of_isBytes h 2
  rw [Nat.lor_comm, Nat.shiftLeft_eq, Nat.mul_comm, ← Nat.mul_add_lt_is_or h2, storedCsum]
  omega

theorem csum_bytes (csum : Nat) (h : csum < 65536) :
    u8 (u8 (csum >>> 0) &&& 0xff) + 256 * u8 (u8 (csum >>> 8) &&& 0xff) = csum := by
  simp only [and_ff, u8, Nat.shiftRight_eq_div_pow]
  omega

theorem rd_patched (e1 : List Nat) (a b j : Nat) (h : e1.length = 8192) :
    rd ((e1.set 2 a).set 3 b) j = if j = 3 then b else if j = 2 then a else rd e1 j := by
  rw [rd_set, rd_set, List.length_set, h]
  by_cases h3 : j = 3
  · rw [if_pos ⟨h3, by decide⟩, if_pos h3]
  · rw [if_neg (by omega), if_neg h3]
    by_cases h2 : j = 2
    · rw [if_pos ⟨h2, by decide⟩, if_pos h2]
    · rw [if_neg (by omega), if_neg h2]

theorem storedCsum_patched (e1 : List Nat) (h : e1.length = 8192) :
    storedCsum ((e1.set 2 (u8 (u8 (calcCsum e1 false >>> 0) &&& 0xff))).set 3
        (u8 (u8 (calcCsum e1 false >>> 8) &&& 0xff))) =
      calcCsum ((e1.set 2 (u8 (u8 (calcCsum e1 false >>> 0) &&& 0xff))).set 3
        (u8 (u8 (calcCsum e1 false >>> 8) &&& 0xff))) false := by
  have hc := calcCsum_lt e1 false
  have hcb := csum_bytes _ hc
  generalize u8 (u8 (calcCsum e1 false >>> 0) &&& 0xff) = a at hcb ⊢
  generalize u8 (u8 (calcCsum e1 false >>> 8) &&& 0xff) = b at hcb ⊢
  rw [calcCsum_congr ((e1.set 2 a).set 3 b) e1 false (fun i hi => by
    rw [rd_patched e1 a b i h, if_neg (by omega), if_neg (by omega)])]
  unfold storedCsum
  rw [rd_patched e1 a b 2 h, rd_patched e1 a b 3 h, if_neg (by decide), if_pos rfl, if_pos rfl]
  exact hcb

/-- What happens to a valid image in the signature branch: the signature is copied in,
the checksum stored anew, and, under `-w`, the image written to the device. -/
theorem wSigPatch_valid {σ : Type} (d : Device σ) (w : World σ) (enable : Bool)
    (sig image : List Nat) (himg : IsBytes 8192 image)
    (hvalid : storedCsum image = calcCsum image false) :
    ∃ r, wSigPatch d w enable sig image = some r ∧ r.exit = Exit.done ∧
      r.eBuf = ((memcpy image 0x1638 sig 0 0x48).set 2
        (u8 (u8 (calcCsum (memcpy image 0x1638 sig 0 0x48) false >>> 0) &&& 0xff))).set 3
        (u8 (u8 (calcCsum (memcpy image 0x1638 sig 0 0x48) false >>> 8) &&& 0xff)) := by
  unfold wSigPatch
  simp only
  rw [fsum_eq_storedCsum image 8192 himg, if_neg (by rw [hvalid]; exact fun h => h rfl)]
  cases enable with
  | false =>
    rw [if_neg Bool.false_ne_true]
    refine ⟨_, rfl, rfl, ?_⟩
    dsimp only
  | true =>
    rw [if_pos rfl, i1d3WriteExternalEeprom_eq, Option.map_some']
    refine ⟨_, rfl, rfl, ?_⟩
    dsimp only

/-- The patched image `e3` made from the image `e1` that already carries the signature. -/
theorem patched_props (sig e1 : List Nat) (hl : e1.length = 8192)
    (hs : ∀ i, i < 0x48 → rd e1 (0x1638 + i) = rd sig i) :
    ((e1.set 2 (u8 (u8 (calcCsum e1 false >>> 0) &&& 0xff))).set 3
        (u8 (u8 (calcCsum e1 false >>> 8) &&& 0xff))).length = 8192 ∧
    (∀ i, i < 0x48 → rd ((e1.set 2 (u8 (u8 (calcCsum e1 false >>> 0) &&& 0xff))).set 3
        (u8 (u8 (calcCsum e1 false >>> 8) &&& 0xff))) (0x1638 + i) = rd sig i) ∧
    rd ((e1.set 2 (u8 (u8 (calcCsum e1 false >>> 0) &&& 0xff))).set 3
        (u8 (u8 (calcCsum e1 false >>> 8) &&& 0xff))) 2 +
      256 * rd ((e1.set 2 (u8 (u8 (calcCsum e1 false >>> 0) &&& 0xff))).set 3
        (u8 (u8 (calcCsum e1 false >>> 8) &&& 0xff))) 3 =
      calcCsum ((e1.set 2 (u8 (u8 (calcCsum e1 false >>> 0) &&& 0xff))).set 3
        (u8 (u8 (calcCsum e1 false >>> 8) &&& 0xff))) false := by
  have h3 := storedCsum_patched e1 hl
  unfold storedCsum at h3
  refine ⟨?_, ?_, h3⟩
  · rw [List.length_set, List.length_set, hl]
  · intro i hi
    rw [rd_patched e1 _ _ (0x1638 + i) hl, if_neg (by omega), if_neg (by omega)]
    exact hs i hi

theorem rd_memcpy_at (dst : List Nat) (doff : Nat) (src : List Nat) (soff n i : Nat)
    (hi : i < n) (hd : doff + i < dst.length) :
    rd (memcpy dst doff src soff n) (doff + i) = rd src (soff + i) := by
  rw [rd_memcpy, if_pos ⟨by omega, by omega, hd⟩]
  congr 1
  omega

theorem rd_memcpy_sig (sig image : List Nat) (himg : image.length = 8192) (i : Nat)
    (hi : i < 0x48) : rd (memcpy image 0x1638 sig 0 0x48) (0x1638 + i) = rd sig i := by
  have h := rd_memcpy_at image 0x1638 sig 0 0x48 i hi (by rw [himg]; omega)
  rw [Nat.zero_add] at h
  exact h

/-- Claim C5. For every image of 8192 bytes whose stored checksum validates and every
signature of `0x48` bytes, the signature branch of `main` goes through (with or without
`-w`), and the image it ends with is 8192 bytes long, carries the signature at offset
`0x1638`, and has `image[2] + 256 * image[3]` equal to `calcCsum` of that image. -/
theorem signature_patch_checksum {σ : Type} (d : Device σ) (w : World σ) (enable : Bool)
    (sig image : List Nat) (himg : IsBytes 8192 image) (_hsig : IsBytes 0x48 sig)
    (hvalid : storedCsum image = calcCsum image false) :
    ∃ r, wSigPatch d w enable sig image = some r ∧ r.exit = Exit.done ∧
      r.eBuf.length = 8192 ∧
      (∀ i, i < 0x48 → rd r.eBuf (0x1638 + i) = rd sig i) ∧
      rd r.eBuf 2 + 256 * rd r.eBuf 3 = calcCsum r.eBuf false := by
  obtain ⟨r, h1, h2, h3⟩ := wSigPatch_valid d w enable sig image himg hvalid
  refine ⟨r, h1, h2, ?_⟩
  rw [h3]
  exact patched_props sig (memcpy image 0x1638 sig 0 0x48) (by rw [length_memcpy, himg.1])
    (rd_memcpy_sig sig image himg.1)

/-- What happens to an image with a wrong stored checksum in the signature branch. -/
theorem wSigPatch_invalid {σ : Type} (d : Device σ) (w : World σ) (enable : Bool)
    (sig image : List Nat) (himg : IsBytes 8192 image)
    (hbad : storedCsum image ≠ calcCsum image false) :
    wSigPatch d w enable sig image = some ⟨Exit.checksumFailed, w, image⟩ := by
  unfold wSigPatch
  simp only
  rw [fsum_eq_storedCsum image 8192 himg, if_pos (fun h => hbad h.symm)]


/-! ## The opcodes of the frames sent before the signature patch -/

theorem rd_cmdFrame_zero (cmdCode : Nat) (sBuf : List Nat) (hl : sBuf.length = 64)
    (hc : u8 ((cmdCode >>> 8) &&& 0xff) ≠ 0x00) :
    rd (cmdFrame cmdCode sBuf) 0 = u8 ((cmdCode >>> 8) &&& 0xff) := by
  rw [cmdFrame_of_major cmdCode sBuf hl hc, rd_set, if_pos ⟨rfl, by omega⟩]

theorem unlockAttempt_sent {σ : Type} (d : Device σ) (k : Nat × Nat) (w : World σ) :
    ∃ f1 f2, (unlockAttempt d k w).1.sent = w.sent ++ [f1, f2] ∧ rd f1 0 = 0x99 ∧
      rd f2 0 = 0x9a := by
  refine ⟨cmdFrame 0x9900 (List.replicate 64 0),
    cmdFrame 0x9a00 (i1d3CreateUnLockResponse k.1 k.2
      (i1d3Command d w 0x9900 (List.replicate 64 0) (List.replicate 64 0)).rBuf
      (i1d3Command d w 0x9900 (List.replicate 64 0) (List.replicate 64 0)).sBuf), ?_, ?_, ?_⟩
  · unfold unlockAttempt
    simp only [i1d3Command_sent, List.append_assoc, List.singleton_append]
  · exact rd_cmdFrame_zero _ _ (List.length_replicate _ _) (by decide)
  · exact rd_cmdFrame_zero _ _
      (by rw [length_createResponse, length_i1d3Command_sBuf, List.length_replicate]) (by decide)

theorem unlockLoop_sent {σ : Type} (d : Device σ) (keys : List (Nat × Nat)) (cc : Nat)
    (w : World σ) :
    ∃ new, (unlockLoop d keys cc w).2.sent = w.sent ++ new ∧
      ∀ f ∈ new, rd f 0 = 0x99 ∨ rd f 0 = 0x9a := by
  induction keys generalizing cc w with
  | nil => exact ⟨[], by simp [unlockLoop], fun f hf => absurd hf (List.not_mem_nil f)⟩
  | cons k ks ih =>
    obtain ⟨f1, f2, hs, h1, h2⟩ := unlockAttempt_sent d k w
    have hmem : ∀ f ∈ [f1, f2], rd f 0 = 0x99 ∨ rd f 0 = 0x9a := by
      intro f hf
      simp only [List.mem_cons, List.mem_singleton, List.not_mem_nil, or_false] at hf
      rcases hf with rfl | rfl
      · exact Or.inl h1
      · exact Or.inr h2
    unfold unlockLoop
    simp only
    split
    · exact ⟨[f1, f2], hs, hmem⟩
    · obtain ⟨new, hn, hnew⟩ := ih (cc + 1) (unlockAttempt d k w).1
      refine ⟨[f1, f2] ++ new, by rw [hn, hs, List.append_assoc], ?_⟩
      intro f hf
      rcases List.mem_append.1 hf with h | h
      · exact hmem f h
      · exact hnew f h

theorem i1d3EnWrite_sent {σ : Type} (d : Device σ) (w : World σ) :
    ∃ f, (i1d3EnWrite d w).2.sent = w.sent ++ [f] ∧ rd f 0 = 0xab := by
  refine ⟨_, i1d3Command_sent d w 0xab00 _ _, ?_⟩
  exact rd_cmdFrame_zero _ _ (by simp) (by decide)

/-- The part of the signature branch before the checksum test (unlock, write enable,
external read) returns, and sends no EEPROM write request. -/
theorem sig_read_phase {σ : Type} (d : Device σ) (w : World σ) :
    ∃ r0, i1d3ReadExternalEeprom d (i1d3EnWrite d (i1d3UnLock d w).2).2
        (List.replicate 8192 0) = some r0 ∧
      ∃ new, r0.world.sent = w.sent ++ new ∧ ∀ f ∈ new, rd f 0 ≠ 0x13 ∧ rd f 0 ≠ 0x07 := by
  obtain ⟨n1, hn1, hf1⟩ := unlockLoop_sent d (i1d3UnLockKeys.take i1d3numUnLockKeys) 0 w
  obtain ⟨f2, hn2, hf2⟩ := i1d3EnWrite_sent d (i1d3UnLock d w).2
  have hn3 := (readExternal_state d (i1d3EnWrite d (i1d3UnLock d w).2).2
    (List.replicate 8192 0) 139 (le_refl _)).2.2.2
  refine ⟨_, i1d3ReadExternalEeprom_eq d _ _,
    n1 ++ [f2] ++ (List.range 139).map (fun k => extReadFrame (59 * k) (min 59 (8192 - 59 * k))),
    ?_, ?_⟩
  · dsimp only
    rw [hn3, hn2]
    unfold i1d3UnLock
    rw [hn1]
    simp only [List.append_assoc]
  · intro f hf
    rcases List.mem_append.1 hf with h | h
    · rcases List.mem_append.1 h with h | h
      · rcases hf1 f h with h99 | h9a
        · rw [h99]; decide
        · rw [h9a]; decide
      · rw [List.mem_singleton.1 h, hf2]; decide
    · obtain ⟨k, _, rfl⟩ := List.mem_map.1 h
      rw [(rd_extReadFrame_hdr _ _).1]; decide

/-- Claim C6. For every image of 8192 bytes whose stored checksum differs from its rev2
checksum, the signature branch of `main` ends from the checksum test on with the
checksum failure, the image as it was and the device as it was, so that nothing is sent
to the device; and the steps before the test (unlock, write enable, external read)
always return and send no frame with opcode `0x13` or `0x07`, so that the whole branch,
when the image read is that image, ends with the checksum failure right after them. -/
theorem signature_write_mismatch {σ : Type} (d : Device σ) (w : World σ) (enable : Bool)
    (sig image : List Nat) (himg : IsBytes 8192 image)
    (hbad : storedCsum image ≠ calcCsum image false) :
    wSigPatch d w enable sig image = some ⟨Exit.checksumFailed, w, image⟩ ∧
    ∃ r0, i1d3ReadExternalEeprom d (i1d3EnWrite d (i1d3UnLock d w).2).2
        (List.replicate 8192 0) = some r0 ∧
      (∃ new, r0.world.sent = w.sent ++ new ∧ ∀ f ∈ new, rd f 0 ≠ 0x13 ∧ rd f 0 ≠ 0x07) ∧
      (r0.buf = image →
        mainWriteSig d w enable sig = some ⟨Exit.checksumFailed, r0.world, image⟩) := by
  refine ⟨wSigPatch_invalid d w enable sig image himg hbad, ?_⟩
  obtain ⟨r0, hr0, hnew⟩ := sig_read_phase d w
  refine ⟨r0, hr0, hnew, ?_⟩
  intro hbuf
  unfold mainWriteSig
  simp only
  rw [hr0, Option.some_bind, hbuf]
  exact wSigPatch_invalid d r0.world enable sig image himg hbad


/-! ## The result frame of an unlock attempt -/

/-- Against a device that always answers, the result frame of an attempt is the device's
reply to the answer-challenge frame, which carries the response to the challenge `ch`
the device handed out in the same attempt. -/
theorem unlockAttempt_responsive {σ : Type} (d : Device σ) (hd : Responsive d) (k : Nat × Nat)
    (w : World σ) :
    ∃ ch fr, (exchange d w.st (cmdFrame 0x9900 (List.replicate 64 0))).2 = some ch ∧
      (exchange d (exchange d w.st (cmdFrame 0x9900 (List.replicate 64 0))).1
        (cmdFrame 0x9a00 (i1d3CreateUnLockResponse k.1 k.2 ch
          ((List.replicate 64 0).set 0 0x99)))).2 = some fr ∧
      (unlockAttempt d k w).2 = fr := by
  obtain ⟨ch, h1, h2, h3, h4⟩ := i1d3Command_responsive d hd w 0x9900 (List.replicate 64 0)
    (List.replicate 64 0) (List.length_replicate _ _)
  have h5 : (i1d3Command d w 0x9900 (List.replicate 64 0) (List.replicate 64 0)).sBuf =
      (List.replicate 64 0).set 0 0x99 :=
    i1d3Command_sBuf_major d w 0x9900 _ _ (by decide)
  obtain ⟨fr, g1, _, g3, _⟩ := i1d3Command_responsive d hd
    (i1d3Command d w 0x9900 (List.replicate 64 0) (List.replicate 64 0)).world 0x9a00
    (i1d3CreateUnLockResponse k.1 k.2
      (i1d3Command d w 0x9900 (List.replicate 64 0) (List.replicate 64 0)).rBuf
      (i1d3Command d w 0x9900 (List.replicate 64 0) (List.replicate 64 0)).sBuf)
    (i1d3Command d w 0x9900 (List.replicate 64 0) (List.replicate 64 0)).rBuf
    (by rw [h3, h2])
  rw [h3, h4, h5] at g1
  exact ⟨ch, fr, h1, g1, g3⟩

/-- Against a device that always answers, `resultFrame ... j` is the device's reply to
the answer-challenge frame of attempt `j`. -/
theorem resultFrame_responsive {σ : Type} (d : Device σ) (hd : Responsive d)
    (keys : List (Nat × Nat)) (w : World σ) (j : Nat) :
    ∃ ch fr,
      (exchange d (attemptsRun d (keys.take j) w).st
        (cmdFrame 0x9900 (List.replicate 64 0))).2 = some ch ∧
      (exchange d (exchange d (attemptsRun d (keys.take j) w).st
          (cmdFrame 0x9900 (List.replicate 64 0))).1
        (cmdFrame 0x9a00 (i1d3CreateUnLockResponse (keys.getD j (0, 0)).1 (keys.getD j (0, 0)).2
          ch ((List.replicate 64 0).set 0 0x99)))).2 = some fr ∧
      resultFrame d keys w j = fr :=
  unlockAttempt_responsive d hd (keys.getD j (0, 0)) (attemptsRun d (keys.take j) w)

/-! ## The chunk sequences of the four transfers -/

set_option maxRecDepth 1000000 in
/-- Claim C7. The chunks `(address, length)` of the four transfers.  The loop of each
transfer, run with a body that records its chunks, yields `chunkList chunk size n`:
internal read 60, 60, 60, 60, 16; external read 138 chunks of 59 and a last one of 50;
internal write 8 chunks of 32; external write 256 chunks of 32.  Each sequence starts at
address 0, continues at the previous address plus the previous length, has lengths
`min chunk (size - address)`, and its lengths add up to the size (`ChunksOk`).  Each
transfer function returns, and its result is its loop body run over these chunks. -/
theorem transfer_chunks {σ : Type} (d : Device σ) (w : World σ) (buf : List Nat) :
    (chunkTrace 60 256 = some (chunkList 60 256 5) ∧ ChunksOk 60 256 (chunkList 60 256 5) ∧
      chunkList 60 256 5 = [(0, 60), (60, 60), (120, 60), (180, 60), (240, 16)] ∧
      i1d3ReadInternalEeprom d w buf = some
        ⟨0, ((chunkList 60 256 5).foldl (fun s c => readInternalBody d c.1 c.1 c.2 s)
            ⟨w, List.replicate 64 0, List.replicate 64 0, buf⟩).world,
          ((chunkList 60 256 5).foldl (fun s c => readInternalBody d c.1 c.1 c.2 s)
            ⟨w, List.replicate 64 0, List.replicate 64 0, buf⟩).buf⟩) ∧
    (chunkTrace 59 8192 = some (chunkList 59 8192 139) ∧
      ChunksOk 59 8192 (chunkList 59 8192 139) ∧
      chunkList 59 8192 139 = (List.range 138).map (fun k => (59 * k, 59)) ++ [(8142, 50)] ∧
      i1d3ReadExternalEeprom d w buf = some
        ⟨0, ((chunkList 59 8192 139).foldl (fun s c => readExternalBody d c.1 c.1 c.2 s)
            ⟨w, List.replicate 64 0, List.replicate 64 0, buf⟩).world,
          ((chunkList 59 8192 139).foldl (fun s c => readExternalBody d c.1 c.1 c.2 s)
            ⟨w, List.replicate 64 0, List.replicate 64 0, buf⟩).buf⟩) ∧
    (chunkTrace 32 256 = some (chunkList 32 256 8) ∧ ChunksOk 32 256 (chunkList 32 256 8) ∧
      chunkList 32 256 8 = (List.range 8).map (fun k => (32 * k, 32)) ∧
      i1d3WriteInternalEeprom d w buf = some
        ⟨0, ((chunkList 32 256 8).foldl (fun s c => writeInternalBody d c.1 c.1 c.2 s)
            ⟨w, List.replicate 64 0, List.replicate 64 0, buf⟩).world,
          ((chunkList 32 256 8).foldl (fun s c => writeInternalBody d c.1 c.1 c.2 s)
            ⟨w, List.replicate 64 0, List.replicate 64 0, buf⟩).buf⟩) ∧
    (chunkTrace 32 8192 = some (chunkList 32 8192 256) ∧
      ChunksOk 32 8192 (chunkList 32 8192 256) ∧
      chunkList 32 8192 256 = (List.range 256).map (fun k => (32 * k, 32)) ∧
      i1d3WriteExternalEeprom d w buf = some
        ⟨0, ((chunkList 32 8192 256).foldl (fun s c => writeExternalBody d c.1 c.1 c.2 s)
            ⟨w, List.replicate 64 0, List.replicate 64 0, buf⟩).world,
          ((chunkList 32 8192 256).foldl (fun s c => writeExternalBody d c.1 c.1 c.2 s)
            ⟨w, List.replicate 64 0, List.replicate 64 0, buf⟩).buf⟩) := by
  refine ⟨⟨?_, by decide, by decide, ?_⟩, ⟨?_, by decide, by decide, ?_⟩,
    ⟨?_, by decide, by decide, ?_⟩, ⟨?_, by decide, by decide, ?_⟩⟩
  · unfold chunkTrace; rw [xferLoop_60_256, chunksDone_record]
  · rw [foldl_chunkList]; exact i1d3ReadInternalEeprom_eq d w buf
  · unfold chunkTrace; rw [xferLoop_59_8192, chunksDone_record]
  · rw [foldl_chunkList]; exact i1d3ReadExternalEeprom_eq d w buf
  · unfold chunkTrace; rw [xferLoop_32_256, chunksDone_record]
  · rw [foldl_chunkList]; exact i1d3WriteInternalEeprom_eq d w buf
  · unfold chunkTrace; rw [xferLoop_32_8192, chunksDone_record]
  · rw [foldl_chunkList]; exact i1d3WriteExternalEeprom_eq d w buf

/-! ## Sample inputs -/

theorem sampleInternal_isBytes : IsBytes 256 sampleInternal := by
  refine ⟨by simp [sampleInternal], ?_⟩
  intro b hb
  obtain ⟨i, _, rfl⟩ := List.mem_map.1 hb
  exact Nat.mod_lt _ (by decide)

theorem sampleSignature_isBytes : IsBytes 0x48 sampleSignature := by decide

theorem storedCsum_blankImage : storedCsum blankImage = 0 := by
  unfold storedCsum blankImage
  rw [rd_replicate_zero, rd_replicate_zero]

theorem blankImage_valid : storedCsum blankImage = calcCsum blankImage false := by
  rw [storedCsum_blankImage, calcCsum_blankImage]

theorem staleImage_isBytes : IsBytes 8192 staleImage := by
  refine ⟨by rw [staleImage, List.length_set]; exact blankImage_isBytes.1, ?_⟩
  intro b hb
  rcases List.mem_or_eq_of_mem_set hb with h | h
  · exact blankImage_isBytes.2 b h
  · rw [h]; decide

theorem staleImage_invalid : storedCsum staleImage ≠ calcCsum staleImage false := by
  have h1 : calcCsum staleImage false = 0 := by
    rw [calcCsum_congr staleImage blankImage false (fun i hi => by
      rw [staleImage, rd_set, if_neg (by omega)]), calcCsum_blankImage]
  have h2 : storedCsum staleImage = 1 := by
    unfold storedCsum staleImage
    rw [rd_set, rd_set, if_pos ⟨rfl, by rw [blankImage_isBytes.1]; decide⟩, if_neg (by decide)]
    unfold blankImage
    rw [rd_replicate_zero]
  rw [h1, h2]
  decide

theorem signature_patch_checksum_witness :
    IsBytes 8192 blankImage ∧ IsBytes 0x48 sampleSignature ∧
    storedCsum blankImage = calcCsum blankImage false ∧
    ∃ r, wSigPatch oemDevice idleWorld true sampleSignature blankImage = some r ∧
      r.exit = Exit.done ∧ r.eBuf.length = 8192 ∧
      (∀ i, i < 0x48 → rd r.eBuf (0x1638 + i) = rd sampleSignature i) ∧
      rd r.eBuf 2 + 256 * rd r.eBuf 3 = calcCsum r.eBuf false :=
  ⟨blankImage_isBytes, sampleSignature_isBytes, blankImage_valid,
    signature_patch_checksum oemDevice idleWorld true sampleSignature blankImage
      blankImage_isBytes sampleSignature_isBytes blankImage_valid⟩

theorem signature_write_mismatch_witness :
    IsBytes 8192 staleImage ∧ storedCsum staleImage ≠ calcCsum staleImage false ∧
    wSigPatch oemDevice idleWorld true sampleSignature staleImage =
      some ⟨Exit.checksumFailed, idleWorld, staleImage⟩ :=
  ⟨staleImage_isBytes, staleImage_invalid,
    (signature_write_mismatch oemDevice idleWorld true sampleSignature staleImage
      staleImage_isBytes staleImage_invalid).1⟩

theorem request_frames_witness :
    IsBytes 256 sampleInternal ∧ IsBytes 8192 blankImage ∧
    (∃ r, i1d3WriteExternalEeprom oemDevice idleWorld blankImage = some r ∧
      r.world.sent = idleWorld.sent ++
        (chunkList 32 8192 256).map (fun c => extWriteFrame blankImage c.1 c.2)) ∧
    (∃ r, i1d3WriteInternalEeprom oemDevice idleWorld sampleInternal = some r ∧
      r.world.sent = idleWorld.sent ++
        (chunkList 32 256 8).map (fun c => intWriteFrame sampleInternal c.1 c.2)) :=
  ⟨sampleInternal_isBytes, blankImage_isBytes,
    (request_frames oemDevice idleWorld sampleInternal blankImage [] []
      sampleInternal_isBytes blankImage_isBytes).1,
    (request_frames oemDevice idleWorld sampleInternal blankImage [] []
      sampleInternal_isBytes blankImage_isBytes).2.1⟩

theorem read_image_witness :
    Responsive loopback ∧ (List.replicate 256 0).length = 256 ∧ blankImage.length = 8192 ∧
    ∃ r, i1d3ReadInternalEeprom loopback loopWorld (List.replicate 256 0) = some r ∧
      r.buf.length = 256 ∧
      ∀ k, k < 5 → ∃ fr,
        replyAt loopback loopWorld.st (fun k => intReadFrame (60 * k) (min 60 (256 - 60 * k))) k
          = some fr ∧
        fr.length = 64 ∧
        ∀ j, j < min 60 (256 - 60 * k) → rd r.buf (60 * k + j) = rd fr (4 + j) :=
  ⟨loopback_responsive, List.length_replicate _ _, blankImage_isBytes.1,
    (read_image loopback loopWorld (List.replicate 256 0) blankImage loopback_responsive
      (List.length_replicate _ _) blankImage_isBytes.1).1⟩

theorem loopback_roundtrip_witness :
    IsBytes 256 sampleInternal ∧ IsBytes 8192 blankImage ∧
    (List.replicate 256 0).length = 256 ∧ (List.replicate 8192 0).length = 8192 ∧
    (∃ r1 r2, i1d3WriteInternalEeprom loopback loopWorld sampleInternal = some r1 ∧
      i1d3ReadInternalEeprom loopback r1.world (List.replicate 256 0) = some r2 ∧
      r2.buf = sampleInternal) ∧
    (∃ r1 r2, i1d3WriteExternalEeprom loopback loopWorld blankImage = some r1 ∧
      i1d3ReadExternalEeprom loopback r1.world (List.replicate 8192 0) = some r2 ∧
      r2.buf = blankImage) :=
  ⟨sampleInternal_isBytes, blankImage_isBytes, List.length_replicate _ _,
    List.length_replicate _ _,
    loopback_roundtrip loopWorld sampleInternal blankImage (List.replicate 256 0)
      (List.replicate 8192 0) sampleInternal_isBytes blankImage_isBytes
      (List.length_replicate _ _) (List.length_replicate _ _)⟩

/-! ## `i1d3Command`: the frame sent and the verdict -/

theorem major_of_code (code : Nat) (h : code < 65536) :
    u8 ((code >>> 8) &&& 0xff) = code / 256 := u8_hi code h

theorem i1d3Command_exchange {σ : Type} (d : Device σ) (w : World σ) (code : Nat)
    (sBuf rBuf fr : List Nat) (hr : rBuf.length = 64) (hlen : fr.length = 64)
    (hw : (d.write w.st (cmdFrame code sBuf)).2 = true)
    (hfr : (exchange d w.st (cmdFrame code sBuf)).2 = some fr) :
    (i1d3Command d w code sBuf rBuf).rBuf = fr ∧
    (i1d3Command d w code sBuf rBuf).world.st = (exchange d w.st (cmdFrame code sBuf)).1 ∧
    (i1d3Command d w code sBuf rBuf).ret =
      if rd fr 0 ≠ 0x00 ∨ rd fr 1 ≠ u8 ((code >>> 8) &&& 0xff) then -1 else 0 := by
  have hwr : (writeHIDdevice d w (if u8 ((code >>> 8) &&& 0xff) = 0x00
        then (sBuf.set 0 (u8 ((code >>> 8) &&& 0xff))).set 1 (u8 (code &&& 0xff))
        else sBuf.set 0 (u8 ((code >>> 8) &&& 0xff)))) =
      (⟨(d.write w.st (cmdFrame code sBuf)).1, w.sent ++ [cmdFrame code sBuf]⟩, 64) := by
    unfold writeHIDdevice
    simp only
    unfold cmdFrame at hw ⊢
    rw [hw]
    rfl
  have hrd : readHIDdevice d ⟨(d.write w.st (cmdFrame code sBuf)).1, w.sent ++ [cmdFrame code sBuf]⟩
      rBuf = (⟨(exchange d w.st (cmdFrame code sBuf)).1, w.sent ++ [cmdFrame code sBuf]⟩, 64, fr) := by
    unfold readHIDdevice
    simp only
    unfold exchange at hfr ⊢
    rw [hfr]
    simp only [hlen, Nat.min_self]
    rw [memcpy_full rBuf fr hr hlen]
    rfl
  unfold i1d3Command
  simp only
  rw [hwr]
  simp only
  rw [if_neg (by decide), hrd]
  simp only
  rw [if_neg (by decide)]
  split <;> exact ⟨rfl, rfl, rfl⟩

/-- When the write fails, or the write succeeds and the read fails, `i1d3Command`
returns -1; whatever happens it returns 0 or -1. -/
theorem i1d3Command_transport {σ : Type} (d : Device σ) (w : World σ) (code : Nat)
    (sBuf rBuf : List Nat) :
    ((d.write w.st (cmdFrame code sBuf)).2 = false →
      (i1d3Command d w code sBuf rBuf).ret = -1) ∧
    ((d.write w.st (cmdFrame code sBuf)).2 = true →
      (exchange d w.st (cmdFrame code sBuf)).2 = none →
      (i1d3Command d w code sBuf rBuf).ret = -1) ∧
    ((i1d3Command d w code sBuf rBuf).ret = 0 ∨ (i1d3Command d w code sBuf rBuf).ret = -1) := by
  refine ⟨?_, ?_, ?_⟩
  · intro hw
    unfold cmdFrame at hw
    unfold i1d3Command writeHIDdevice
    simp only
    rw [hw]
    rfl
  · intro hw hr
    unfold exchange at hr
    unfold cmdFrame at hw hr
    unfold i1d3Command writeHIDdevice
    simp only
    rw [hw]
    simp only
    rw [if_neg (by decide)]
    unfold readHIDdevice
    simp only
    rw [hr]
    rfl
  · unfold i1d3Command
    simp only
    split_ifs <;> simp

/-- Claim C12. For every command code below `2^16` and every response frame `fr` of 64
bytes, when the write and the read of the exchange both succeed, `i1d3Command` returns 0
if and only if `fr[0] = 0x00` and `fr[1]` is the major opcode sent (the high byte of the
code); in every other case it returns -1; the frame lands in `rBuf`; and the command
frame is sent exactly once. -/
theorem command_validation {σ : Type} (d : Device σ) (w : World σ) (code : Nat)
    (sBuf rBuf fr : List Nat) (hcode : code < 65536) (hr : rBuf.length = 64)
    (hfr : IsBytes 64 fr)
    (hw : (d.write w.st (cmdFrame code sBuf)).2 = true)
    (hrd : (exchange d w.st (cmdFrame code sBuf)).2 = some fr) :
    ((i1d3Command d w code sBuf rBuf).ret = 0 ↔ (rd fr 0 = 0x00 ∧ rd fr 1 = code / 256)) ∧
    (¬ (rd fr 0 = 0x00 ∧ rd fr 1 = code / 256) → (i1d3Command d w code sBuf rBuf).ret = -1) ∧
    (i1d3Command d w code sBuf rBuf).rBuf = fr ∧
    (i1d3Command d w code sBuf rBuf).world.sent = w.sent ++ [cmdFrame code sBuf] := by
  obtain ⟨h1, _, h3⟩ := i1d3Command_exchange d w code sBuf rBuf fr hr hfr.1 hw hrd
  rw [major_of_code code hcode] at h3
  refine ⟨?_, ?_, h1, i1d3Command_sent d w code sBuf rBuf⟩
  · rw [h3]
    by_cases h : rd fr 0 = 0x00 ∧ rd fr 1 = code / 256
    · rw [if_neg (by rw [h.1, h.2]; simp)]
      simp [h]
    · rw [if_pos (by
        by_cases h0 : rd fr 0 = 0x00
        · exact Or.inr (fun h1 => h ⟨h0, h1⟩)
        · exact Or.inl h0)]
      simp [h]
  · intro h
    rw [h3, if_pos (by
        by_cases h0 : rd fr 0 = 0x00
        · exact Or.inr (fun h1 => h ⟨h0, h1⟩)
        · exact Or.inl h0)]

theorem command_validation_witness :
    (0x9900 : Nat) < 65536 ∧ (List.replicate 64 0).length = 64 ∧ IsBytes 64 sampleChallenge ∧
    (oemDevice.write idleWorld.st (cmdFrame 0x9900 (List.replicate 64 0))).2 = true ∧
    (exchange oemDevice idleWorld.st (cmdFrame 0x9900 (List.replicate 64 0))).2 =
      some sampleChallenge ∧
    ((i1d3Command oemDevice idleWorld 0x9900 (List.replicate 64 0) (List.replicate 64 0)).ret = 0
      ↔ (rd sampleChallenge 0 = 0x00 ∧ rd sampleChallenge 1 = 0x9900 / 256)) :=
  ⟨by decide, by decide, by decide, by decide, by decide,
    (command_validation oemDevice idleWorld 0x9900 (List.replicate 64 0) (List.replicate 64 0)
      sampleChallenge (by decide) (by decide) (by decide) (by decide) (by decide)).1⟩

/-- Claim C13. For every command code below `2^16` and every send buffer of 64 bytes,
`i1d3Command` sends one frame of 64 bytes whose byte 0 is the major opcode (the high
byte of the code), whose byte 1 is the minor opcode (the low byte) when the major opcode
is 0 and the byte 1 of the buffer otherwise, and whose bytes 2..63 are those of the
buffer. -/
theorem command_frame {σ : Type} (d : Device σ) (w : World σ) (code : Nat)
    (sBuf rBuf : List Nat) (hcode : code < 65536) (hs : IsBytes 64 sBuf) :
    (i1d3Command d w code sBuf rBuf).world.sent = w.sent ++ [cmdFrame code sBuf] ∧
    (cmdFrame code sBuf).length = 64 ∧
    rd (cmdFrame code sBuf) 0 = code / 256 ∧
    (code / 256 = 0 → rd (cmdFrame code sBuf) 1 = code % 256) ∧
    (code / 256 ≠ 0 → rd (cmdFrame code sBuf) 1 = rd sBuf 1) ∧
    (∀ j, 2 ≤ j → j < 64 → rd (cmdFrame code sBuf) j = rd sBuf j) := by
  have hmaj := major_of_code code hcode
  have hmin : u8 (code &&& 0xff) = code % 256 := u8_lo code
  refine ⟨i1d3Command_sent d w code sBuf rBuf, ?_, ?_, ?_, ?_, ?_⟩
  · unfold cmdFrame
    split <;> simp [hs.1]
  · unfold cmdFrame
    rw [hmaj]
    split
    · rw [List.take_of_length_le (by simp [hs.1]), rd_set, rd_set,
        if_neg (fun h => absurd h.1 (by decide)), if_pos ⟨rfl, by rw [hs.1]; decide⟩]
    · rw [List.take_of_length_le (by simp [hs.1]), rd_set, if_pos ⟨rfl, by rw [hs.1]; decide⟩]
  · intro h0
    unfold cmdFrame
    rw [hmaj, hmin, if_pos h0, List.take_of_length_le (by simp [hs.1]), rd_set,
      if_pos ⟨rfl, by rw [List.length_set, hs.1]; decide⟩]
  · intro h0
    unfold cmdFrame
    rw [hmaj, if_neg h0, List.take_of_length_le (by simp [hs.1]), rd_set,
      if_neg (fun h => absurd h.1 (by decide))]
  · intro j hj2 _
    unfold cmdFrame
    rw [hmaj, hmin]
    split
    · rw [List.take_of_length_le (by simp [hs.1]), rd_set, rd_set, if_neg (by omega),
        if_neg (by omega)]
    · rw [List.take_of_length_le (by simp [hs.1]), rd_set, if_neg (by omega)]

theorem command_frame_witness :
    (0x0000 : Nat) < 65536 ∧ IsBytes 64 sampleChallenge ∧
    (i1d3Command oemDevice idleWorld 0x0000 sampleChallenge []).world.sent =
      idleWorld.sent ++ [cmdFrame 0x0000 sampleChallenge] ∧
    (cmdFrame 0x0000 sampleChallenge).length = 64 ∧
    rd (cmdFrame 0x0000 sampleChallenge) 0 = 0x0000 / 256 ∧
    (0x0000 / 256 = 0 → rd (cmdFrame 0x0000 sampleChallenge) 1 = 0x0000 % 256) ∧
    (0x0000 / 256 ≠ 0 → rd (cmdFrame 0x0000 sampleChallenge) 1 = rd sampleChallenge 1) ∧
    (∀ j, 2 ≤ j → j < 64 → rd (cmdFrame 0x0000 sampleChallenge) j = rd sampleChallenge j) :=
  ⟨by decide, by decide,
    command_frame oemDevice idleWorld 0x0000 sampleChallenge [] (by decide) (by decide)⟩

/-! ## The response depends on the challenge bytes it reads only -/

theorem subChallenge_congr (c c' : List Nat) (h3 : rd c 3 = rd c' 3)
    (h : ∀ i, i < 8 → rd c (35 + i) = rd c' (35 + i)) : subChallenge c = subChallenge c' := by
  unfold subChallenge
  apply List.map_congr_left
  intro i hi
  rw [h3, h i (List.mem_range.1 hi)]

theorem unlockCore_congr (k0 k1 : Nat) (c c' : List Nat) (h : subChallenge c = subChallenge c') :
    unlockCore k0 k1 c = unlockCore k0 k1 c' := by
  unfold unlockCore
  rw [h]

/-- Claim C16. For every key pair, any two challenge frames that agree on bytes 2, 3 and
35..42, and any two response buffers of 64 bytes, `i1d3CreateUnLockResponse` yields the
same response frame, and the 16 byte core response `sr` is the same. -/
theorem response_deterministic (k0 k1 : Nat) (c c' r r' : List Nat)
    (hr : r.length = 64) (hr' : r'.length = 64)
    (h2 : rd c 2 = rd c' 2) (h3 : rd c 3 = rd c' 3)
    (h : ∀ i, i < 8 → rd c (35 + i) = rd c' (35 + i)) :
    i1d3CreateUnLockResponse k0 k1 c r = i1d3CreateUnLockResponse k0 k1 c' r' ∧
    unlockCore k0 k1 c = unlockCore k0 k1 c' := by
  have hcore := unlockCore_congr k0 k1 c c' (subChallenge_congr c c' h3 h)
  refine ⟨?_, hcore⟩
  apply list_eq_of_rd 64
  · rw [length_createResponse, hr]
  · rw [length_createResponse, hr']
  · intro j _
    rw [rd_createResponse k0 k1 c r hr j, rd_createResponse k0 k1 c' r' hr' j, h2, hcore]

theorem response_deterministic_witness :
    (List.replicate 64 0).length = 64 ∧ (List.replicate 64 0xff).length = 64 ∧
    rd sampleChallenge 2 = rd (sampleChallenge.set 10 0x55) 2 ∧
    rd sampleChallenge 3 = rd (sampleChallenge.set 10 0x55) 3 ∧
    (∀ i, i < 8 → rd sampleChallenge (35 + i) = rd (sampleChallenge.set 10 0x55) (35 + i)) ∧
    sampleChallenge ≠ sampleChallenge.set 10 0x55 ∧
    i1d3CreateUnLockResponse 0xcaa62b2c 0x30815b61 sampleChallenge (List.replicate 64 0) =
      i1d3CreateUnLockResponse 0xcaa62b2c 0x30815b61 (sampleChallenge.set 10 0x55)
        (List.replicate 64 0xff) ∧
    unlockCore 0xcaa62b2c 0x30815b61 sampleChallenge =
      unlockCore 0xcaa62b2c 0x30815b61 (sampleChallenge.set 10 0x55) :=
  ⟨by decide, by decide, by decide, by decide, by decide, by decide,
    response_deterministic 0xcaa62b2c 0x30815b61 sampleChallenge (sampleChallenge.set 10 0x55)
      (List.replicate 64 0) (List.replicate 64 0xff) (by decide) (by decide) (by decide)
      (by decide) (by decide)⟩

/-! ## Bounds of the buffer accesses of the transfers -/

theorem chunksDone_access (chunk size n : Nat) :
    chunksDone chunk size (fun addr off inc acc => acc ++ [(addr, off, inc)]) [] n =
      (List.range n).map (fun k => (chunk * k, chunk * k, min chunk (size - chunk * k))) := by
  induction n with
  | zero => rfl
  | succ n ih =>
    rw [chunksDone_succ, ih, List.range_succ, List.map_append]
    rfl

theorem mem_access {chunk size n : Nat} {c : Nat × Nat × Nat}
    (h : c ∈ (List.range n).map (fun k => (chunk * k, chunk * k, min chunk (size - chunk * k)))) :
    ∃ k, k < n ∧ c.1 = chunk * k ∧ c.2.1 = chunk * k ∧ c.2.2 = min chunk (size - chunk * k) := by
  obtain ⟨k, hk, rfl⟩ := List.mem_map.1 h
  exact ⟨k, List.mem_range.1 hk, rfl, rfl, rfl⟩

/-- Claim C18. For each of the four transfers, the loop run with a body that records its
accesses `(addr, bPtr - buf, inc)` returns a trace, and for every chunk of the trace:
the offset of `bPtr` in the image is the address, the length is positive, payload
offset plus length is at most 64 (offset 5 for the external read, 4 for the internal
read and the external write, 3 for the internal write), address plus length is at most
the region size, and the address is at most 65535 (external) or 255 (internal).  Each
transfer function returns for every device, after 139, 256, 5 and 8 chunks. -/
theorem transfer_in_bounds :
    (∃ tr, accessTrace 59 8192 = some tr ∧ tr.length = 139 ∧ ∀ c ∈ tr,
      c.2.1 = c.1 ∧ 0 < c.2.2 ∧ 5 + c.2.2 ≤ 64 ∧ c.1 + c.2.2 ≤ 8192 ∧ c.1 ≤ 65535) ∧
    (∃ tr, accessTrace 32 8192 = some tr ∧ tr.length = 256 ∧ ∀ c ∈ tr,
      c.2.1 = c.1 ∧ 0 < c.2.2 ∧ 4 + c.2.2 ≤ 64 ∧ c.1 + c.2.2 ≤ 8192 ∧ c.1 ≤ 65535) ∧
    (∃ tr, accessTrace 60 256 = some tr ∧ tr.length = 5 ∧ ∀ c ∈ tr,
      c.2.1 = c.1 ∧ 0 < c.2.2 ∧ 4 + c.2.2 ≤ 64 ∧ c.1 + c.2.2 ≤ 256 ∧ c.1 ≤ 255) ∧
    (∃ tr, accessTrace 32 256 = some tr ∧ tr.length = 8 ∧ ∀ c ∈ tr,
      c.2.1 = c.1 ∧ 0 < c.2.2 ∧ 3 + c.2.2 ≤ 64 ∧ c.1 + c.2.2 ≤ 256 ∧ c.1 ≤ 255) ∧
    (∀ (σ : Type) (d : Device σ) (w : World σ) (buf : List Nat),
      (∃ r, i1d3ReadExternalEeprom d w buf = some r) ∧
      (∃ r, i1d3WriteExternalEeprom d w buf = some r) ∧
      (∃ r, i1d3ReadInternalEeprom d w buf = some r) ∧
      (∃ r, i1d3WriteInternalEeprom d w buf = some r)) := by
  refine ⟨⟨_, xferLoop_59_8192 _ _, ?_, ?_⟩, ⟨_, xferLoop_32_8192 _ _, ?_, ?_⟩,
    ⟨_, xferLoop_60_256 _ _, ?_, ?_⟩, ⟨_, xferLoop_32_256 _ _, ?_, ?_⟩, ?_⟩
  · rw [chunksDone_access]; simp
  · intro c hc
    rw [chunksDone_access] at hc
    obtain ⟨k, hk, h1, h2, h3⟩ := mem_access hc
    rw [h1, h2, h3]
    omega
  · rw [chunksDone_access]; simp
  · intro c hc
    rw [chunksDone_access] at hc
    obtain ⟨k, hk, h1, h2, h3⟩ := mem_access hc
    rw [h1, h2, h3]
    omega
  · rw [chunksDone_access]; simp
  · intro c hc
    rw [chunksDone_access] at hc
    obtain ⟨k, hk, h1, h2, h3⟩ := mem_access hc
    rw [h1, h2, h3]
    omega
  · rw [chunksDone_access]; simp
  · intro c hc
    rw [chunksDone_access] at hc
    obtain ⟨k, hk, h1, h2, h3⟩ := mem_access hc
    rw [h1, h2, h3]
    omega
  · intro σ d w buf
    exact ⟨⟨_, i1d3ReadExternalEeprom_eq d w buf⟩, ⟨_, i1d3WriteExternalEeprom_eq d w buf⟩,
      ⟨_, i1d3ReadInternalEeprom_eq d w buf⟩, ⟨_, i1d3WriteInternalEeprom_eq d w buf⟩⟩

/-! ## Failed commands inside the transfers -/

theorem readExternalBody_cmd {σ : Type} (d : Device σ) (addr off inc : Nat) (s : Xfer σ) :
    readExternalBody d addr off inc s =
      ⟨(readExternalCmd d addr inc s).world, (readExternalCmd d addr inc s).sBuf,
        (readExternalCmd d addr inc s).rBuf,
        memcpy s.buf off (readExternalCmd d addr inc s).rBuf 5 inc⟩ := rfl

theorem writeExternalBody_cmd {σ : Type} (d : Device σ) (addr off inc : Nat) (s : Xfer σ) :
    writeExternalBody d addr off inc s =
      ⟨(writeExternalCmd d addr off inc s).world, (writeExternalCmd d addr off inc s).sBuf,
        (writeExternalCmd d addr off inc s).rBuf, s.buf⟩ := rfl

theorem readInternalBody_cmd {σ : Type} (d : Device σ) (addr off inc : Nat) (s : Xfer σ) :
    readInternalBody d addr off inc s =
      ⟨(readInternalCmd d addr inc s).world, (readInternalCmd d addr inc s).sBuf,
        (readInternalCmd d addr inc s).rBuf,
        memcpy s.buf off (readInternalCmd d addr inc s).rBuf 4 inc⟩ := rfl

theorem writeInternalBody_cmd {σ : Type} (d : Device σ) (addr off inc : Nat) (s : Xfer σ) :
    writeInternalBody d addr off inc s =
      ⟨(writeInternalCmd d addr off inc s).world, (writeInternalCmd d addr off inc s).sBuf,
        (writeInternalCmd d addr off inc s).rBuf, s.buf⟩ := rfl

theorem readExternal_all {σ : Type} (d : Device σ) (w : World σ) (buf : List Nat) :
    ∃ r, i1d3ReadExternalEeprom d w buf = some r ∧ r.ret = 0 ∧
      r.world.sent = w.sent ++ (chunkList 59 8192 139).map (fun c => extReadFrame c.1 c.2) := by
  refine ⟨_, i1d3ReadExternalEeprom_eq d w buf, rfl, ?_⟩
  rw [map_chunkList]
  exact (readExternal_state d w buf 139 (le_refl _)).2.2.2

theorem writeExternal_all {σ : Type} (d : Device σ) (w : World σ) (image : List Nat) :
    ∃ r, i1d3WriteExternalEeprom d w image = some r ∧ r.ret = 0 ∧
      r.world.sent = w.sent ++
        (chunkList 32 8192 256).map (fun c => extWriteFrame image c.1 c.2) := by
  refine ⟨_, i1d3WriteExternalEeprom_eq d w image, rfl, ?_⟩
  rw [map_chunkList]
  exact (writeExternal_state d w image 256 (le_refl _)).2.2.2

theorem readInternal_all {σ : Type} (d : Device σ) (w : World σ) (buf : List Nat) :
    ∃ r, i1d3ReadInternalEeprom d w buf = some r ∧ r.ret = 0 ∧
      r.world.sent = w.sent ++ (chunkList 60 256 5).map (fun c => intReadFrame c.1 c.2) := by
  refine ⟨_, i1d3ReadInternalEeprom_eq d w buf, rfl, ?_⟩
  rw [map_chunkList]
  exact (readInternal_state d w buf 5 (le_refl _)).2.2.2

theorem writeInternal_all {σ : Type} (d : Device σ) (w : World σ) (image : List Nat) :
    ∃ r, i1d3WriteInternalEeprom d w image = some r ∧ r.ret = 0 ∧
      r.world.sent = w.sent ++
        (chunkList 32 256 8).map (fun c => intWriteFrame image c.1 c.2) := by
  refine ⟨_, i1d3WriteInternalEeprom_eq d w image, rfl, ?_⟩
  rw [map_chunkList]
  exact (writeInternal_state d w image 8 (le_refl _)).2.2.2

theorem length_chunkList (chunk size n : Nat) : (chunkList chunk size n).length = n := by
  simp [chunkList]

/-- Claim C11, counterexample. On a device on which every write and every read
fails, the command of the first chunk of each of the four transfers returns -1, and yet
each transfer goes through all its chunks (139, 256, 5, 8 requests sent) and returns 0. -/
theorem region_abort_counterexample :
    ((readExternalCmd deadDevice 0 59
        ⟨deadWorld, List.replicate 64 0, List.replicate 64 0, List.replicate 8192 0⟩).ret = -1 ∧
      ∃ r, i1d3ReadExternalEeprom deadDevice deadWorld (List.replicate 8192 0) = some r ∧
        r.ret = 0 ∧ r.world.sent.length = 139) ∧
    ((writeExternalCmd deadDevice 0 0 32
        ⟨deadWorld, List.replicate 64 0, List.replicate 64 0, blankImage⟩).ret = -1 ∧
      ∃ r, i1d3WriteExternalEeprom deadDevice deadWorld blankImage = some r ∧
        r.ret = 0 ∧ r.world.sent.length = 256) ∧
    ((readInternalCmd deadDevice 0 60
        ⟨deadWorld, List.replicate 64 0, List.replicate 64 0, List.replicate 256 0⟩).ret = -1 ∧
      ∃ r, i1d3ReadInternalEeprom deadDevice deadWorld (List.replicate 256 0) = some r ∧
        r.ret = 0 ∧ r.world.sent.length = 5) ∧
    ((writeInternalCmd deadDevice 0 0 32
        ⟨deadWorld, List.replicate 64 0, List.replicate 64 0, sampleInternal⟩).ret = -1 ∧
      ∃ r, i1d3WriteInternalEeprom deadDevice deadWorld sampleInternal = some r ∧
        r.ret = 0 ∧ r.world.sent.length = 8) := by
  refine ⟨⟨rfl, ?_⟩, ⟨rfl, ?_⟩, ⟨rfl, ?_⟩, ⟨rfl, ?_⟩⟩
  · obtain ⟨r, h1, h2, h3⟩ := readExternal_all deadDevice deadWorld (List.replicate 8192 0)
    exact ⟨r, h1, h2, by rw [h3, List.length_append, List.length_map, length_chunkList]; rfl⟩
  · obtain ⟨r, h1, h2, h3⟩ := writeExternal_all deadDevice deadWorld blankImage
    exact ⟨r, h1, h2, by rw [h3, List.length_append, List.length_map, length_chunkList]; rfl⟩
  · obtain ⟨r, h1, h2, h3⟩ := readInternal_all deadDevice deadWorld (List.replicate 256 0)
    exact ⟨r, h1, h2, by rw [h3, List.length_append, List.length_map, length_chunkList]; rfl⟩
  · obtain ⟨r, h1, h2, h3⟩ := writeInternal_all deadDevice deadWorld sampleInternal
    exact ⟨r, h1, h2, by rw [h3, List.length_append, List.length_map, length_chunkList]; rfl⟩

/-- Claim C11, amended. For each of the four transfers and every device: if the
command of chunk `k` returns -1 (transport error or a response that fails validation),
the transfer does not stop there; it returns, its return value is 0, and the requests of
all its chunks (139, 256, 5, 8) have been handed to the transport, in order. -/
theorem region_runs_to_end {σ : Type} (d : Device σ) (w : World σ) (bufE bufI : List Nat)
    (k : Nat) :
    (k < 139 ∧ (readExternalCmd d (59 * k) (min 59 (8192 - 59 * k))
        (chunksDone 59 8192 (readExternalBody d)
          ⟨w, List.replicate 64 0, List.replicate 64 0, bufE⟩ k)).ret = -1 →
      ∃ r, i1d3ReadExternalEeprom d w bufE = some r ∧ r.ret = 0 ∧
        r.world.sent = w.sent ++ (chunkList 59 8192 139).map (fun c => extReadFrame c.1 c.2)) ∧
    (k < 256 ∧ (writeExternalCmd d (32 * k) (32 * k) (min 32 (8192 - 32 * k))
        (chunksDone 32 8192 (writeExternalBody d)
          ⟨w, List.replicate 64 0, List.replicate 64 0, bufE⟩ k)).ret = -1 →
      ∃ r, i1d3WriteExternalEeprom d w bufE = some r ∧ r.ret = 0 ∧
        r.world.sent = w.sent ++
          (chunkList 32 8192 256).map (fun c => extWriteFrame bufE c.1 c.2)) ∧
    (k < 5 ∧ (readInternalCmd d (60 * k) (min 60 (256 - 60 * k))
        (chunksDone 60 256 (readInternalBody d)
          ⟨w, List.replicate 64 0, List.replicate 64 0, bufI⟩ k)).ret = -1 →
      ∃ r, i1d3ReadInternalEeprom d w bufI = some r ∧ r.ret = 0 ∧
        r.world.sent = w.sent ++ (chunkList 60 256 5).map (fun c => intReadFrame c.1 c.2)) ∧
    (k < 8 ∧ (writeInternalCmd d (32 * k) (32 * k) (min 32 (256 - 32 * k))
        (chunksDone 32 256 (writeInternalBody d)
          ⟨w, List.replicate 64 0, List.replicate 64 0, bufI⟩ k)).ret = -1 →
      ∃ r, i1d3WriteInternalEeprom d w bufI = some r ∧ r.ret = 0 ∧
        r.world.sent = w.sent ++
          (chunkList 32 256 8).map (fun c => intWriteFrame bufI c.1 c.2)) :=
  ⟨fun _ => readExternal_all d w bufE, fun _ => writeExternal_all d w bufE,
    fun _ => readInternal_all d w bufI, fun _ => writeInternal_all d w bufI⟩

theorem region_runs_to_end_witness :
    (∃ r, i1d3ReadExternalEeprom deadDevice deadWorld blankImage = some r ∧ r.ret = 0 ∧
      r.world.sent = deadWorld.sent ++
        (chunkList 59 8192 139).map (fun c => extReadFrame c.1 c.2)) ∧
    (∃ r, i1d3WriteExternalEeprom deadDevice deadWorld blankImage = some r ∧ r.ret = 0 ∧
      r.world.sent = deadWorld.sent ++
        (chunkList 32 8192 256).map (fun c => extWriteFrame blankImage c.1 c.2)) ∧
    (∃ r, i1d3ReadInternalEeprom deadDevice deadWorld sampleInternal = some r ∧ r.ret = 0 ∧
      r.world.sent = deadWorld.sent ++
        (chunkList 60 256 5).map (fun c => intReadFrame c.1 c.2)) ∧
    (∃ r, i1d3WriteInternalEeprom deadDevice deadWorld sampleInternal = some r ∧ r.ret = 0 ∧
      r.world.sent = deadWorld.sent ++
        (chunkList 32 256 8).map (fun c => intWriteFrame sampleInternal c.1 c.2)) :=
  ⟨(region_runs_to_end deadDevice deadWorld blankImage sampleInternal 0).1 ⟨by decide, rfl⟩,
    (region_runs_to_end deadDevice deadWorld blankImage sampleInternal 0).2.1 ⟨by decide, rfl⟩,
    (region_runs_to_end deadDevice deadWorld blankImage sampleInternal 0).2.2.1
      ⟨by decide, rfl⟩,
    (region_runs_to_end deadDevice deadWorld blankImage sampleInternal 0).2.2.2
      ⟨by decide, rfl⟩⟩

/-! ## Failed commands inside `i1d3UnLock` -/

theorem unlockAttempt_cmd {σ : Type} (d : Device σ) (k : Nat × Nat) (w : World σ) :
    unlockAttempt d k w = ((answerCmd d k w).world, (answerCmd d k w).rBuf) := rfl

theorem attemptsRun_append {σ : Type} (d : Device σ) (k1 k2 : List (Nat × Nat)) (w : World σ) :
    attemptsRun d (k1 ++ k2) w = attemptsRun d k2 (attemptsRun d k1 w) := by
  unfold attemptsRun
  rw [List.foldl_append]

theorem attemptsRun_sent_grows {σ : Type} (d : Device σ) (keys : List (Nat × Nat))
    (w : World σ) : ∃ more, (attemptsRun d keys w).sent = w.sent ++ more := by
  induction keys generalizing w with
  | nil => exact ⟨[], (List.append_nil _).symm⟩
  | cons k ks ih =>
    obtain ⟨f1, f2, hs, _, _⟩ := unlockAttempt_sent d k w
    obtain ⟨more, hm⟩ := ih (unlockAttempt d k w).1
    refine ⟨[f1, f2] ++ more, ?_⟩
    show (attemptsRun d ks (unlockAttempt d k w).1).sent = _
    rw [hm, hs, List.append_assoc]

theorem attemptsRun_next {σ : Type} (d : Device σ) (keys : List (Nat × Nat)) (w : World σ)
    (n m : Nat) (hnm : n < m) (hm : m ≤ keys.length) :
    ∃ f1 f2 more, (attemptsRun d (keys.take m) w).sent =
        (attemptsRun d (keys.take n) w).sent ++ f1 :: f2 :: more ∧
      rd f1 0 = 0x99 ∧ rd f2 0 = 0x9a := by
  have hsplit : keys.take m = keys.take n ++ (keys.take m).drop n := by
    have h := (List.take_append_drop n (keys.take m)).symm
    rwa [List.take_take, Nat.min_eq_left (Nat.le_of_lt hnm)] at h
  have hlen : ((keys.take m).drop n).length = m - n := by
    rw [List.length_drop, List.length_take, Nat.min_eq_left hm]
  rw [hsplit, attemptsRun_append]
  cases hrest : (keys.take m).drop n with
  | nil =>
    rw [hrest] at hlen
    simp only [List.length_nil] at hlen
    omega
  | cons k ks =>
    obtain ⟨f1, f2, hs, h1, h2⟩ := unlockAttempt_sent d k (attemptsRun d (keys.take n) w)
    obtain ⟨more, hmore⟩ := attemptsRun_sent_grows d ks
      (unlockAttempt d k (attemptsRun d (keys.take n) w)).1
    refine ⟨f1, f2, more, ?_, h1, h2⟩
    show (attemptsRun d ks (unlockAttempt d k (attemptsRun d (keys.take n) w)).1).sent = _
    rw [hmore, hs, List.append_assoc]
    rfl

theorem i1d3UnLock_cases {σ : Type} (d : Device σ) (w : World σ) :
    (∃ j, j < 9 ∧ rd (resultFrame d i1d3UnLockKeys w j) 2 = 0x77 ∧
        (∀ i, i < j → rd (resultFrame d i1d3UnLockKeys w i) 2 ≠ 0x77) ∧
        i1d3UnLock d w = ((j : Int), attemptsRun d (i1d3UnLockKeys.take (j + 1)) w)) ∨
      ((∀ i, i < 9 → rd (resultFrame d i1d3UnLockKeys w i) 2 ≠ 0x77) ∧
        i1d3UnLock d w = (-1, attemptsRun d (i1d3UnLockKeys.take 9) w)) := by
  have hk : i1d3UnLockKeys.take i1d3numUnLockKeys = i1d3UnLockKeys := rfl
  have hlen : i1d3UnLockKeys.length = 9 := rfl
  rcases unlockLoop_spec d i1d3UnLockKeys 0 w with ⟨j, hj, h77, hlt, heq⟩ | ⟨hall, heq⟩
  · rw [hlen] at hj
    rw [Nat.zero_add] at heq
    refine Or.inl ⟨j, hj, h77, hlt, ?_⟩
    unfold i1d3UnLock; rw [hk]; exact heq
  · rw [hlen] at hall
    refine Or.inr ⟨hall, ?_⟩
    unfold i1d3UnLock; rw [hk]; exact heq

/-- Claim C17, counterexample. On a device on which every write and read fails the
get-challenge command of the first key returns -1, and yet `i1d3UnLock` goes on to send
18 frames, two for each of the 9 keys.  On a device that hands out a challenge with byte
2 equal to `0x77` and then lets the read of the answer fail, the answer-challenge
command of the first key returns -1, and yet `i1d3UnLock` returns 0: unlocked with the
first key. -/
theorem unlock_abort_counterexample :
    ((challengeCmd deadDevice deadWorld).ret = -1 ∧
      (i1d3UnLock deadDevice deadWorld).1 = -1 ∧
      (i1d3UnLock deadDevice deadWorld).2.sent.length = 18) ∧
    ((challengeCmd staleDevice idleWorld).ret = 0 ∧
      (answerCmd staleDevice (i1d3UnLockKeys.getD 0 (0, 0)) idleWorld).ret = -1 ∧
      (i1d3UnLock staleDevice idleWorld).1 = 0 ∧
      (i1d3UnLock staleDevice idleWorld).2.sent.length = 2) := by
  refine ⟨⟨rfl, ?_, ?_⟩, rfl, ?_, ?_, ?_⟩ <;> decide

/-- Claim C17, amended. For every device and every attempt `j` below 9 that is
reached (no earlier result buffer has byte 2 equal to `0x77`): if the get-challenge or
the answer-challenge command of attempt `j` returns -1, `i1d3UnLock` does not abort.  It
still tests byte 2 of the result buffer `fBuf`: when that byte is `0x77` it returns `j`,
a successful unlock; when it is not and `j` is not the last key, it goes on to send the
get-challenge and answer-challenge commands of the next key. -/
theorem unlock_continues_after_failure {σ : Type} (d : Device σ) (w : World σ) (j : Nat)
    (hj : j < 9)
    (hprev : ∀ i, i < j → rd (resultFrame d i1d3UnLockKeys w i) 2 ≠ 0x77)
    (_hfail : (challengeCmd d (attemptsRun d (i1d3UnLockKeys.take j) w)).ret = -1 ∨
      (answerCmd d (i1d3UnLockKeys.getD j (0, 0))
        (attemptsRun d (i1d3UnLockKeys.take j) w)).ret = -1) :
    resultFrame d i1d3UnLockKeys w j =
      (answerCmd d (i1d3UnLockKeys.getD j (0, 0))
        (attemptsRun d (i1d3UnLockKeys.take j) w)).rBuf ∧
    (rd (resultFrame d i1d3UnLockKeys w j) 2 = 0x77 →
      i1d3UnLock d w = ((j : Int), attemptsRun d (i1d3UnLockKeys.take (j + 1)) w)) ∧
    (rd (resultFrame d i1d3UnLockKeys w j) 2 ≠ 0x77 → j + 1 < 9 →
      ∃ f1 f2 more, (i1d3UnLock d w).2.sent =
          (attemptsRun d (i1d3UnLockKeys.take (j + 1)) w).sent ++ f1 :: f2 :: more ∧
        rd f1 0 = 0x99 ∧ rd f2 0 = 0x9a) := by
  have hlen : i1d3UnLockKeys.length = 9 := rfl
  refine ⟨rfl, ?_, ?_⟩
  · intro h77
    rcases i1d3UnLock_cases d w with ⟨j', hj', h77', hlt, heq⟩ | ⟨hall, _⟩
    · have : j' = j := by
        rcases Nat.lt_trichotomy j' j with h | h | h
        · exact absurd h77' (hprev j' h)
        · exact h
        · exact absurd h77 (hlt j h)
      rw [← this]
      exact heq
    · exact absurd h77 (hall j hj)
  · intro hne hnext
    rcases i1d3UnLock_cases d w with ⟨j', hj', h77', hlt, heq⟩ | ⟨hall, heq⟩
    · have hgt : j < j' := by
        rcases Nat.lt_trichotomy j' j with h | h | h
        · exact absurd h77' (hprev j' h)
        · rw [h] at h77'
          exact absurd h77' hne
        · exact h
      rw [heq]
      exact attemptsRun_next d i1d3UnLockKeys w (j + 1) (j' + 1) (by omega)
        (by rw [hlen]; omega)
    · rw [heq]
      exact attemptsRun_next d i1d3UnLockKeys w (j + 1) 9 (by omega) (by rw [hlen])

set_option maxRecDepth 100000 in
theorem unlock_continues_after_failure_witness :
    (answerCmd staleDevice (i1d3UnLockKeys.getD 0 (0, 0))
      (attemptsRun staleDevice (i1d3UnLockKeys.take 0) idleWorld)).ret = -1 ∧
    rd (resultFrame staleDevice i1d3UnLockKeys idleWorld 0) 2 = 0x77 ∧
    i1d3UnLock staleDevice idleWorld =
      (((0 : Nat) : Int), attemptsRun staleDevice (i1d3UnLockKeys.take (0 + 1)) idleWorld) :=
  ⟨by decide, by decide,
    (unlock_continues_after_failure staleDevice idleWorld 0 (by decide)
      (fun i hi => absurd hi (Nat.not_lt_zero i)) (Or.inr (by decide))).2.1 (by decide)⟩

/-! ## The serial number step -/

theorem length_serialStep (eBuf fileName after : List Nat) :
    (serialStep eBuf fileName after).length = eBuf.length := by
  unfold serialStep
  simp only
  rw [length_memcpy]

theorem rd_serialStep (eBuf fileName after : List Nat) (he : eBuf.length = 256) (j : Nat) :
    rd (serialStep eBuf fileName after) j =
      if 16 ≤ j ∧ j < 36 then rd (fileName ++ [0] ++ after) (j - 16) else rd eBuf j := by
  unfold serialStep
  simp only
  rw [rd_memcpy eBuf 16 _ 0 20 j]
  by_cases h : 16 ≤ j ∧ j < 36
  · rw [if_pos (by omega), if_pos h, Nat.zero_add,
      rd_memcpy (List.replicate 21 0) 0 _ 0 20 (j - 16),
      if_pos ⟨Nat.zero_le _, by omega, by rw [List.length_replicate]; omega⟩, Nat.zero_add,
      Nat.sub_zero]
  · rw [if_neg (by omega), if_neg h]

theorem rd_drop_take (l : List Nat) (a n j : Nat) (hj : j < n) :
    rd ((l.drop a).take n) j = rd l (a + j) := by
  unfold rd
  rw [List.getD_eq_getElem?_getD, List.getD_eq_getElem?_getD, List.getElem?_take,
    if_pos hj, List.getElem?_drop]

/-- What the serial number step keeps: for every internal image of 256 bytes it leaves the length and every byte outside offsets 16..35 as they
were, and byte `16 + j` of the result is byte `j` of the memory at `fileName`; when the
string has 19 characters or more, bytes 16..35 are the string truncated to 20 bytes or
padded with a zero byte. -/
theorem serialStep_spec (eBuf fileName after : List Nat) (he : eBuf.length = 256) :
    (serialStep eBuf fileName after).length = 256 ∧
    (∀ j, j < 16 ∨ 36 ≤ j → rd (serialStep eBuf fileName after) j = rd eBuf j) ∧
    (∀ j, j < 20 →
      rd (serialStep eBuf fileName after) (16 + j) = rd (fileName ++ [0] ++ after) j) ∧
    (19 ≤ fileName.length →
      ((serialStep eBuf fileName after).drop 16).take 20 = serialField fileName) := by
  refine ⟨by rw [length_serialStep, he], ?_, ?_, ?_⟩
  · intro j hj
    rw [rd_serialStep eBuf fileName after he, if_neg (by omega)]
  · intro j hj
    rw [rd_serialStep eBuf fileName after he, if_pos (by omega), Nat.add_sub_cancel_left]
  · intro hlen
    apply list_eq_of_rd 20
    · rw [List.length_take, List.length_drop, length_serialStep, he]
      rfl
    · unfold serialField
      rw [List.length_append, List.length_take, List.length_replicate]
      omega
    · intro j hj
      rw [rd_drop_take _ 16 20 j hj, rd_serialStep eBuf fileName after he, if_pos (by omega),
        Nat.add_sub_cancel_left]
      unfold serialField rd
      rw [List.getD_eq_getElem?_getD, List.getD_eq_getElem?_getD]
      by_cases hj2 : j < fileName.length
      · rw [List.append_assoc, List.getElem?_append_left hj2,
          List.getElem?_append_left (by rw [List.length_take]; omega), List.getElem?_take,
          if_pos hj]
      · have hj3 : j = 19 := by omega
        have hl : fileName.length = 19 := by omega
        subst hj3
        have ht : fileName.take 20 = fileName := List.take_of_length_le (by omega)
        have hle : fileName.length ≤ 19 := by omega
        rw [List.append_assoc, ht, List.getElem?_append_right hle,
          List.getElem?_append_right hle, hl]
        simp

theorem serialStep_spec_witness :
    (serialStep sampleInternal (List.replicate 19 0x31) [0xaa]).length = 256 ∧
    ((serialStep sampleInternal (List.replicate 19 0x31) [0xaa]).drop 16).take 20 =
      serialField (List.replicate 19 0x31) :=
  ⟨(serialStep_spec sampleInternal (List.replicate 19 0x31) [0xaa]
      sampleInternal_isBytes.1).1,
    (serialStep_spec sampleInternal (List.replicate 19 0x31) [0xaa]
      sampleInternal_isBytes.1).2.2.2 (by decide)⟩

/-- Claim C14 at the serial number `A`. The argument is the one character `0x41`, the
bytes behind its terminator in memory are `0xaa`.  The serial number step copies 20
bytes from `fileName`, so bytes 16..35 of the image are `0x41, 0` and then 18 bytes
`0xaa`; the string padded with zero bytes is `0x41` and then 19 zero bytes. -/
theorem serialStep_short_string :
    ((serialStep sampleInternal [0x41] (List.replicate 18 0xaa)).drop 16).take 20 =
      [0x41, 0] ++ List.replicate 18 0xaa ∧
    serialField [0x41] = 0x41 :: List.replicate 19 0 ∧
    ((serialStep sampleInternal [0x41] (List.replicate 18 0xaa)).drop 16).take 20 ≠
      serialField [0x41] := by
  decide

/-! ## No EEPROM write request without `-w` -/

theorem Quiet.rfl {σ : Type} (w : World σ) : Quiet w w :=
  ⟨[], (List.append_nil _).symm, fun f hf => absurd hf (List.not_mem_nil f)⟩

theorem Quiet.trans {σ : Type} {w1 w2 w3 : World σ} (h1 : Quiet w1 w2) (h2 : Quiet w2 w3) :
    Quiet w1 w3 := by
  obtain ⟨n1, e1, q1⟩ := h1
  obtain ⟨n2, e2, q2⟩ := h2
  refine ⟨n1 ++ n2, by rw [e2, e1, List.append_assoc], ?_⟩
  intro f hf
  rcases List.mem_append.1 hf with h | h
  · exact q1 f h
  · exact q2 f h

theorem quiet_unlock {σ : Type} (d : Device σ) (w : World σ) : Quiet w (i1d3UnLock d w).2 := by
  obtain ⟨new, hn, hf⟩ := unlockLoop_sent d (i1d3UnLockKeys.take i1d3numUnLockKeys) 0 w
  refine ⟨new, hn, ?_⟩
  intro f hm
  rcases hf f hm with h | h <;> rw [h] <;> decide

theorem quiet_enWrite {σ : Type} (d : Device σ) (w : World σ) : Quiet w (i1d3EnWrite d w).2 := by
  obtain ⟨f, hn, hf⟩ := i1d3EnWrite_sent d w
  refine ⟨[f], hn, ?_⟩
  intro g hm
  rw [List.mem_singleton.1 hm, hf]
  decide

theorem quiet_getInfo {σ : Type} (d : Device σ) (w : World σ) : Quiet w (i1d3GetInfo d w).1 := by
  refine ⟨[cmdFrame 0x0000 (List.replicate 64 0)], i1d3Command_sent d w 0x0000 _ _, ?_⟩
  intro g hm
  rw [List.mem_singleton.1 hm]
  decide

theorem quiet_readInternal {σ : Type} (d : Device σ) (w : World σ) (buf : List Nat) :
    ∃ r, i1d3ReadInternalEeprom d w buf = some r ∧ Quiet w r.world := by
  refine ⟨_, i1d3ReadInternalEeprom_eq d w buf, _,
    (readInternal_state d w buf 5 (le_refl _)).2.2.2, ?_⟩
  intro f hf
  obtain ⟨k, _, rfl⟩ := List.mem_map.1 hf
  rw [(rd_intReadFrame_hdr _ _).1]
  decide

theorem quiet_readExternal {σ : Type} (d : Device σ) (w : World σ) (buf : List Nat) :
    ∃ r, i1d3ReadExternalEeprom d w buf = some r ∧ Quiet w r.world := by
  refine ⟨_, i1d3ReadExternalEeprom_eq d w buf, _,
    (readExternal_state d w buf 139 (le_refl _)).2.2.2, ?_⟩
  intro f hf
  obtain ⟨k, _, rfl⟩ := List.mem_map.1 hf
  rw [(rd_extReadFrame_hdr _ _).1]
  decide

theorem saveFile_world {σ : Type} (env : Env) (size : Nat) (w : World σ) :
    (saveFile env size w).world = w := by
  unfold saveFile
  split_ifs <;> rfl

theorem quiet_branchVer {σ : Type} (d : Device σ) (w : World σ) :
    ∃ r, branchVer d w = some r ∧ Quiet w r.world :=
  ⟨_, rfl, (quiet_getInfo d w).trans (quiet_unlock d _)⟩

theorem quiet_branchReadSerial {σ : Type} (d : Device σ) (w : World σ) :
    ∃ r, branchReadSerial d w = some r ∧ Quiet w r.world := by
  unfold branchReadSerial
  simp only
  split_ifs
  · exact ⟨_, rfl, quiet_unlock d w⟩
  · obtain ⟨r, hr, hq⟩ := quiet_readInternal d (i1d3UnLock d w).2 (List.replicate 256 0)
    rw [hr]
    exact ⟨_, rfl, (quiet_unlock d w).trans hq⟩

theorem quiet_branchWriteSerial {σ : Type} (d : Device σ) (w : World σ)
    (fileName after : List Nat) :
    ∃ r, branchWriteSerial d w false fileName after = some r ∧ Quiet w r.world := by
  unfold branchWriteSerial
  simp only [Bool.false_eq_true, if_false]
  split_ifs
  · exact ⟨_, rfl, quiet_unlock d w⟩
  · obtain ⟨r, hr, hq⟩ := quiet_readInternal d (i1d3EnWrite d (i1d3UnLock d w).2).2
      (List.replicate 256 0)
    rw [hr]
    exact ⟨_, rfl, ((quiet_unlock d w).trans (quiet_enWrite d _)).trans hq⟩

theorem quiet_branchReadInternal {σ : Type} (d : Device σ) (w : World σ) (env : Env) :
    ∃ r, branchReadInternal d w env = some r ∧ Quiet w r.world := by
  unfold branchReadInternal
  simp only
  split_ifs
  · exact ⟨_, rfl, quiet_unlock d w⟩
  · exact ⟨_, rfl, quiet_unlock d w⟩
  · exact ⟨_, rfl, quiet_unlock d w⟩
  · obtain ⟨r, hr, hq⟩ := quiet_readInternal d (i1d3UnLock d w).2 (List.replicate 256 0)
    rw [hr]
    refine ⟨_, rfl, ?_⟩
    rw [saveFile_world]
    exact (quiet_unlock d w).trans hq

theorem quiet_branchWriteInternal {σ : Type} (d : Device σ) (w : World σ) (env : Env) :
    ∃ r, branchWriteInternal d w false env = some r ∧ Quiet w r.world := by
  unfold branchWriteInternal
  simp only [Bool.false_eq_true, if_false]
  split_ifs
  · exact ⟨_, rfl, Quiet.rfl w⟩
  · exact ⟨_, rfl, Quiet.rfl w⟩
  · exact ⟨_, rfl, Quiet.rfl w⟩
  · exact ⟨_, rfl, Quiet.rfl w⟩
  · exact ⟨_, rfl, Quiet.rfl w⟩
  · exact ⟨_, rfl, quiet_unlock d w⟩
  · exact ⟨_, rfl, (quiet_unlock d w).trans (quiet_enWrite d _)⟩

theorem quiet_branchReadExternal {σ : Type} (d : Device σ) (w : World σ) (env : Env) :
    ∃ r, branchReadExternal d w env = some r ∧ Quiet w r.world := by
  unfold branchReadExternal
  simp only
  split_ifs
  · exact ⟨_, rfl, quiet_unlock d w⟩
  · exact ⟨_, rfl, quiet_unlock d w⟩
  · exact ⟨_, rfl, quiet_unlock d w⟩
  · obtain ⟨r, hr, hq⟩ := quiet_readExternal d (i1d3UnLock d w).2 (List.replicate 8192 0)
    rw [hr]
    refine ⟨_, rfl, ?_⟩
    rw [saveFile_world]
    exact (quiet_unlock d w).trans hq

theorem quiet_branchWriteExternal {σ : Type} (d : Device σ) (w : World σ) (env : Env) :
    ∃ r, branchWriteExternal d w false env = some r ∧ Quiet w r.world := by
  unfold branchWriteExternal
  simp only [Bool.false_eq_true, if_false]
  split_ifs
  · exact ⟨_, rfl, Quiet.rfl w⟩
  · exact ⟨_, rfl, Quiet.rfl w⟩
  · exact ⟨_, rfl, Quiet.rfl w⟩
  · exact ⟨_, rfl, Quiet.rfl w⟩
  · exact ⟨_, rfl, Quiet.rfl w⟩
  · exact ⟨_, rfl, (quiet_unlock d w).trans (quiet_enWrite d _)⟩

theorem quiet_branchReadSig {σ : Type} (d : Device σ) (w : World σ) (env : Env) :
    ∃ r, branchReadSig d w env = some r ∧ Quiet w r.world := by
  unfold branchReadSig
  split_ifs
  · exact ⟨_, rfl, Quiet.rfl w⟩
  · exact ⟨_, rfl, Quiet.rfl w⟩
  · obtain ⟨r, hr, hq⟩ := quiet_readExternal d w (List.replicate 8192 0)
    rw [hr]
    refine ⟨_, rfl, ?_⟩
    rw [saveFile_world]
    exact hq

theorem wSigPatch_disabled {σ : Type} (d : Device σ) (w : World σ) (buf eBuf : List Nat) :
    ∃ r, wSigPatch d w false buf eBuf = some r ∧ r.world = w := by
  unfold wSigPatch
  simp only
  split
  · exact ⟨_, rfl, rfl⟩
  · rw [if_neg Bool.false_ne_true]
    exact ⟨_, rfl, rfl⟩

theorem quiet_mainWriteSig {σ : Type} (d : Device σ) (w : World σ) (buf : List Nat) :
    ∃ r, mainWriteSig d w false buf = some r ∧ Quiet w r.world := by
  obtain ⟨r0, hr0, hq⟩ := quiet_readExternal d (i1d3EnWrite d (i1d3UnLock d w).2).2
    (List.replicate 8192 0)
  obtain ⟨r, hr, hw⟩ := wSigPatch_disabled d r0.world buf r0.buf
  refine ⟨r, ?_, ?_⟩
  · unfold mainWriteSig
    simp only
    rw [hr0]
    exact hr
  · rw [hw]
    exact ((quiet_unlock d w).trans (quiet_enWrite d _)).trans hq

theorem quiet_branchWriteSig {σ : Type} (d : Device σ) (w : World σ) (env : Env) :
    ∃ r, branchWriteSig d w false env = some r ∧ Quiet w r.world := by
  unfold branchWriteSig
  split_ifs
  · exact ⟨_, rfl, Quiet.rfl w⟩
  · exact ⟨_, rfl, Quiet.rfl w⟩
  · exact ⟨_, rfl, Quiet.rfl w⟩
  · exact ⟨_, rfl, Quiet.rfl w⟩
  · exact ⟨_, rfl, Quiet.rfl w⟩
  · obtain ⟨r, hr, hq⟩ := quiet_mainWriteSig d w env.fileData
    rw [hr]
    refine ⟨_, rfl, ?_⟩
    obtain ⟨e, rw1, rb⟩ := r
    cases e <;> exact hq

theorem ite_some_quiet {σ : Type} (w : World σ) (c : Prop) [Decidable c]
    (a b : Option (RunResult σ)) (ha : ∃ r, a = some r ∧ Quiet w r.world)
    (hb : ∃ r, b = some r ∧ Quiet w r.world) :
    ∃ r, (if c then a else b) = some r ∧ Quiet w r.world := by
  split
  · exact ha
  · exact hb

theorem quiet_mainRun {σ : Type} (fl : Flags) (env : Env) (d : Device σ) (w : World σ)
    (hfl : fl.enableEEPROMwrite = false) :
    ∃ r, mainRun fl env d w = some r ∧ Quiet w r.world := by
  have hstop : ∃ r, (some ⟨1, w⟩ : Option (RunResult σ)) = some r ∧ Quiet w r.world :=
    ⟨_, rfl, Quiet.rfl w⟩
  have h5021 : ∃ r, (i1d3ReadInternalEeprom d (i1d3EnWrite d (i1d3UnLock d w).2).2
      (List.replicate 256 0)).map (fun r => (⟨1, r.world⟩ : RunResult σ)) = some r ∧
      Quiet w r.world := by
    obtain ⟨r, hr, hq⟩ := quiet_readInternal d (i1d3EnWrite d (i1d3UnLock d w).2).2
      (List.replicate 256 0)
    rw [hr]
    exact ⟨_, rfl, ((quiet_unlock d w).trans (quiet_enWrite d _)).trans hq⟩
  unfold mainRun
  rw [hfl]
  refine ite_some_quiet w _ _ _ hstop ?_
  refine ite_some_quiet w _ _ _ hstop ?_
  refine ite_some_quiet w _ _ _ hstop ?_
  refine ite_some_quiet w _ _ _ hstop ?_
  refine ite_some_quiet w _ _ _ hstop ?_
  refine ite_some_quiet w _ _ _ h5021 ?_
  refine ite_some_quiet w _ _ _ (quiet_branchVer d w) ?_
  refine ite_some_quiet w _ _ _ (quiet_branchReadSerial d w) ?_
  refine ite_some_quiet w _ _ _ (quiet_branchWriteSerial d w _ _) ?_
  refine ite_some_quiet w _ _ _ (quiet_branchReadInternal d w env) ?_
  refine ite_some_quiet w _ _ _ (quiet_branchWriteInternal d w env) ?_
  refine ite_some_quiet w _ _ _ (quiet_branchReadExternal d w env) ?_
  refine ite_some_quiet w _ _ _ (quiet_branchWriteExternal d w env) ?_
  refine ite_some_quiet w _ _ _ (quiet_branchReadSig d w env) ?_
  refine ite_some_quiet w _ _ _ (quiet_branchWriteSig d w env) ?_
  exact ⟨_, rfl, Quiet.rfl w⟩

theorem ite_enable (fl fl1 : Flags) (c : Prop) [Decidable c] (a b : Option Flags)
    (ha : c → a = some fl1 → fl1.enableEEPROMwrite = fl.enableEEPROMwrite)
    (hb : ¬ c → b = some fl1 → fl1.enableEEPROMwrite = fl.enableEEPROMwrite) :
    (if c then a else b) = some fl1 → fl1.enableEEPROMwrite = fl.enableEEPROMwrite := by
  split
  · exact ha ‹c›
  · exact hb ‹¬ c›

theorem applyOpt_enable (fl fl1 : Flags) (opt : Char) (hopt : opt ≠ 'w')
    (h : applyOpt fl opt = some fl1) : fl1.enableEEPROMwrite = fl.enableEEPROMwrite := by
  revert h
  unfold applyOpt
  refine ite_enable fl fl1 _ _ _ (fun _ h => by rw [← Option.some.inj h]) (fun _ => ?_)
  refine ite_enable fl fl1 _ _ _ (fun hc _ => absurd hc hopt) (fun _ => ?_)
  refine ite_enable fl fl1 _ _ _ (fun _ h => by rw [← Option.some.inj h]) (fun _ => ?_)
  refine ite_enable fl fl1 _ _ _ (fun _ h => by rw [← Option.some.inj h]) (fun _ => ?_)
  refine ite_enable fl fl1 _ _ _ (fun _ h => by rw [← Option.some.inj h]) (fun _ => ?_)
  refine ite_enable fl fl1 _ _ _ (fun _ h => by rw [← Option.some.inj h]) (fun _ => ?_)
  refine ite_enable fl fl1 _ _ _ (fun _ h => by rw [← Option.some.inj h]) (fun _ => ?_)
  refine ite_enable fl fl1 _ _ _ (fun _ h => by rw [← Option.some.inj h]) (fun _ => ?_)
  refine ite_enable fl fl1 _ _ _ (fun _ h => by rw [← Option.some.inj h]) (fun _ => ?_)
  refine ite_enable fl fl1 _ _ _ (fun _ h => by rw [← Option.some.inj h]) (fun _ => ?_)
  refine ite_enable fl fl1 _ _ _ (fun _ h => by rw [← Option.some.inj h]) (fun _ => ?_)
  exact fun h => Option.noConfusion h

theorem parseOpts_enable (opts : List Char) (hw : 'w' ∉ opts) :
    ∀ fl fl1, parseOpts fl opts = some fl1 → fl1.enableEEPROMwrite = fl.enableEEPROMwrite := by
  induction opts with
  | nil =>
    intro fl fl1 h
    cases h
    rfl
  | cons opt opts ih =>
    intro fl fl1 h
    have hopt : opt ≠ 'w' := fun e => hw (by rw [e]; exact List.mem_cons_self _ _)
    have hrest : 'w' ∉ opts := fun e => hw (List.mem_cons_of_mem _ e)
    unfold parseOpts at h
    cases ha : applyOpt fl opt with
    | none => rw [ha] at h; cases h
    | some fl2 =>
      rw [ha] at h
      rw [ih hrest fl2 fl1 h, applyOpt_enable fl fl2 opt hopt ha]

/-- Claim C15. For every list of option letters without `w`, every environment (file
name, product id, outcome of the file operations) and every device, `main` ends, and no
frame handed to the transport during the run has the opcode `0x07` (internal EEPROM
write) or `0x13` (external EEPROM write) in byte 0. -/
theorem no_write_without_enable {σ : Type} (opts : List Char) (env : Env) (d : Device σ)
    (w : World σ) (hw : 'w' ∉ opts) :
    ∃ r, i1d3util opts env d w = some r ∧ Quiet w r.world := by
  unfold i1d3util
  cases hp : parseOpts {} opts with
  | none => exact ⟨_, rfl, Quiet.rfl w⟩
  | some fl => exact quiet_mainRun fl env d w (parseOpts_enable opts hw {} fl hp)

theorem no_write_without_enable_witness :
    'w' ∉ ['f', 'S'] ∧
    ∃ r, i1d3util ['f', 'S'] sampleEnv oemDevice idleWorld = some r ∧ Quiet idleWorld r.world :=
  ⟨by decide, no_write_without_enable ['f', 'S'] sampleEnv oemDevice idleWorld (by decide)⟩

/-! ## `i1d3UnLock`: the result buffer and the device's answer -/

theorem oemDevice_responsive : Responsive oemDevice := by
  intro s frame
  refine ⟨rfl, ?_⟩
  unfold oemDevice
  simp only
  split_ifs
  · exact ⟨_, rfl, by decide⟩
  · exact ⟨_, rfl, by decide⟩
  · exact ⟨_, rfl, by decide⟩

/-- Against a device that always answers, the result buffer `fBuf` after the
answer-challenge command of attempt `j` is the frame the device handed back to it. -/
theorem answerFrame_responsive {σ : Type} (d : Device σ) (hd : Responsive d)
    (keys : List (Nat × Nat)) (w : World σ) (j : Nat) :
    answerFrame d keys w j = some (resultFrame d keys w j) := by
  obtain ⟨ch, _, h2, h3, _⟩ := i1d3Command_responsive d hd (attemptsRun d (keys.take j) w) 0x9900
    (List.replicate 64 0) (List.replicate 64 0) (List.length_replicate _ _)
  obtain ⟨fr, g1, _, g3, _⟩ := i1d3Command_responsive d hd
    (challengeCmd d (attemptsRun d (keys.take j) w)).world 0x9a00
    (i1d3CreateUnLockResponse (keys.getD j (0, 0)).1 (keys.getD j (0, 0)).2
      (challengeCmd d (attemptsRun d (keys.take j) w)).rBuf
      (challengeCmd d (attemptsRun d (keys.take j) w)).sBuf)
    (challengeCmd d (attemptsRun d (keys.take j) w)).rBuf
    (by unfold challengeCmd; rw [h3, h2])
  have hres : resultFrame d keys w j = fr := g3
  rw [hres]
  exact g1

set_option maxRecDepth 100000 in
/-- Claim C3, counterexample. The device `staleDevice` hands out a challenge with byte 2
equal to `0x77` and lets every other read fail, so it hands back no frame at all to the
answer-challenge command of any of the 9 keys.  And yet `i1d3UnLock` returns 0, after
the two frames of the first attempt, instead of -1 after 9 attempts: the read of the
answer fails, `fBuf` still holds the challenge, and its byte 2 is `0x77`. -/
theorem unlock_stale_buffer_counterexample :
    (∀ j, j < 9 → answerFrame staleDevice i1d3UnLockKeys idleWorld j = none) ∧
    rd (resultFrame staleDevice i1d3UnLockKeys idleWorld 0) 2 = 0x77 ∧
    (i1d3UnLock staleDevice idleWorld).1 = 0 ∧
    (i1d3UnLock staleDevice idleWorld).2.sent.length = 2 := by
  decide

/-- Claim C3, amended. For every device, `i1d3UnLock` tries the 9 table keys in table
order and returns the least index `j` below 9 for which the result buffer (`fBuf` as it
stands after the answer-challenge command of attempt `j`) has byte 2 equal to `0x77`,
having run exactly the attempts `0..j`, two command exchanges each, so `j` failed
attempts before it and none after it; when there is none it returns `-1` after all 9
attempts.  In particular, when only after attempt 2 the buffer has `0x77` there, the
result is 2 after 2 failed attempts.  Against a device all of whose exchanges succeed
with a full frame of 64 bytes, the result buffer of attempt `j` is the frame the device
handed back to the answer-challenge command of attempt `j`; so such a device that
returns `0x77` in byte 2 of its answer only for the 3rd key yields index 2 after exactly
2 failed attempts. -/
theorem i1d3UnLock_least {σ : Type} (d : Device σ) (w : World σ) :
    ((∃ j, j < 9 ∧ rd (resultFrame d i1d3UnLockKeys w j) 2 = 0x77 ∧
        (∀ i, i < j → rd (resultFrame d i1d3UnLockKeys w i) 2 ≠ 0x77) ∧
        i1d3UnLock d w = ((j : Int), attemptsRun d (i1d3UnLockKeys.take (j + 1)) w) ∧
        (i1d3UnLock d w).2.sent.length = w.sent.length + 2 * (j + 1)) ∨
      ((∀ i, i < 9 → rd (resultFrame d i1d3UnLockKeys w i) 2 ≠ 0x77) ∧
        i1d3UnLock d w = (-1, attemptsRun d i1d3UnLockKeys w) ∧
        (i1d3UnLock d w).2.sent.length = w.sent.length + 2 * 9)) ∧
    ((∀ i, i < 9 → (rd (resultFrame d i1d3UnLockKeys w i) 2 = 0x77 ↔ i = 2)) →
      (i1d3UnLock d w).1 = 2 ∧
      (i1d3UnLock d w).2 = attemptsRun d (i1d3UnLockKeys.take 3) w ∧
      (i1d3UnLock d w).2.sent.length = w.sent.length + 2 * 3) ∧
    (Responsive d →
      (∀ j, answerFrame d i1d3UnLockKeys w j = some (resultFrame d i1d3UnLockKeys w j)) ∧
      ((∀ i, i < 9 →
          ((answerFrame d i1d3UnLockKeys w i).map (fun fr => rd fr 2) = some 0x77 ↔ i = 2)) →
        (i1d3UnLock d w).1 = 2 ∧
        (i1d3UnLock d w).2 = attemptsRun d (i1d3UnLockKeys.take 3) w ∧
        (i1d3UnLock d w).2.sent.length = w.sent.length + 2 * 3)) := by
  have hmain : (∃ j, j < 9 ∧ rd (resultFrame d i1d3UnLockKeys w j) 2 = 0x77 ∧
        (∀ i, i < j → rd (resultFrame d i1d3UnLockKeys w i) 2 ≠ 0x77) ∧
        i1d3UnLock d w = ((j : Int), attemptsRun d (i1d3UnLockKeys.take (j + 1)) w) ∧
        (i1d3UnLock d w).2.sent.length = w.sent.length + 2 * (j + 1)) ∨
      ((∀ i, i < 9 → rd (resultFrame d i1d3UnLockKeys w i) 2 ≠ 0x77) ∧
        i1d3UnLock d w = (-1, attemptsRun d i1d3UnLockKeys w) ∧
        (i1d3UnLock d w).2.sent.length = w.sent.length + 2 * 9) := by
    have hk : i1d3UnLockKeys.take i1d3numUnLockKeys = i1d3UnLockKeys := rfl
    have hlen : i1d3UnLockKeys.length = 9 := rfl
    rcases unlockLoop_spec d i1d3UnLockKeys 0 w with ⟨j, hj, h77, hlt, heq⟩ | ⟨hall, heq⟩
    · rw [hlen] at hj
      rw [Nat.zero_add] at heq
      have heq2 : i1d3UnLock d w = ((j : Int), attemptsRun d (i1d3UnLockKeys.take (j + 1)) w) := by
        unfold i1d3UnLock; rw [hk]; exact heq
      refine Or.inl ⟨j, hj, h77, hlt, heq2, ?_⟩
      rw [heq2]
      show (attemptsRun d (i1d3UnLockKeys.take (j + 1)) w).sent.length = _
      rw [attemptsRun_sent_length, List.length_take, hlen]
      have : min (j + 1) 9 = j + 1 := by omega
      rw [this]
    · rw [hlen] at hall
      have heq2 : i1d3UnLock d w = (-1, attemptsRun d i1d3UnLockKeys w) := by
        unfold i1d3UnLock; rw [hk]; exact heq
      refine Or.inr ⟨hall, heq2, ?_⟩
      rw [heq2]
      show (attemptsRun d i1d3UnLockKeys w).sent.length = _
      rw [attemptsRun_sent_length, hlen]
  have honly2 : (∀ i, i < 9 → (rd (resultFrame d i1d3UnLockKeys w i) 2 = 0x77 ↔ i = 2)) →
      (i1d3UnLock d w).1 = 2 ∧
      (i1d3UnLock d w).2 = attemptsRun d (i1d3UnLockKeys.take 3) w ∧
      (i1d3UnLock d w).2.sent.length = w.sent.length + 2 * 3 := by
    intro honly
    rcases hmain with ⟨j, hj, h77, _, heq, hsent⟩ | ⟨hall, _, _⟩
    · have hj2 : j = 2 := (honly j hj).1 h77
      subst hj2
      exact ⟨by rw [heq]; rfl, by rw [heq], hsent⟩
    · exact absurd ((honly 2 (by decide)).2 rfl) (hall 2 (by decide))
  refine ⟨hmain, honly2, ?_⟩
  intro hd
  have hans := answerFrame_responsive d hd i1d3UnLockKeys w
  refine ⟨hans, ?_⟩
  intro hdev
  apply honly2
  intro i hi
  have h := hdev i hi
  rw [hans i, Option.map_some', Option.some.injEq] at h
  exact h

set_option maxRecDepth 100000 in
theorem i1d3UnLock_least_witness :
    (∀ i, i < 9 → (rd (resultFrame oemDevice i1d3UnLockKeys ⟨[], []⟩ i) 2 = 0x77 ↔ i = 2)) ∧
    ((i1d3UnLock oemDevice ⟨[], []⟩).1 = 2 ∧
      (i1d3UnLock oemDevice ⟨[], []⟩).2 =
        attemptsRun oemDevice (i1d3UnLockKeys.take 3) ⟨[], []⟩ ∧
      (i1d3UnLock oemDevice ⟨[], []⟩).2.sent.length = 0 + 2 * 3) ∧
    Responsive oemDevice ∧
    (∀ i, i < 9 →
      ((answerFrame oemDevice i1d3UnLockKeys ⟨[], []⟩ i).map (fun fr => rd fr 2) = some 0x77
        ↔ i = 2)) ∧
    ((i1d3UnLock oemDevice ⟨[], []⟩).1 = 2 ∧
      (i1d3UnLock oemDevice ⟨[], []⟩).2 =
        attemptsRun oemDevice (i1d3UnLockKeys.take 3) ⟨[], []⟩ ∧
      (i1d3UnLock oemDevice ⟨[], []⟩).2.sent.length = 0 + 2 * 3) :=
  have h : ∀ i, i < 9 →
      (rd (resultFrame oemDevice i1d3UnLockKeys ⟨[], []⟩ i) 2 = 0x77 ↔ i = 2) := by
    decide
  have g : ∀ i, i < 9 →
      ((answerFrame oemDevice i1d3UnLockKeys ⟨[], []⟩ i).map (fun fr => rd fr 2) = some 0x77
        ↔ i = 2) := by
    decide
  ⟨h, (i1d3UnLock_least oemDevice ⟨[], []⟩).2.1 h, oemDevice_responsive, g,
    ((i1d3UnLock_least oemDevice ⟨[], []⟩).2.2 oemDevice_responsive).2 g⟩

end I1d3
